import Mathlib

/-!
# CEC initiator firmware (`src/main.c`): shallow embedding

The firmware bit-bangs the HDMI-CEC single-wire protocol on one GPIO line and
dispatches text commands.  The embedding is explicit state passing:

* every effect of the program on the outside world (CEC line, LED, delays,
  console and UART output) is appended to `State.trace`, in program order;
* what the outside world supplies is an input of the model: the level returned
  by the k-th sample of the CEC line (`State.pin`), the clock value read by
  `is_rate_limited` (argument `now`), and the answer of `uart_is_writable`
  (argument `uart_writable`);
* C `char` and `uint8_t` values are natural numbers, `uint32_t` arithmetic is
  taken modulo `2^32` explicitly; a C string is the list of its characters and
  a buffer passed with its length (`data`, `length`) is the list of its bytes;
* inside `cec_wait_for_ack` time advances by the `busy_wait_us(10)` of each
  iteration only, so the 2000 microsecond window holds exactly 200 polls;
* one event, `Ev.send_frame`, is a ghost: it records the entry to
  `cec_send_frame` with its argument and has no effect on the execution;
* functions of the C library and of the SDK (`printf`, `strtol`, `toupper`,
  `busy_wait_us`, `to_ms_since_boot`, ...) are modelled from their
  documentation.

The file has three parts: the definitions (the program, then the vocabulary
of the statements), the lemmas, and the claims `C1`, `C2`, ... in order.
-/

namespace CecModule

/-! ## Constants of `src/main.c` -/

def CEC_LOGICAL_ADDRESS_TV : Nat := 0x00
def CEC_LOGICAL_ADDRESS_PLAYBACK1 : Nat := 0x04
def CEC_LOGICAL_ADDRESS_BROADCAST : Nat := 0x0F

def CEC_OPCODE_ACTIVE_SOURCE : Nat := 0x82
def CEC_OPCODE_GIVE_DEVICE_POWER_STATUS : Nat := 0x8F
def CEC_OPCODE_STANDBY : Nat := 0x36

def CEC_START_BIT_LOW : Nat := 3700
def CEC_START_BIT_HIGH : Nat := 800
def CEC_DATA_BIT_0_LOW : Nat := 1500
def CEC_DATA_BIT_0_HIGH : Nat := 900
def CEC_DATA_BIT_1_LOW : Nat := 600
def CEC_DATA_BIT_1_HIGH : Nat := 1800

def COMMAND_COOLDOWN_MS : Nat := 2000

/-! ## Observable events and program state -/

/-- One externally visible action of the firmware. -/
inductive Ev where
  /-- The call `cec_set_pin_low()`: the line is asserted (driven to 0). -/
  | set_pin_low
  /-- The call `cec_set_pin_high()`: the line is released (input, pull-up). -/
  | set_pin_high
  /-- The call `cec_read_pin()` and the level it returned. -/
  | read_pin (level : Bool)
  /-- The call `busy_wait_us(us)`. -/
  | busy_wait_us (us : Nat)
  /-- The call `sleep_ms(ms)`. -/
  | sleep_ms (ms : Nat)
  /-- The call `set_status_led(value)`. -/
  | status_led (value : Bool)
  /-- Text written by `printf` (USB debug console). -/
  | printf (text : String)
  /-- Text written by `uart_puts` (companion-device UART). -/
  | uart_puts (text : String)
  /-- Ghost event (no counterpart on the hardware): `cec_send_frame` was
  entered with this byte sequence. It never influences control flow. -/
  | send_frame (data : List Nat)
  deriving DecidableEq

/-- The globals of `main.c` that the command layer uses, together with the
input supplied by the CEC line and the log of everything done so far. -/
structure State where
  /-- Global `our_logical_address` (a `uint8_t`). -/
  our_logical_address : Nat
  /-- Global `last_command_time` (a `uint32_t`, milliseconds). -/
  last_command_time : Nat
  /-- Input: `pin k` is the level that the k-th call of `cec_read_pin` returns. -/
  pin : Nat → Bool
  /-- Number of calls of `cec_read_pin` made so far. -/
  reads : Nat
  /-- Log of all events so far, oldest first. -/
  trace : List Ev

/-- Append one event to the log. -/
def State.emit (e : Ev) (s : State) : State :=
  { s with trace := s.trace ++ [e] }

/-- The events logged between state `s` and a later state `t`. -/
def emitted (s t : State) : List Ev :=
  t.trace.drop s.trace.length

/-- The line is touched by an event: it is asserted, released or sampled. -/
def Ev.isBus : Ev → Bool
  | .set_pin_low => true
  | .set_pin_high => true
  | .read_pin _ => true
  | _ => false

/-- The byte sequences handed to `cec_send_frame`, in call order. -/
def framesOf : List Ev → List (List Nat)
  | [] => []
  | .send_frame d :: rest => d :: framesOf rest
  | _ :: rest => framesOf rest

/-- The pulses on the line, read off a log: a pulse is an assertion of the line
held for `lo` microseconds followed by a release held for `hi` microseconds,
and is recorded as `(lo, hi)`. -/
def pulses : List Ev → List (Nat × Nat)
  | .set_pin_low :: .busy_wait_us lo :: .set_pin_high :: .busy_wait_us hi :: rest =>
      (lo, hi) :: pulses rest
  | _ :: rest => pulses rest
  | [] => []

/-- The start-bit pulse of the CEC physical layer. -/
def startPulse : Nat × Nat := (CEC_START_BIT_LOW, CEC_START_BIT_HIGH)

/-- The pulse that encodes one logical bit. -/
def bitPulse (b : Bool) : Nat × Nat :=
  if b then (CEC_DATA_BIT_1_LOW, CEC_DATA_BIT_1_HIGH)
  else (CEC_DATA_BIT_0_LOW, CEC_DATA_BIT_0_HIGH)

/-! ## Line I/O and bit engine (`main.c` lines 89-139) -/

/-- Source `cec_set_pin_high`. -/
def cec_set_pin_high (s : State) : State := s.emit .set_pin_high

/-- Source `cec_set_pin_low`. -/
def cec_set_pin_low (s : State) : State := s.emit .set_pin_low

/-- Source `cec_read_pin`: consumes the next sample of the line. -/
def cec_read_pin (s : State) : Bool × State :=
  let v := s.pin s.reads
  (v, { s with reads := s.reads + 1, trace := s.trace ++ [.read_pin v] })

/-- SDK `busy_wait_us`. -/
def busy_wait_us (us : Nat) (s : State) : State := s.emit (.busy_wait_us us)

/-- SDK `sleep_ms`. -/
def sleep_ms (ms : Nat) (s : State) : State := s.emit (.sleep_ms ms)

/-- C `printf` with the text already formatted. -/
def printf (text : String) (s : State) : State := s.emit (.printf text)

/-- SDK `uart_puts` on the companion-device UART. -/
def uart_puts (text : String) (s : State) : State := s.emit (.uart_puts text)

/-- Source `set_status_led`. -/
def set_status_led (value : Bool) (s : State) : State := s.emit (.status_led value)

/-- Source `blink_status_led`. -/
def blink_status_led : Nat → State → State
  | 0, s => s
  | count + 1, s =>
      blink_status_led count
        (sleep_ms 100 (set_status_led false (sleep_ms 100 (set_status_led true s))))

/-- Source `cec_send_bit`. -/
def cec_send_bit (bit_value : Bool) (s : State) : State :=
  if bit_value then
    busy_wait_us CEC_DATA_BIT_1_HIGH
      (cec_set_pin_high (busy_wait_us CEC_DATA_BIT_1_LOW (cec_set_pin_low s)))
  else
    busy_wait_us CEC_DATA_BIT_0_HIGH
      (cec_set_pin_high (busy_wait_us CEC_DATA_BIT_0_LOW (cec_set_pin_low s)))

/-- Source `cec_send_start_bit`. -/
def cec_send_start_bit (s : State) : State :=
  busy_wait_us CEC_START_BIT_HIGH
    (cec_set_pin_high (busy_wait_us CEC_START_BIT_LOW (cec_set_pin_low s)))

/-- The polling loop of `cec_wait_for_ack`. `elapsed` is the time in
microseconds since the function was entered, so `time_reached(timeout)` is
`2000 ≤ elapsed`; time advances by the `busy_wait_us(10)` of each iteration.
The first argument bounds the number of iterations. -/
def cec_wait_for_ack_loop : Nat → Nat → State → Bool × State
  | 0, _, s => (false, s)
  | fuel + 1, elapsed, s =>
      if 2000 ≤ elapsed then (false, s)
      else
        let r := cec_read_pin s
        if !r.1 then (true, r.2)
        else cec_wait_for_ack_loop fuel (elapsed + 10) (busy_wait_us 10 r.2)

/-- Source `cec_wait_for_ack`: at most 200 polls fit in the 2000 microsecond
window, after which the bound and the timeout coincide. -/
def cec_wait_for_ack (s : State) : Bool × State :=
  cec_wait_for_ack_loop 200 0 s

/-! ## Frame transmitter (`main.c` lines 141-185) -/

/-- Two upper-case hexadecimal digits, as `printf("%02X")` prints a byte. -/
def hex2 (b : Nat) : String :=
  let d (n : Nat) : Char := if n < 10 then Char.ofNat (48 + n) else Char.ofNat (55 + n)
  String.mk [d (b / 16 % 16), d (b % 16)]

/-- The inner loop of `cec_send_frame`: `for (bit_idx = n-1; bit_idx >= 0; bit_idx--)`
sending `(byte_data >> bit_idx) & 1`; the source starts it with `n = 8`. -/
def cec_send_data_bits (byte_data : Nat) : Nat → State → State
  | 0, s => s
  | bit_idx + 1, s =>
      cec_send_data_bits byte_data bit_idx
        (cec_send_bit (((byte_data >>> bit_idx) &&& 1) != 0) s)

/-- The outer loop of `cec_send_frame` from index `byte_idx` on; the list is
`data[byte_idx ..]`. Returns `false` at the first block without ACK. -/
def cec_send_frame_loop (length : Nat) : Nat → List Nat → State → Bool × State
  | _, [], s => (true, s)
  | byte_idx, byte_data :: rest, s =>
      let s1 := cec_send_data_bits byte_data 8 s
      let is_last_byte := (byte_idx == length - 1)
      let s2 := cec_send_bit is_last_byte s1
      let r := cec_wait_for_ack s2
      if !r.1 then
        (false, printf ("[CEC] No ACK received for byte " ++ toString byte_idx ++ "\n") r.2)
      else
        cec_send_frame_loop length (byte_idx + 1) rest r.2

/-- Source `cec_send_frame`; `length` is the length of `data`. -/
def cec_send_frame (data : List Nat) (s : State) : Bool × State :=
  let length := data.length
  let s0 := s.emit (.send_frame data)
  if length = 0 ∨ length > 16 then (false, s0)
  else
    let r := cec_read_pin s0
    if !r.1 then (false, printf "[CEC] Bus busy, cannot send\n" r.2)
    else
      let s1 := printf "[CEC] Sending frame: " r.2
      let s2 := data.foldl (fun st b => printf (hex2 b ++ " ") st) s1
      let s3 := printf "\n" s2
      let s4 := cec_send_start_bit s3
      let l := cec_send_frame_loop length 0 data s4
      if l.1 then (true, printf "[CEC] Frame sent successfully\n" l.2)
      else (false, l.2)

/-! ## Command layer (`main.c` lines 61-73 and 187-315) -/

/-- SDK `to_ms_since_boot(get_absolute_time())`: the time since boot in
milliseconds, `now`, truncated to a `uint32_t`. -/
def to_ms_since_boot (now : Nat) : Nat := now % 2 ^ 32

/-- Source `is_rate_limited`; `now` is the time since boot in milliseconds at
the call. The subtraction is the `uint32_t` subtraction of C. -/
def is_rate_limited (now : Nat) (s : State) : Bool × State :=
  let current_time := to_ms_since_boot now
  if (current_time + 2 ^ 32 - s.last_command_time % 2 ^ 32) % 2 ^ 32 < COMMAND_COOLDOWN_MS then
    (true, printf "[RATE_LIMIT] Command blocked to prevent looping\n" s)
  else
    (false, { s with last_command_time := current_time })

/-- One iteration of the loop of `cec_scan_devices`, for destination `addr`;
`acc.1` is `devices_found`. -/
def cec_scan_devices_step (acc : Bool × State) (addr : Nat) : Bool × State :=
  if addr = acc.2.our_logical_address then acc
  else
    let polling_frame := ((acc.2.our_logical_address <<< 4) ||| addr) % 256
    let r := cec_send_frame [polling_frame] acc.2
    if r.1 then
      (true, sleep_ms 100
        (printf ("[CEC] Device found at logical address " ++ toString addr ++ "\n") r.2))
    else
      (acc.1, sleep_ms 100 r.2)

/-- Source `cec_scan_devices`: `for (addr = 0; addr <= 14; addr++)`. -/
def cec_scan_devices (s : State) : Bool × State :=
  let s1 := blink_status_led 2 (printf "[CEC] Scanning for devices...\n" s)
  let r := (List.range 15).foldl cec_scan_devices_step (false, s1)
  if !r.1 then (r.1, printf "[CEC] No devices found\n" r.2) else r

/-- Source `cec_power_on`. -/
def cec_power_on (now : Nat) (s : State) : Bool × State :=
  let rl := is_rate_limited now s
  if rl.1 then (false, rl.2)
  else
    let s1 := blink_status_led 3 (printf "[CEC] Sending POWER ON command\n" rl.2)
    let frame := [((s1.our_logical_address <<< 4) ||| CEC_LOGICAL_ADDRESS_BROADCAST) % 256,
      CEC_OPCODE_ACTIVE_SOURCE, 0x10, 0x00]
    let r := cec_send_frame frame s1
    if r.1 then (true, printf "[CEC] Power ON command sent successfully\n" r.2)
    else (false, printf "[CEC] Failed to send Power ON command\n" r.2)

/-- Source `cec_power_off`. -/
def cec_power_off (now : Nat) (s : State) : Bool × State :=
  let rl := is_rate_limited now s
  if rl.1 then (false, rl.2)
  else
    let s1 := blink_status_led 1 (printf "[CEC] Sending POWER OFF command\n" rl.2)
    let frame := [((s1.our_logical_address <<< 4) ||| CEC_LOGICAL_ADDRESS_BROADCAST) % 256,
      CEC_OPCODE_STANDBY]
    let r := cec_send_frame frame s1
    if r.1 then (true, printf "[CEC] Power OFF command sent successfully\n" r.2)
    else (false, printf "[CEC] Failed to send Power OFF command\n" r.2)

/-- Source `cec_get_power_status`. -/
def cec_get_power_status (s : State) : Bool × State :=
  let s1 := printf "[CEC] Checking power status\n" s
  let frame := [((s1.our_logical_address <<< 4) ||| CEC_LOGICAL_ADDRESS_TV) % 256,
    CEC_OPCODE_GIVE_DEVICE_POWER_STATUS]
  let r := cec_send_frame frame s1
  if r.1 then (true, printf "[CEC] Power status request sent\n" r.2)
  else (false, printf "[CEC] Failed to send power status request\n" r.2)

/-! ### Hexadecimal parsing: C library `strtol(_, NULL, 16)` -/

/-- C `isspace` in the "C" locale. -/
def isspace (c : Nat) : Bool := c == 32 || (9 ≤ c && c ≤ 13)

/-- The value of a character as a hexadecimal digit, if it is one. -/
def hexval (c : Nat) : Option Nat :=
  if 48 ≤ c ∧ c ≤ 57 then some (c - 48)
  else if 65 ≤ c ∧ c ≤ 70 then some (c - 55)
  else if 97 ≤ c ∧ c ≤ 102 then some (c - 87)
  else none

/-- The digit loop of `strtol`: the value of the longest prefix of hexadecimal
digits, accumulated from `acc`. -/
def strtol_digits : Nat → List Nat → Nat
  | acc, [] => acc
  | acc, c :: rest =>
      match hexval c with
      | some d => strtol_digits (16 * acc + d) rest
      | none => acc

/-- C library `strtol(str, NULL, 16)` with a 32-bit `long`: leading white space
is skipped, then an optional sign, then an optional `0x` or `0X`, then the
longest run of hexadecimal digits is converted (0 when there is none); the
result saturates at `LONG_MAX` and `LONG_MIN`. -/
def strtol16 (str : List Nat) : Int :=
  let s1 := str.dropWhile isspace
  let neg := s1.head? = some 45
  let s2 := if s1.head? = some 45 ∨ s1.head? = some 43 then s1.tail else s1
  let s3 := if s2.take 2 = [48, 120] ∨ s2.take 2 = [48, 88] then s2.drop 2 else s2
  let v := strtol_digits 0 s3
  if neg then -(Int.ofNat (min v (2 ^ 31))) else Int.ofNat (min v (2 ^ 31 - 1))

/-- The parsing loop of `cec_send_custom_command` (lines 302-305): every two
characters `command_str[i], command_str[i+1]` give one byte
`(uint8_t)strtol(hex_byte, NULL, 16)`. -/
def parse_hex_frame : List Nat → List Nat
  | c1 :: c2 :: rest => ((strtol16 [c1, c2]) % 256).toNat :: parse_hex_frame rest
  | _ => []

/-- A C string as the list of its characters (without the terminator). -/
def cstr (text : String) : List Nat := text.toList.map Char.toNat

/-- The text of a C string, for `printf("%s")`. -/
def ofCStr (l : List Nat) : String := String.mk (l.map Char.ofNat)

/-- Source `cec_send_custom_command`. -/
def cec_send_custom_command (now : Nat) (command_str : List Nat) (s : State) : Bool × State :=
  let rl := is_rate_limited now s
  if rl.1 then (false, rl.2)
  else
    let s1 := printf ("[CEC] Sending custom command: " ++ ofCStr command_str ++ "\n") rl.2
    let cmd_len := command_str.length
    if cmd_len % 2 ≠ 0 ∨ cmd_len > 32 then
      (false, printf "[CEC] Invalid command format\n" s1)
    else
      let frame := parse_hex_frame command_str
      let r := cec_send_frame frame s1
      if r.1 then (true, printf "[CEC] Custom command sent successfully\n" r.2)
      else (false, printf "[CEC] Failed to send custom command\n" r.2)

/-! ## Text dispatcher (`main.c` lines 317-379) -/

/-- C `toupper` in the "C" locale. -/
def toupper (c : Nat) : Nat := if 97 ≤ c ∧ c ≤ 122 then c - 32 else c

/-- The buffer `cmd_upper` of `process_command`: the first 63 characters of
the command, upper-cased. -/
def cmd_upper (cmd : List Nat) : List Nat := (cmd.take 63).map toupper

/-- The verb selection of `process_command` (lines 319-369): runs the selected
command and returns the text left in `response`. -/
def process_command_dispatch (now : Nat) (cmd : List Nat) (s : State) : String × State :=
  if cmd_upper cmd = cstr "SCAN" then
    let r := cec_scan_devices s
    ("SCAN_RESULT:" ++ (if r.1 then "DEVICES_FOUND" else "NO_DEVICES"), r.2)
  else if cmd_upper cmd = cstr "POWER_ON" ∨ cmd_upper cmd = cstr "ON" then
    let r := cec_power_on now s
    ("POWER_ON:" ++ (if r.1 then "SUCCESS" else "FAILED"), r.2)
  else if cmd_upper cmd = cstr "POWER_OFF" ∨ cmd_upper cmd = cstr "OFF" then
    let r := cec_power_off now s
    ("POWER_OFF:" ++ (if r.1 then "SUCCESS" else "FAILED"), r.2)
  else if cmd_upper cmd = cstr "STATUS" then
    let r := cec_get_power_status s
    ("STATUS:" ++ (if r.1 then "REQUEST_SENT" else "FAILED"), r.2)
  else if (cmd_upper cmd).take 7 = cstr "CUSTOM:" then
    let r := cec_send_custom_command now (cmd.drop 7) s
    ("CUSTOM:" ++ (if r.1 then "SUCCESS" else "FAILED"), r.2)
  else if cmd_upper cmd = cstr "HELP" then
    ("COMMANDS: SCAN, POWER_ON, POWER_OFF, STATUS, CUSTOM:xxxx, HELP, VERSION", s)
  else if cmd_upper cmd = cstr "VERSION" then
    ("VERSION:CEC_MODULE_V1.0", s)
  else
    ("ERROR:UNKNOWN_COMMAND", s)

/-- Source `process_command`; `uart_writable` is what `uart_is_writable`
answers, `now` the time since boot in milliseconds. -/
def process_command (now : Nat) (uart_writable : Bool) (cmd : List Nat)
    (send_to_flipper : Bool) (s : State) : State :=
  let r := process_command_dispatch now cmd s
  let s1 := printf ("RESPONSE: " ++ r.1 ++ "\n") r.2
  if send_to_flipper && uart_writable then uart_puts "\n" (uart_puts r.1 s1) else s1

/-- The response text that `process_command` reports for a command. -/
def responseOf (now : Nat) (cmd : List Nat) (s : State) : String :=
  (process_command_dispatch now cmd s).1

/-! ## Vocabulary of the statements -/

/-- The state after `k` more samples of the line and the events `evs`. -/
def State.adv (k : Nat) (evs : List Ev) (s : State) : State :=
  { s with reads := s.reads + k, trace := s.trace ++ evs }

/-- The events of one call of `cec_send_bit`. -/
def bitEvents (b : Bool) : List Ev :=
  [.set_pin_low, .busy_wait_us (bitPulse b).1, .set_pin_high, .busy_wait_us (bitPulse b).2]

/-- The events of `cec_send_start_bit`. -/
def startEvents : List Ev :=
  [.set_pin_low, .busy_wait_us startPulse.1, .set_pin_high, .busy_wait_us startPulse.2]

/-- The eight bits of a byte, most significant first. -/
def msbBits (b : Nat) : List Bool :=
  [b.testBit 7, b.testBit 6, b.testBit 5, b.testBit 4,
   b.testBit 3, b.testBit 2, b.testBit 1, b.testBit 0]

/-- The number that a list of bits denotes, most significant bit first. -/
def bitsValue (bits : List Bool) : Nat :=
  bits.foldl (fun acc b => 2 * acc + b.toNat) 0

/-- The pulses of the blocks of a frame: for each byte its eight bits, most
significant first, then the EOM bit, which is 1 exactly when no byte follows. -/
def blockPulses : List Nat → List (Nat × Nat)
  | [] => []
  | b :: rest => (msbBits b).map bitPulse ++ bitPulse rest.isEmpty :: blockPulses rest

/-- Every ninth pulse of a sequence of 9-pulse blocks: the EOM pulses. -/
def eomPulses : List (Nat × Nat) → List (Nat × Nat)
  | _ :: _ :: _ :: _ :: _ :: _ :: _ :: _ :: e :: rest => e :: eomPulses rest
  | _ => []

/-- The events of an acknowledged `cec_wait_for_ack`: `k` polls that read
high, each followed by the 10 microsecond wait, then the poll that reads low. -/
def ackEvents : Nat → List Ev
  | 0 => [.read_pin false]
  | k + 1 => .read_pin true :: .busy_wait_us 10 :: ackEvents k

/-- The events of `n` polls that read high. -/
def nackEvents : Nat → List Ev
  | 0 => []
  | n + 1 => .read_pin true :: .busy_wait_us 10 :: nackEvents n

/-- The receiver acknowledges every block of a sequence: in the ACK window
that starts with sample number `r` of the line, the first `k` polls read high
and the next one reads low, and so on for the later windows. The list gives
`k` for each block. -/
def AckedAll (pin : Nat → Bool) : Nat → List Nat → Prop
  | _, [] => True
  | r, k :: ks =>
      k < 200 ∧ (∀ j, j < k → pin (r + j) = true) ∧ pin (r + k) = false ∧
        AckedAll pin (r + (k + 1)) ks

/-- The number of samples taken by the ACK windows described by `ks`. -/
def samplesUsed : List Nat → Nat
  | [] => 0
  | k :: ks => (k + 1) + samplesUsed ks

/-- The receiver does not acknowledge in the window that starts with sample
number `r`: all 200 polls read high. -/
def NotAcked (pin : Nat → Bool) (r : Nat) : Prop :=
  ∀ j, j < 200 → pin (r + j) = true

/-- The events of the blocks of a frame when every block is acknowledged,
block by block: data bits, EOM bit, ACK window. -/
def frameEvents : List Nat → List Nat → List Ev
  | b :: rest, k :: ks =>
      (msbBits b).flatMap bitEvents ++ bitEvents rest.isEmpty ++ ackEvents k
        ++ frameEvents rest ks
  | _, _ => []

/-- The events of the blocks of a frame whose blocks are acknowledged as `ks`
describes and whose next block, of index `idx + ks.length`, is not. -/
def nackFrameEvents : Nat → List Nat → List Nat → List Ev
  | _, [], _ => []
  | idx, b :: rest, [] =>
      (msbBits b).flatMap bitEvents ++ bitEvents rest.isEmpty ++ nackEvents 200
        ++ [.printf ("[CEC] No ACK received for byte " ++ toString idx ++ "\n")]
  | idx, b :: rest, k :: ks =>
      (msbBits b).flatMap bitEvents ++ bitEvents rest.isEmpty ++ ackEvents k
        ++ nackFrameEvents (idx + 1) rest ks

/-- The events of `cec_send_frame` on a free bus up to and including the
start bit. -/
def preambleEvents (data : List Nat) : List Ev :=
  [.send_frame data, .read_pin true, .printf "[CEC] Sending frame: "]
    ++ data.map (fun b => Ev.printf (hex2 b ++ " ")) ++ [.printf "\n"] ++ startEvents

/-- The state of the globals after start-up (`our_logical_address` is
`CEC_LOGICAL_ADDRESS_PLAYBACK1`, `last_command_time` is 0), before any sample
of the line, with `pin` as the future of the line. -/
def bootState (pin : Nat → Bool) : State :=
  { our_logical_address := CEC_LOGICAL_ADDRESS_PLAYBACK1, last_command_time := 0,
    pin := pin, reads := 0, trace := [] }

/-- State `t` is reached from `s` by taking samples and logging events only,
and `fs` are the byte sequences handed to `cec_send_frame` on the way. -/
def Reach (s t : State) (fs : List (List Nat)) : Prop :=
  ∃ k evs, t = s.adv k evs ∧ framesOf evs = fs

/-- The events of `blink_status_led(count)`. -/
def blinkEvents : Nat → List Ev
  | 0 => []
  | count + 1 =>
      [.status_led true, .sleep_ms 100, .status_led false, .sleep_ms 100] ++ blinkEvents count

/-- The polling frames of a scan with local address `a` over the candidate
destinations `ds`: one 1-byte frame `(a << 4) | d` for each `d` other than
`a`, in the order of `ds`. -/
def pollFrames (a : Nat) (ds : List Nat) : List (List Nat) :=
  (ds.filter (fun d => decide (d ≠ a))).map (fun d => [((a <<< 4) ||| d) % 256])

/-- The cooldown test of `is_rate_limited` at time `now` fails in state `s`:
the command is blocked. -/
def Limited (now : Nat) (s : State) : Prop :=
  (to_ms_since_boot now + 2 ^ 32 - s.last_command_time % 2 ^ 32) % 2 ^ 32 < COMMAND_COOLDOWN_MS

instance (now : Nat) (s : State) : Decidable (Limited now s) := by
  unfold Limited; infer_instance

/-- The response reports the success of a mutating verb. -/
def isMutatingSuccess (response : String) : Bool :=
  response == "POWER_ON:SUCCESS" || response == "POWER_OFF:SUCCESS"
    || response == "CUSTOM:SUCCESS"

/-- One call of `process_command`: the time since boot in milliseconds at
which it starts, the answer of `uart_is_writable`, the command line and the
transport flag. -/
structure Request where
  now : Nat
  uart_writable : Bool
  cmd : List Nat
  send_to_flipper : Bool

/-- The commands of a list executed one after the other from state `s`:
for each the time at which it started and its response. -/
def run_commands : State → List Request → List (Nat × String)
  | _, [] => []
  | s, r :: rs =>
      (r.now, responseOf r.now r.cmd s)
        :: run_commands (process_command r.now r.uart_writable r.cmd r.send_to_flipper s) rs

/-- The canonical name of the mutating verb that a command line selects, if it
selects one: `POWER_ON` for POWER_ON and ON, `POWER_OFF` for POWER_OFF and OFF,
`CUSTOM` for a line that starts with `CUSTOM:`; letter case is ignored. -/
def mutatingTag (cmd : List Nat) : Option String :=
  if cmd_upper cmd = cstr "POWER_ON" ∨ cmd_upper cmd = cstr "ON" then some "POWER_ON"
  else if cmd_upper cmd = cstr "POWER_OFF" ∨ cmd_upper cmd = cstr "OFF" then some "POWER_OFF"
  else if (cmd_upper cmd).take 7 = cstr "CUSTOM:" then some "CUSTOM"
  else none

/-- The events with which `process_command` reports a response. -/
def responseEvents (response : String) (uart : Bool) : List Ev :=
  if uart then
    [.printf ("RESPONSE: " ++ response ++ "\n"), .uart_puts response, .uart_puts "\n"]
  else [.printf ("RESPONSE: " ++ response ++ "\n")]

/-- The value of a hexadecimal digit character (0 for any other character). -/
def hexDigit (c : Nat) : Nat := (hexval c).getD 0

/-- The events of a successful POWER_ON command up to its return from
`cec_power_on`. -/
def powerOnEvents (frame ks : List Nat) : List Ev :=
  (Ev.printf "[CEC] Sending POWER ON command\n" :: blinkEvents 3)
    ++ (preambleEvents frame ++ frameEvents frame ks
      ++ [.printf "[CEC] Frame sent successfully\n",
          .printf "[CEC] Power ON command sent successfully\n"])

/-- The first of the `n` samples of the line numbered `r, r+1, ...` that reads
low, counted from `r`, if there is one. -/
def firstLow (pin : Nat → Bool) : Nat → Nat → Option Nat
  | _, 0 => none
  | r, n + 1 => if pin r = false then some 0 else (firstLow pin (r + 1) n).map (· + 1)

/-- The destination polled when the line is at sample number `r` acknowledges
its header block: the bus-free check reads high and one of the 200 polls of
the ACK window reads low. -/
def pollAcked (pin : Nat → Bool) (r : Nat) : Bool :=
  pin r && (firstLow pin (r + 1) 200).isSome

/-- The number of samples of the line that one poll takes: the bus-free check
and, when the bus is free, the polls of the ACK window up to the first low
level. -/
def pollSamples (pin : Nat → Bool) (r : Nat) : Nat :=
  if pin r then
    match firstLow pin (r + 1) 200 with
    | some k => 1 + (k + 1)
    | none => 1 + 200
  else 1

/-- The polls of a scan with local address `a` over the candidate destinations
`ds`, starting at sample number `r` of the line: each polled destination with
whether it acknowledges. -/
def scanAcks (pin : Nat → Bool) (a : Nat) : List Nat → Nat → List (Nat × Bool)
  | [], _ => []
  | d :: ds, r =>
      if d = a then scanAcks pin a ds r
      else (d, pollAcked pin r) :: scanAcks pin a ds (r + pollSamples pin r)

/-- The state with `last_command_time` replaced by `x`. -/
def State.setLast (x : Nat) (s : State) : State :=
  { s with last_command_time := x }

/-- The verbs of the command table; `custom` carries the argument text. -/
inductive Verb where
  | scan
  | power_on
  | power_off
  | status
  | custom (arg : List Nat)
  | help
  | version
  | unknown
  deriving DecidableEq

/-- The verb table applied to the whole line, as the specification words it:
the upper-cased line is compared in full with SCAN, POWER_ON, ON, POWER_OFF,
OFF, STATUS, HELP and VERSION, and its first seven characters with `CUSTOM:`;
the argument of CUSTOM is the rest of the original line. No 63-character
buffer is involved. -/
def verbOfLine (line : List Nat) : Verb :=
  if line.map toupper = cstr "SCAN" then .scan
  else if line.map toupper = cstr "POWER_ON" ∨ line.map toupper = cstr "ON" then .power_on
  else if line.map toupper = cstr "POWER_OFF" ∨ line.map toupper = cstr "OFF" then .power_off
  else if line.map toupper = cstr "STATUS" then .status
  else if (line.map toupper).take 7 = cstr "CUSTOM:" then .custom (line.drop 7)
  else if line.map toupper = cstr "HELP" then .help
  else if line.map toupper = cstr "VERSION" then .version
  else .unknown

/-- The body of each branch of the if-chain of `process_command`
(lines 332-369). -/
def run_verb (now : Nat) (v : Verb) (s : State) : String × State :=
  match v with
  | .scan =>
      let r := cec_scan_devices s
      ("SCAN_RESULT:" ++ (if r.1 then "DEVICES_FOUND" else "NO_DEVICES"), r.2)
  | .power_on =>
      let r := cec_power_on now s
      ("POWER_ON:" ++ (if r.1 then "SUCCESS" else "FAILED"), r.2)
  | .power_off =>
      let r := cec_power_off now s
      ("POWER_OFF:" ++ (if r.1 then "SUCCESS" else "FAILED"), r.2)
  | .status =>
      let r := cec_get_power_status s
      ("STATUS:" ++ (if r.1 then "REQUEST_SENT" else "FAILED"), r.2)
  | .custom arg =>
      let r := cec_send_custom_command now arg s
      ("CUSTOM:" ++ (if r.1 then "SUCCESS" else "FAILED"), r.2)
  | .help => ("COMMANDS: SCAN, POWER_ON, POWER_OFF, STATUS, CUSTOM:xxxx, HELP, VERSION", s)
  | .version => ("VERSION:CEC_MODULE_V1.0", s)
  | .unknown => ("ERROR:UNKNOWN_COMMAND", s)

/-- The branch that `process_command` takes (lines 332-369), selected with the
63-character buffer `cmd_upper`. -/
def selectedBranch (cmd : List Nat) : Verb :=
  if cmd_upper cmd = cstr "SCAN" then .scan
  else if cmd_upper cmd = cstr "POWER_ON" ∨ cmd_upper cmd = cstr "ON" then .power_on
  else if cmd_upper cmd = cstr "POWER_OFF" ∨ cmd_upper cmd = cstr "OFF" then .power_off
  else if cmd_upper cmd = cstr "STATUS" then .status
  else if (cmd_upper cmd).take 7 = cstr "CUSTOM:" then .custom (cmd.drop 7)
  else if cmd_upper cmd = cstr "HELP" then .help
  else if cmd_upper cmd = cstr "VERSION" then .version
  else .unknown

/-- The texts written to the companion-device UART, read off a log. -/
def uartOut : List Ev → List String
  | [] => []
  | .uart_puts t :: rest => t :: uartOut rest
  | _ :: rest => uartOut rest

/-- The texts written to the USB debug console, read off a log. -/
def consoleOut : List Ev → List String
  | [] => []
  | .printf t :: rest => t :: consoleOut rest
  | _ :: rest => consoleOut rest

/-! ## Line assembly (`main.c` lines 58 and 381-422) -/

/-- SDK `PICO_ERROR_TIMEOUT`, the value of `getchar_timeout_us` when no
character arrived. -/
def PICO_ERROR_TIMEOUT : Int := -1

/-- The whole program state: the command layer, the global `command_buffer`
(one array of 256 characters, used by both transport functions), the
`static size_t cmd_pos` of `process_usb_commands` and the one of
`process_flipper_commands`, and a ghost log of the calls of
`process_command` (command text and `send_to_flipper`), oldest first. -/
structure Firmware where
  /-- The state of the command layer. -/
  core : State
  /-- Global `command_buffer`. -/
  command_buffer : List Nat
  /-- The `cmd_pos` of `process_usb_commands`. -/
  usb_cmd_pos : Nat
  /-- The `cmd_pos` of `process_flipper_commands`. -/
  flipper_cmd_pos : Nat
  /-- Ghost: the arguments of every call of `process_command` so far. -/
  calls : List (List Nat × Bool)

/-- The C string that starts at the beginning of a character array: the
characters before the first NUL. -/
def c_string (buffer : List Nat) : List Nat := buffer.takeWhile (fun c => c != 0)

/-- Source `process_usb_commands`; `c` is what `getchar_timeout_us(0)`
returned, `now` and `uart_writable` are as for `process_command`. -/
def process_usb_commands (now : Nat) (uart_writable : Bool) (c : Int) (fw : Firmware) :
    Firmware :=
  if c = PICO_ERROR_TIMEOUT then fw
  else if c = 10 ∨ c = 13 then
    if fw.usb_cmd_pos > 0 then
      let buffer := fw.command_buffer.set fw.usb_cmd_pos 0
      let s1 := printf ("\n[USB] Received command: " ++ ofCStr (c_string buffer) ++ "\n") fw.core
      let s2 := process_command now uart_writable (c_string buffer) false s1
      let s3 := printf "\n[USB] Ready for next command: " s2
      { fw with core := s3, command_buffer := buffer, usb_cmd_pos := 0,
                calls := fw.calls ++ [(c_string buffer, false)] }
    else fw
  else if c ≥ 32 ∧ c ≤ 126 ∧ fw.usb_cmd_pos < 255 then
    { fw with command_buffer := fw.command_buffer.set fw.usb_cmd_pos c.toNat,
              usb_cmd_pos := fw.usb_cmd_pos + 1,
              core := printf (String.singleton (Char.ofNat c.toNat)) fw.core }
  else fw

/-- One byte read from the companion-device UART, with the clock and the
answer of `uart_is_writable` at the time it is processed. -/
structure Rx where
  /-- Time since boot in milliseconds. -/
  now : Nat
  /-- What `uart_is_writable` answers. -/
  uart_writable : Bool
  /-- The byte that `uart_getc` returned. -/
  c : Nat

/-- The body of the loop of `process_flipper_commands`, for the byte `c`. -/
def process_flipper_byte (now : Nat) (uart_writable : Bool) (c : Nat) (fw : Firmware) :
    Firmware :=
  if c = 10 ∨ c = 13 then
    if fw.flipper_cmd_pos > 0 then
      let buffer := fw.command_buffer.set fw.flipper_cmd_pos 0
      let s1 := printf ("[FLIPPER] Received command: " ++ ofCStr (c_string buffer) ++ "\n") fw.core
      let s2 := process_command now uart_writable (c_string buffer) true s1
      { fw with core := s2, command_buffer := buffer, flipper_cmd_pos := 0,
                calls := fw.calls ++ [(c_string buffer, true)] }
    else fw
  else if c ≥ 32 ∧ c ≤ 126 ∧ fw.flipper_cmd_pos < 255 then
    { fw with command_buffer := fw.command_buffer.set fw.flipper_cmd_pos c,
              flipper_cmd_pos := fw.flipper_cmd_pos + 1 }
  else fw

/-- Source `process_flipper_commands`; `rx` are the bytes that the UART
delivers while `uart_is_readable` answers true during this call. -/
def process_flipper_commands (rx : List Rx) (fw : Firmware) : Firmware :=
  rx.foldl (fun st r => process_flipper_byte r.now r.uart_writable r.c st) fw

/-- One call of a transport function from the main loop. -/
inductive Arrival where
  /-- A call of `process_usb_commands` in which `getchar_timeout_us` returns `c`. -/
  | usb (now : Nat) (uart_writable : Bool) (c : Int)
  /-- A call of `process_flipper_commands` in which the UART delivers `rx`. -/
  | flipper (rx : List Rx)

/-- The transport functions called one after the other, as the main loop does
(`main.c` lines 469-473); a call of `process_usb_commands` with
`PICO_ERROR_TIMEOUT` and a call of `process_flipper_commands` with no byte do
nothing, so any order of arrivals is an execution of the loop. -/
def run_transports (fw : Firmware) (arrivals : List Arrival) : Firmware :=
  arrivals.foldl (fun st a =>
    match a with
    | .usb now w c => process_usb_commands now w c st
    | .flipper rx => process_flipper_commands rx st) fw

/-- The program state when the main loop is entered: `command_buffer` and both
`cmd_pos` are zero-initialised statics. -/
def bootFirmware (pin : Nat → Bool) : Firmware :=
  { core := bootState pin, command_buffer := List.replicate 256 0,
    usb_cmd_pos := 0, flipper_cmd_pos := 0, calls := [] }

/-- The command texts dispatched for one transport, read off the ghost log:
`process_usb_commands` calls `process_command` with `send_to_flipper = false`,
`process_flipper_commands` with `true`. -/
def linesOf (send_to_flipper : Bool) (calls : List (List Nat × Bool)) : List (List Nat) :=
  (calls.filter (fun p => p.2 == send_to_flipper)).map Prod.fst

/-- The bytes of a text arriving on the USB console, one per call. -/
def usbBytes (now : Nat) (uart_writable : Bool) (text : List Nat) : List Arrival :=
  text.map (fun c => Arrival.usb now uart_writable (c : Int))

/-- The bytes of a text arriving on the UART. -/
def uartBytes (now : Nat) (uart_writable : Bool) (text : List Nat) : List Rx :=
  text.map (fun c => { now := now, uart_writable := uart_writable, c := c })

/-- Line assembly as the specification words it, from the accumulator `acc`:
CR or LF terminates the current line, a byte in 32..126 extends it as long as
fewer than 255 bytes are kept, every other byte is ignored. Returns the
terminated lines in order and the accumulator left at the end. -/
def assembleLines : List Nat → List Nat → List (List Nat) × List Nat
  | acc, [] => ([], acc)
  | acc, b :: rest =>
      if b = 10 ∨ b = 13 then
        (acc :: (assembleLines [] rest).1, (assembleLines [] rest).2)
      else if 32 ≤ b ∧ b ≤ 126 then
        assembleLines (if acc.length < 255 then acc ++ [b] else acc) rest
      else assembleLines acc rest

/-- The accumulator of a transport: the first `pos` characters of the buffer
are the text `acc`, which has no NUL, and the position is inside the array. -/
def Accumulates (buffer : List Nat) (pos : Nat) (acc : List Nat) : Prop :=
  buffer.length = 256 ∧ pos ≤ 255 ∧ acc.length = pos ∧ buffer.take pos = acc ∧
    ∀ c ∈ acc, c ≠ 0

/-- A call of `process_usb_commands`, as opposed to `process_flipper_commands`. -/
def Arrival.isUsb : Arrival → Bool
  | .usb _ _ _ => true
  | .flipper _ => false

/-! # Lemmas -/

/-! ## Basic facts -/

@[simp]
theorem adv_pin (k evs) (s : State) : (s.adv k evs).pin = s.pin := rfl
@[simp]
theorem adv_reads (k evs) (s : State) : (s.adv k evs).reads = s.reads + k := rfl
@[simp]
theorem adv_trace (k evs) (s : State) : (s.adv k evs).trace = s.trace ++ evs := rfl
@[simp]
theorem adv_last (k evs) (s : State) :
    (s.adv k evs).last_command_time = s.last_command_time := rfl
@[simp]
theorem adv_addr (k evs) (s : State) :
    (s.adv k evs).our_logical_address = s.our_logical_address := rfl

@[simp]
theorem adv_adv (k j : Nat) (a b : List Ev) (s : State) :
    (s.adv k a).adv j b = s.adv (k + j) (a ++ b) := by
  simp [State.adv, Nat.add_assoc]

@[simp]
theorem adv_zero_nil (s : State) : s.adv 0 [] = s := by
  simp [State.adv]

theorem emit_eq_adv (e : Ev) (s : State) : s.emit e = s.adv 0 [e] := rfl

theorem emitted_adv (k evs) (s : State) : emitted s (s.adv k evs) = evs := by
  simp [emitted]

@[simp]
theorem printf_eq (t : String) (s : State) : printf t s = s.adv 0 [.printf t] := rfl
@[simp]
theorem sleep_ms_eq (n : Nat) (s : State) : sleep_ms n s = s.adv 0 [.sleep_ms n] := rfl
@[simp]
theorem busy_wait_us_eq (n : Nat) (s : State) :
    busy_wait_us n s = s.adv 0 [.busy_wait_us n] := rfl
@[simp]
theorem cec_read_pin_eq (s : State) :
    cec_read_pin s = (s.pin s.reads, s.adv 1 [.read_pin (s.pin s.reads)]) := rfl

@[simp]
theorem cec_send_bit_eq (b : Bool) (s : State) :
    cec_send_bit b s = s.adv 0 (bitEvents b) := by
  cases b <;> simp [cec_send_bit, bitEvents, bitPulse, cec_set_pin_low, cec_set_pin_high, emit_eq_adv]

@[simp]
theorem cec_send_start_bit_eq (s : State) :
    cec_send_start_bit s = s.adv 0 startEvents := by
  simp [cec_send_start_bit, startEvents, startPulse, cec_set_pin_low, cec_set_pin_high, emit_eq_adv]

theorem cec_send_data_bits_eq (b : Nat) (n : Nat) (s : State) :
    cec_send_data_bits b n s
      = s.adv 0 (((List.range n).reverse.map b.testBit).flatMap bitEvents) := by
  induction n generalizing s with
  | zero => simp [cec_send_data_bits]
  | succ n ih =>
    simp [cec_send_data_bits, ih, List.range_succ, Nat.testBit, Nat.and_comm]

/-- The eight data bits of a byte are sent most significant first. -/
theorem cec_send_data_bits_eight (b : Nat) (s : State) :
    cec_send_data_bits b 8 s = s.adv 0 ((msbBits b).flatMap bitEvents) := by
  rw [cec_send_data_bits_eq]; rfl

/-! ## The ACK window -/

/-- The polling loop returns `true` at the first poll that reads low, provided
that poll falls inside the window. -/
theorem ack_loop_acked (k : Nat) : ∀ (fuel elapsed : Nat) (s : State),
    k < fuel → elapsed + 10 * k < 2000 →
    (∀ j, j < k → s.pin (s.reads + j) = true) → s.pin (s.reads + k) = false →
    cec_wait_for_ack_loop fuel elapsed s = (true, s.adv (k + 1) (ackEvents k)) := by
  induction k with
  | zero =>
    intro fuel elapsed s hf he _ hlow
    obtain ⟨f, rfl⟩ : ∃ f, fuel = f + 1 := ⟨fuel - 1, by omega⟩
    have h2 : ¬ 2000 ≤ elapsed := by omega
    simp at hlow
    simp [cec_wait_for_ack_loop, h2, hlow, ackEvents]
  | succ k ih =>
    intro fuel elapsed s hf he hhigh hlow
    obtain ⟨f, rfl⟩ : ∃ f, fuel = f + 1 := ⟨fuel - 1, by omega⟩
    have h2 : ¬ 2000 ≤ elapsed := by omega
    have h0 : s.pin s.reads = true := by simpa using hhigh 0 (by omega)
    have step := ih f (elapsed + 10) (s.adv 1 [.read_pin true, .busy_wait_us 10])
      (by omega) (by omega)
      (by intro j hj; simpa [Nat.add_assoc, Nat.add_comm 1 j] using hhigh (j + 1) (by omega))
      (by simpa [Nat.add_assoc, Nat.add_comm 1 k] using hlow)
    simp [cec_wait_for_ack_loop, h2, h0, step, ackEvents, Nat.add_comm 1 (k + 1)]

/-- The polling loop returns `false` when every poll of the rest of the window
reads high. -/
theorem ack_loop_not_acked : ∀ (fuel elapsed : Nat) (s : State),
    elapsed + 10 * fuel = 2000 →
    (∀ j, j < fuel → s.pin (s.reads + j) = true) →
    cec_wait_for_ack_loop fuel elapsed s = (false, s.adv fuel (nackEvents fuel)) := by
  intro fuel
  induction fuel with
  | zero => intro elapsed s _ _; simp [cec_wait_for_ack_loop, nackEvents]
  | succ f ih =>
    intro elapsed s he hhigh
    have h2 : ¬ 2000 ≤ elapsed := by omega
    have h0 : s.pin s.reads = true := by simpa using hhigh 0 (by omega)
    have step := ih (elapsed + 10) (s.adv 1 [.read_pin true, .busy_wait_us 10]) (by omega)
      (by intro j hj; simpa [Nat.add_assoc, Nat.add_comm 1 j] using hhigh (j + 1) (by omega))
    simp [cec_wait_for_ack_loop, h2, h0, step, nackEvents, Nat.add_comm 1 f]

theorem cec_wait_for_ack_acked (k : Nat) (s : State) (hk : k < 200)
    (hhigh : ∀ j, j < k → s.pin (s.reads + j) = true) (hlow : s.pin (s.reads + k) = false) :
    cec_wait_for_ack s = (true, s.adv (k + 1) (ackEvents k)) :=
  ack_loop_acked k 200 0 s hk (by omega) hhigh hlow

theorem cec_wait_for_ack_not_acked (s : State) (h : NotAcked s.pin s.reads) :
    cec_wait_for_ack s = (false, s.adv 200 (nackEvents 200)) :=
  ack_loop_not_acked 200 0 s (by omega) h

/-- The iteration bound of the model is never what stops the polling loop:
any bound of at least 200 gives the same result. -/
theorem ack_loop_fuel (fuel : Nat) : ∀ (extra elapsed : Nat) (s : State),
    2000 ≤ elapsed + 10 * fuel →
    cec_wait_for_ack_loop (fuel + extra) elapsed s = cec_wait_for_ack_loop fuel elapsed s := by
  induction fuel with
  | zero =>
    intro extra elapsed s h
    cases extra with
    | zero => rfl
    | succ e => simp [cec_wait_for_ack_loop]; intro h2; omega
  | succ f ih =>
    intro extra elapsed s h
    have e1 : f + 1 + extra = (f + extra) + 1 := by omega
    rw [e1]
    simp only [cec_wait_for_ack_loop]
    rw [ih extra (elapsed + 10) _ (by omega)]

/-! ## Pulses of explicit logs -/

/-- Events among which the line is never asserted contribute no pulse. -/
theorem pulses_skip (evs rest : List Ev) (h : ∀ e ∈ evs, e ≠ Ev.set_pin_low) :
    pulses (evs ++ rest) = pulses rest := by
  induction evs with
  | nil => rfl
  | cons e evs ih =>
    have he : e ≠ Ev.set_pin_low := h e (by simp)
    have ih2 := ih (fun x hx => h x (by simp [hx]))
    cases e <;> first | exact absurd rfl he | simpa [pulses] using ih2

theorem pulses_bitEvents (b : Bool) (rest : List Ev) :
    pulses (bitEvents b ++ rest) = bitPulse b :: pulses rest := by
  simp [bitEvents, pulses]

theorem pulses_startEvents (rest : List Ev) :
    pulses (startEvents ++ rest) = startPulse :: pulses rest := by
  simp [startEvents, pulses]

theorem pulses_bits (bs : List Bool) (rest : List Ev) :
    pulses (bs.flatMap bitEvents ++ rest) = bs.map bitPulse ++ pulses rest := by
  induction bs with
  | nil => simp
  | cons b bs ih => simp [List.flatMap_cons, List.append_assoc, pulses_bitEvents, ih]

theorem ackEvents_no_low (k : Nat) : ∀ e ∈ ackEvents k, e ≠ Ev.set_pin_low := by
  induction k with
  | zero => simp [ackEvents]
  | succ k ih =>
    intro e he
    simp only [ackEvents, List.mem_cons] at he
    rcases he with rfl | rfl | he
    · simp
    · simp
    · exact ih e he

theorem nackEvents_no_low (k : Nat) : ∀ e ∈ nackEvents k, e ≠ Ev.set_pin_low := by
  induction k with
  | zero => simp [nackEvents]
  | succ k ih =>
    intro e he
    simp only [nackEvents, List.mem_cons] at he
    rcases he with rfl | rfl | he
    · simp
    · simp
    · exact ih e he

theorem is_last_byte_eq (length idx : Nat) (rest : List Nat)
    (h : idx + (rest.length + 1) = length) :
    (idx == length - 1) = rest.isEmpty := by
  cases rest with
  | nil => simp at h; simp [← h]
  | cons a l => simp at h; simp; omega

/-- The block loop of `cec_send_frame` when every block is acknowledged: it
returns `true` and logs exactly `frameEvents`. -/
theorem frame_loop_acked (length : Nat) : ∀ (data ks : List Nat) (idx : Nat) (s : State),
    ks.length = data.length → idx + data.length = length → AckedAll s.pin s.reads ks →
    cec_send_frame_loop length idx data s
      = (true, s.adv (samplesUsed ks) (frameEvents data ks)) := by
  intro data
  induction data with
  | nil =>
    intro ks idx s hk _ _
    cases ks with
    | nil => simp [cec_send_frame_loop, samplesUsed, frameEvents]
    | cons k ks => simp at hk
  | cons b rest ih =>
    intro ks idx s hk hlen hack
    cases ks with
    | nil => simp at hk
    | cons k ks =>
      obtain ⟨hk200, hhigh, hlow, hrest⟩ := hack
      have hw := cec_wait_for_ack_acked k
        (s.adv 0 ((msbBits b).flatMap bitEvents ++ bitEvents rest.isEmpty)) hk200
        (by simpa using hhigh) (by simpa using hlow)
      have hrec := ih ks (idx + 1)
        (s.adv (k + 1) ((msbBits b).flatMap bitEvents ++ bitEvents rest.isEmpty ++ ackEvents k))
        (by simpa using hk) (by simp at hlen; omega) (by simpa using hrest)
      simp only [cec_send_frame_loop, cec_send_data_bits_eight, cec_send_bit_eq, adv_adv,
        is_last_byte_eq length idx rest hlen, Nat.add_zero, Nat.zero_add, hw, Bool.not_true]
      simp only [List.append_assoc] at hrec ⊢
      simp [hrec, frameEvents, samplesUsed, Nat.add_assoc]

/-- The block loop of `cec_send_frame` when the first block that is not
acknowledged has index `idx + ks.length`: it returns `false` and logs exactly
`nackFrameEvents`. -/
theorem frame_loop_not_acked (length : Nat) : ∀ (data ks : List Nat) (idx : Nat) (s : State),
    ks.length < data.length → idx + data.length = length → AckedAll s.pin s.reads ks →
    NotAcked s.pin (s.reads + samplesUsed ks) →
    cec_send_frame_loop length idx data s
      = (false, s.adv (samplesUsed ks + 200) (nackFrameEvents idx data ks)) := by
  intro data
  induction data with
  | nil => intro ks idx s hk _ _ _; simp at hk
  | cons b rest ih =>
    intro ks idx s hk hlen hack hnack
    cases ks with
    | nil =>
      have hw := cec_wait_for_ack_not_acked
        (s.adv 0 ((msbBits b).flatMap bitEvents ++ bitEvents rest.isEmpty))
        (by simpa [samplesUsed] using hnack)
      simp only [cec_send_frame_loop, cec_send_data_bits_eight, cec_send_bit_eq, adv_adv,
        is_last_byte_eq length idx rest hlen, Nat.add_zero, Nat.zero_add, hw]
      simp [nackFrameEvents, samplesUsed]
    | cons k ks =>
      obtain ⟨hk200, hhigh, hlow, hrest⟩ := hack
      have hw := cec_wait_for_ack_acked k
        (s.adv 0 ((msbBits b).flatMap bitEvents ++ bitEvents rest.isEmpty)) hk200
        (by simpa using hhigh) (by simpa using hlow)
      have hrec := ih ks (idx + 1)
        (s.adv (k + 1) ((msbBits b).flatMap bitEvents ++ bitEvents rest.isEmpty ++ ackEvents k))
        (by simpa using hk) (by simp at hlen; omega) (by simpa using hrest)
        (by
          intro j hj
          have := hnack j hj
          simp only [samplesUsed, adv_pin, adv_reads] at this ⊢
          rw [← this]; congr 1; omega)
      simp only [cec_send_frame_loop, cec_send_data_bits_eight, cec_send_bit_eq, adv_adv,
        is_last_byte_eq length idx rest hlen, Nat.add_zero, Nat.zero_add, hw, Bool.not_true]
      simp only [List.append_assoc] at hrec ⊢
      simp [hrec, nackFrameEvents, samplesUsed, Nat.add_assoc]

theorem print_bytes_eq (data : List Nat) : ∀ s : State,
    data.foldl (fun st b => State.adv 0 [Ev.printf (hex2 b ++ " ")] st) s
      = s.adv 0 (data.map (fun b => Ev.printf (hex2 b ++ " "))) := by
  induction data with
  | nil => intro s; simp
  | cons b rest ih => intro s; simp [ih]

theorem pulses_preamble (data : List Nat) (rest : List Ev) :
    pulses (preambleEvents data ++ rest) = startPulse :: pulses rest := by
  have h : ∀ e ∈ [Ev.send_frame data, .read_pin true, .printf "[CEC] Sending frame: "]
      ++ data.map (fun b => Ev.printf (hex2 b ++ " ")) ++ [.printf "\n"],
      e ≠ Ev.set_pin_low := by
    intro e he
    simp only [List.mem_append, List.mem_cons, List.mem_map, List.mem_singleton,
      List.not_mem_nil, or_false] at he
    rcases he with ((rfl | rfl | rfl) | ⟨b, _, rfl⟩) | rfl <;> simp
  unfold preambleEvents
  rw [List.append_assoc, pulses_skip _ _ h, pulses_startEvents]

theorem pulses_frameEvents : ∀ (data ks : List Nat) (rest : List Ev),
    ks.length = data.length →
    pulses (frameEvents data ks ++ rest) = blockPulses data ++ pulses rest := by
  intro data
  induction data with
  | nil => intro ks rest _; cases ks <;> simp [frameEvents, blockPulses]
  | cons b bs ih =>
    intro ks rest hk
    cases ks with
    | nil => simp at hk
    | cons k ks =>
      simp only [frameEvents, blockPulses, List.append_assoc]
      rw [pulses_bits, pulses_bitEvents, pulses_skip _ _ (ackEvents_no_low k),
        ih ks rest (by simpa using hk)]
      simp

theorem pulses_nackFrameEvents : ∀ (data ks : List Nat) (idx : Nat) (rest : List Ev),
    ks.length < data.length →
    pulses (nackFrameEvents idx data ks ++ rest)
      = (blockPulses data).take (9 * (ks.length + 1)) ++ pulses rest := by
  intro data
  induction data with
  | nil => intro ks idx rest hk; simp at hk
  | cons b bs ih =>
    intro ks idx rest hk
    cases ks with
    | nil =>
      simp only [nackFrameEvents, blockPulses, List.append_assoc]
      rw [pulses_bits, pulses_bitEvents, pulses_skip _ _ (nackEvents_no_low 200)]
      simp [msbBits, pulses]
    | cons k ks =>
      simp only [nackFrameEvents, blockPulses, List.append_assoc]
      rw [pulses_bits, pulses_bitEvents, pulses_skip _ _ (ackEvents_no_low k),
        ih ks (idx + 1) rest (by simpa using hk)]
      simp [msbBits, Nat.mul_add, List.take_append_eq_append_take]

/-- The complete result of `cec_send_frame` on a free bus when every block is
acknowledged. -/
theorem cec_send_frame_acked (data ks : List Nat) (s : State)
    (hlen : 1 ≤ data.length ∧ data.length ≤ 16) (hfree : s.pin s.reads = true)
    (hks : ks.length = data.length) (hack : AckedAll s.pin (s.reads + 1) ks) :
    cec_send_frame data s = (true, s.adv (1 + samplesUsed ks)
      (preambleEvents data ++ frameEvents data ks
        ++ [.printf "[CEC] Frame sent successfully\n"])) := by
  have h1 : ¬ (data.length = 0 ∨ data.length > 16) := by omega
  have hl := frame_loop_acked data.length data ks 0
    (s.adv 1 (preambleEvents data)) hks (by simp) (by simpa using hack)
  simp only [cec_send_frame, emit_eq_adv, h1, if_false, cec_read_pin_eq, adv_pin, adv_reads,
    Nat.add_zero, hfree, Bool.not_true, printf_eq, print_bytes_eq, cec_send_start_bit_eq,
    adv_adv, Nat.zero_add]
  simp only [preambleEvents, List.append_assoc, List.cons_append, List.nil_append,
    List.singleton_append] at hl ⊢
  simp [hl]

/-- The complete result of `cec_send_frame` on a free bus when some block is
not acknowledged. -/
theorem cec_send_frame_not_acked (data ks : List Nat) (s : State)
    (hlen : 1 ≤ data.length ∧ data.length ≤ 16) (hfree : s.pin s.reads = true)
    (hks : ks.length < data.length) (hack : AckedAll s.pin (s.reads + 1) ks)
    (hnack : NotAcked s.pin (s.reads + 1 + samplesUsed ks)) :
    cec_send_frame data s = (false, s.adv (1 + (samplesUsed ks + 200))
      (preambleEvents data ++ nackFrameEvents 0 data ks)) := by
  have h1 : ¬ (data.length = 0 ∨ data.length > 16) := by omega
  have hl := frame_loop_not_acked data.length data ks 0
    (s.adv 1 (preambleEvents data)) hks (by simp) (by simpa using hack) (by simpa using hnack)
  simp only [cec_send_frame, emit_eq_adv, h1, if_false, cec_read_pin_eq, adv_pin, adv_reads,
    Nat.add_zero, hfree, Bool.not_true, printf_eq, print_bytes_eq, cec_send_start_bit_eq,
    adv_adv, Nat.zero_add]
  simp only [preambleEvents, List.append_assoc, List.cons_append, List.nil_append,
    List.singleton_append] at hl ⊢
  simp [hl]

set_option maxRecDepth 100000 in
theorem bitsValue_msbBits : ∀ b, b < 256 → bitsValue (msbBits b) = b := by
  decide

theorem eomPulses_blockPulses (data : List Nat) (h : data ≠ []) :
    eomPulses (blockPulses data)
      = List.replicate (data.length - 1) (bitPulse false) ++ [bitPulse true] := by
  induction data with
  | nil => exact absurd rfl h
  | cons b rest ih =>
    cases rest with
    | nil => simp [blockPulses, msbBits, eomPulses]
    | cons c r =>
      have := ih (by simp)
      simp only [blockPulses, msbBits, eomPulses, List.map, List.cons_append, List.nil_append] at this ⊢
      simp [this, List.replicate_succ]

/-! ## Calls of `cec_send_frame` along an execution -/

theorem framesOf_append (a b : List Ev) : framesOf (a ++ b) = framesOf a ++ framesOf b := by
  induction a with
  | nil => rfl
  | cons e a ih => cases e <;> simp [framesOf, ih]

theorem Reach.refl (s : State) : Reach s s [] := ⟨0, [], by simp, rfl⟩

theorem Reach.adv (s : State) (k : Nat) (evs : List Ev) : Reach s (s.adv k evs) (framesOf evs) :=
  ⟨k, evs, rfl, rfl⟩

theorem Reach.trans {s t u : State} {f g : List (List Nat)}
    (h1 : Reach s t f) (h2 : Reach t u g) : Reach s u (f ++ g) := by
  obtain ⟨k1, e1, rfl, rfl⟩ := h1
  obtain ⟨k2, e2, rfl, rfl⟩ := h2
  exact ⟨k1 + k2, e1 ++ e2, by simp, framesOf_append e1 e2⟩

theorem Reach.quiet_trans {s t u : State} (h1 : Reach s t []) (h2 : Reach t u []) :
    Reach s u [] := by
  simpa using h1.trans h2

theorem Reach.last {s t : State} {f : List (List Nat)} (h : Reach s t f) :
    t.last_command_time = s.last_command_time := by
  obtain ⟨k, e, rfl, _⟩ := h; rfl

theorem Reach.addr {s t : State} {f : List (List Nat)} (h : Reach s t f) :
    t.our_logical_address = s.our_logical_address := by
  obtain ⟨k, e, rfl, _⟩ := h; rfl

theorem Reach.frames {s t : State} {f : List (List Nat)} (h : Reach s t f) :
    framesOf (emitted s t) = f := by
  obtain ⟨k, e, rfl, rfl⟩ := h; rw [emitted_adv]

theorem Reach.trace {s t : State} {f : List (List Nat)} (h : Reach s t f) :
    t.trace = s.trace ++ emitted s t := by
  obtain ⟨k, e, rfl, rfl⟩ := h; rw [emitted_adv]; rfl

theorem blink_status_led_eq (count : Nat) : ∀ s : State,
    blink_status_led count s = s.adv 0 (blinkEvents count) := by
  induction count with
  | zero => intro s; simp [blink_status_led, blinkEvents]
  | succ n ih =>
    intro s
    simp [blink_status_led, blinkEvents, ih, set_status_led, emit_eq_adv]

theorem framesOf_blinkEvents (count : Nat) : framesOf (blinkEvents count) = [] := by
  induction count with
  | zero => rfl
  | succ n ih => simp [blinkEvents, framesOf, ih]

theorem reach_ack_loop (fuel : Nat) : ∀ (elapsed : Nat) (s : State),
    Reach s (cec_wait_for_ack_loop fuel elapsed s).2 [] := by
  induction fuel with
  | zero => intro elapsed s; exact Reach.refl s
  | succ f ih =>
    intro elapsed s
    simp only [cec_wait_for_ack_loop]
    split
    · exact Reach.refl s
    · split
      · exact Reach.adv s 1 [.read_pin (s.pin s.reads)]
      · have h1 : Reach s (busy_wait_us 10 (cec_read_pin s).2) [] := by
          simpa [framesOf] using Reach.adv s 1 [.read_pin (s.pin s.reads), .busy_wait_us 10]
        exact h1.quiet_trans (ih _ _)

theorem framesOf_bitEvents (b : Bool) : framesOf (bitEvents b) = [] := rfl

theorem framesOf_bits (bs : List Bool) : framesOf (bs.flatMap bitEvents) = [] := by
  induction bs with
  | nil => rfl
  | cons b bs ih => simp [List.flatMap_cons, framesOf_append, framesOf_bitEvents, ih]

theorem reach_frame_loop (length : Nat) : ∀ (data : List Nat) (idx : Nat) (s : State),
    Reach s (cec_send_frame_loop length idx data s).2 [] := by
  intro data
  induction data with
  | nil => intro idx s; exact Reach.refl s
  | cons b rest ih =>
    intro idx s
    simp only [cec_send_frame_loop, cec_send_data_bits_eight, cec_send_bit_eq, adv_adv]
    have h1 : Reach s (s.adv (0 + 0)
        ((msbBits b).flatMap bitEvents ++ bitEvents (idx == length - 1))) [] := by
      simpa [framesOf_append, framesOf_bits, framesOf_bitEvents] using
        Reach.adv s (0 + 0) ((msbBits b).flatMap bitEvents ++ bitEvents (idx == length - 1))
    have h2 := h1.quiet_trans (reach_ack_loop 200 0 _)
    split
    · have h3 : Reach _ (printf ("[CEC] No ACK received for byte " ++ toString idx ++ "\n")
          (cec_wait_for_ack (s.adv (0 + 0)
            ((msbBits b).flatMap bitEvents ++ bitEvents (idx == length - 1)))).2) [] :=
        Reach.adv _ 0 _
      exact h2.quiet_trans h3
    · exact h2.quiet_trans (ih _ _)

theorem framesOf_print_bytes (data : List Nat) :
    framesOf (data.map (fun b => Ev.printf (hex2 b ++ " "))) = [] := by
  induction data with
  | nil => rfl
  | cons b r ih => simpa [framesOf] using ih

/-- Whatever the line does, `cec_send_frame` changes only the sample counter
and the log, and the only call it records is its own. -/
theorem reach_send_frame (data : List Nat) (s : State) :
    Reach s (cec_send_frame data s).2 [data] := by
  have h0 : Reach s (s.emit (.send_frame data)) [data] := Reach.adv s 0 [.send_frame data]
  simp only [cec_send_frame]
  split
  · exact h0
  · split
    · have h := h0.trans (Reach.adv (s.emit (.send_frame data)) 1
        [.read_pin ((s.emit (.send_frame data)).pin (s.emit (.send_frame data)).reads),
          .printf "[CEC] Bus busy, cannot send\n"])
      simpa [framesOf] using h
    · simp only [cec_read_pin_eq, printf_eq, print_bytes_eq, cec_send_start_bit_eq, adv_adv]
      have h1 : Reach (s.emit (.send_frame data))
          ((s.emit (.send_frame data)).adv (1 + 0 + 0 + (0 + 0))
            ([.read_pin ((s.emit (.send_frame data)).pin (s.emit (.send_frame data)).reads)]
              ++ [.printf "[CEC] Sending frame: "]
              ++ data.map (fun b => Ev.printf (hex2 b ++ " "))
              ++ ([.printf "\n"] ++ startEvents))) [] := by
        refine ⟨_, _, rfl, ?_⟩
        simp only [framesOf_append]
        simp [framesOf_print_bytes, framesOf, startEvents]
      have h2 := h1.quiet_trans (reach_frame_loop data.length data 0 _)
      have h3 := h0.trans h2
      split
      · have h4 := h3.trans (Reach.adv _ 0 [.printf "[CEC] Frame sent successfully\n"])
        simpa [framesOf] using h4
      · simpa using h3

theorem reach_scan_step (acc : Bool × State) (d : Nat) :
    Reach acc.2 (cec_scan_devices_step acc d).2 (pollFrames acc.2.our_logical_address [d]) := by
  unfold cec_scan_devices_step
  by_cases h : d = acc.2.our_logical_address
  · simp only [h, if_true]
    simpa [pollFrames] using Reach.refl acc.2
  · simp only [h, if_false]
    have hf := reach_send_frame [((acc.2.our_logical_address <<< 4) ||| d) % 256] acc.2
    have hp : pollFrames acc.2.our_logical_address [d]
        = [[((acc.2.our_logical_address <<< 4) ||| d) % 256]] := by
      simp [pollFrames, h]
    rw [hp]
    split
    · have h2 := hf.trans (Reach.adv _ 0
        [.printf ("[CEC] Device found at logical address " ++ toString d ++ "\n"),
          .sleep_ms 100])
      simpa [framesOf] using h2
    · have h2 := hf.trans (Reach.adv _ 0 [.sleep_ms 100])
      simpa [framesOf] using h2

theorem pollFrames_cons (a d : Nat) (ds : List Nat) :
    pollFrames a (d :: ds) = pollFrames a [d] ++ pollFrames a ds := by
  by_cases h : d = a <;> simp [pollFrames, List.filter_cons, h]

theorem reach_scan_fold : ∀ (ds : List Nat) (acc : Bool × State),
    Reach acc.2 (ds.foldl cec_scan_devices_step acc).2 (pollFrames acc.2.our_logical_address ds) := by
  intro ds
  induction ds with
  | nil => intro acc; exact Reach.refl acc.2
  | cons d ds ih =>
    intro acc
    have h1 := reach_scan_step acc d
    have h2 := ih (cec_scan_devices_step acc d)
    rw [h1.addr] at h2
    rw [pollFrames_cons]
    exact h1.trans h2

/-- Whatever the line does, `cec_scan_devices` changes only the sample counter
and the log, and calls `cec_send_frame` with the polling frames. -/
theorem reach_scan_devices (s : State) :
    Reach s (cec_scan_devices s).2 (pollFrames s.our_logical_address (List.range 15)) := by
  have h0 : Reach s (blink_status_led 2 (printf "[CEC] Scanning for devices...\n" s)) [] := by
    rw [printf_eq, blink_status_led_eq, adv_adv]
    refine ⟨_, _, rfl, ?_⟩
    simp [framesOf_append, framesOf, framesOf_blinkEvents]
  have h1 := reach_scan_fold (List.range 15)
    (false, blink_status_led 2 (printf "[CEC] Scanning for devices...\n" s))
  have h2 := h0.trans h1
  simp only [h0.addr, List.nil_append] at h2
  simp only [cec_scan_devices]
  split
  · have h3 := h2.trans (Reach.adv _ 0 [.printf "[CEC] No devices found\n"])
    simpa [framesOf] using h3
  · exact h2

set_option maxRecDepth 100000 in
theorem header_nibbles : ∀ a, a < 16 → ∀ d, d < 15 →
    ((a <<< 4) ||| d) % 256 = (a <<< 4) ||| d ∧ ((a <<< 4) ||| d) >>> 4 = a ∧
      ((a <<< 4) ||| d) &&& 0xF = d := by
  decide

theorem pollFrames_of_lt (a : Nat) (ha : a < 16) :
    pollFrames a (List.range 15)
      = ((List.range 15).filter (fun d => decide (d ≠ a))).map (fun d => [(a <<< 4) ||| d]) := by
  unfold pollFrames
  apply List.map_congr_left
  intro d hd
  have hd15 : d < 15 := by simpa using (List.mem_filter.mp hd).1
  simp [(header_nibbles a ha d hd15).1]

/-! ## Rate limiter -/

theorem limited_of_recent (now last_real : Nat) (s : State)
    (hlast : s.last_command_time = to_ms_since_boot last_real)
    (hmono : last_real ≤ now) (hsoon : now < last_real + COMMAND_COOLDOWN_MS) :
    Limited now s := by
  unfold Limited
  rw [hlast]
  unfold to_ms_since_boot COMMAND_COOLDOWN_MS at *
  omega

theorem elapsed_of_not_limited (now last_real : Nat) (s : State)
    (hlast : s.last_command_time = to_ms_since_boot last_real)
    (hmono : last_real ≤ now) (hpass : ¬ Limited now s) :
    last_real + COMMAND_COOLDOWN_MS ≤ now := by
  by_contra h
  exact hpass (limited_of_recent now last_real s hlast hmono (by omega))

theorem is_rate_limited_limited (now : Nat) (s : State) (h : Limited now s) :
    is_rate_limited now s
      = (true, s.adv 0 [.printf "[RATE_LIMIT] Command blocked to prevent looping\n"]) := by
  unfold Limited at h
  simp only [is_rate_limited, h, if_true, printf_eq]

theorem is_rate_limited_pass (now : Nat) (s : State) (h : ¬ Limited now s) :
    is_rate_limited now s = (false, { s with last_command_time := to_ms_since_boot now }) := by
  unfold Limited at h
  simp only [is_rate_limited, h, if_false]

theorem cec_power_on_limited (now : Nat) (s : State) (h : Limited now s) :
    cec_power_on now s
      = (false, s.adv 0 [.printf "[RATE_LIMIT] Command blocked to prevent looping\n"]) := by
  simp only [cec_power_on, is_rate_limited_limited now s h, if_true]

theorem cec_power_off_limited (now : Nat) (s : State) (h : Limited now s) :
    cec_power_off now s
      = (false, s.adv 0 [.printf "[RATE_LIMIT] Command blocked to prevent looping\n"]) := by
  simp only [cec_power_off, is_rate_limited_limited now s h, if_true]

theorem cec_send_custom_command_limited (now : Nat) (arg : List Nat) (s : State)
    (h : Limited now s) :
    cec_send_custom_command now arg s
      = (false, s.adv 0 [.printf "[RATE_LIMIT] Command blocked to prevent looping\n"]) := by
  simp only [cec_send_custom_command, is_rate_limited_limited now s h, if_true]

theorem reach_report {s t : State} {fs : List (List Nat)} (h : Reach s t fs) (c : Bool)
    (a b : String) :
    Reach s (if c then (true, printf a t) else (false, printf b t)).2 fs := by
  cases c
  · simpa [framesOf] using h.trans (Reach.adv t 0 [.printf b])
  · simpa [framesOf] using h.trans (Reach.adv t 0 [.printf a])

theorem reach_blink_after_print (count : Nat) (text : String) (s : State) :
    Reach s (blink_status_led count (printf text s)) [] := by
  rw [printf_eq, blink_status_led_eq, adv_adv]
  refine ⟨_, _, rfl, ?_⟩
  simp [framesOf_append, framesOf, framesOf_blinkEvents]

theorem cec_power_on_pass (now : Nat) (s : State) (h : ¬ Limited now s) :
    ∃ fs, Reach { s with last_command_time := to_ms_since_boot now } (cec_power_on now s).2 fs := by
  simp only [cec_power_on, is_rate_limited_pass now s h, Bool.false_eq_true, if_false]
  exact ⟨_, reach_report ((reach_blink_after_print 3 _ _).trans (reach_send_frame _ _)) _ _ _⟩

theorem cec_power_off_pass (now : Nat) (s : State) (h : ¬ Limited now s) :
    ∃ fs, Reach { s with last_command_time := to_ms_since_boot now } (cec_power_off now s).2 fs := by
  simp only [cec_power_off, is_rate_limited_pass now s h, Bool.false_eq_true, if_false]
  exact ⟨_, reach_report ((reach_blink_after_print 1 _ _).trans (reach_send_frame _ _)) _ _ _⟩

theorem cec_send_custom_command_pass (now : Nat) (arg : List Nat) (s : State)
    (h : ¬ Limited now s) :
    ∃ fs, Reach { s with last_command_time := to_ms_since_boot now }
      (cec_send_custom_command now arg s).2 fs := by
  simp only [cec_send_custom_command, is_rate_limited_pass now s h, Bool.false_eq_true, if_false]
  split
  · exact ⟨_, (Reach.adv _ 0 _).trans (Reach.adv _ 0 _)⟩
  · exact ⟨_, reach_report ((Reach.adv _ 0 _).trans (reach_send_frame _ _)) _ _ _⟩

theorem reach_get_power_status (s : State) :
    ∃ fs, Reach s (cec_get_power_status s).2 fs := by
  simp only [cec_get_power_status]
  exact ⟨_, reach_report ((Reach.adv _ 0 _).trans (reach_send_frame _ _)) _ _ _⟩

theorem not_success_scan (b : Bool) :
    isMutatingSuccess ("SCAN_RESULT:" ++ (if b then "DEVICES_FOUND" else "NO_DEVICES")) = false := by
  cases b <;> decide

theorem not_success_status (b : Bool) :
    isMutatingSuccess ("STATUS:" ++ (if b then "REQUEST_SENT" else "FAILED")) = false := by
  cases b <;> decide

theorem dispatch_cases (now : Nat) (cmd : List Nat) (s : State) :
    process_command_dispatch now cmd s
        = ("SCAN_RESULT:" ++ (if (cec_scan_devices s).1 then "DEVICES_FOUND" else "NO_DEVICES"),
            (cec_scan_devices s).2) ∨
    process_command_dispatch now cmd s
        = ("POWER_ON:" ++ (if (cec_power_on now s).1 then "SUCCESS" else "FAILED"),
            (cec_power_on now s).2) ∨
    process_command_dispatch now cmd s
        = ("POWER_OFF:" ++ (if (cec_power_off now s).1 then "SUCCESS" else "FAILED"),
            (cec_power_off now s).2) ∨
    process_command_dispatch now cmd s
        = ("STATUS:" ++ (if (cec_get_power_status s).1 then "REQUEST_SENT" else "FAILED"),
            (cec_get_power_status s).2) ∨
    process_command_dispatch now cmd s
        = ("CUSTOM:" ++ (if (cec_send_custom_command now (cmd.drop 7) s).1 then "SUCCESS"
            else "FAILED"), (cec_send_custom_command now (cmd.drop 7) s).2) ∨
    isMutatingSuccess (process_command_dispatch now cmd s).1 = false ∧
      (process_command_dispatch now cmd s).2 = s := by
  unfold process_command_dispatch
  split
  · exact Or.inl rfl
  split
  · exact Or.inr (Or.inl rfl)
  split
  · exact Or.inr (Or.inr (Or.inl rfl))
  split
  · exact Or.inr (Or.inr (Or.inr (Or.inl rfl)))
  split
  · exact Or.inr (Or.inr (Or.inr (Or.inr (Or.inl rfl))))
  split
  · exact Or.inr (Or.inr (Or.inr (Or.inr (Or.inr ⟨rfl, rfl⟩))))
  split
  · exact Or.inr (Or.inr (Or.inr (Or.inr (Or.inr ⟨rfl, rfl⟩))))
  · exact Or.inr (Or.inr (Or.inr (Or.inr (Or.inr ⟨rfl, rfl⟩))))

theorem failed_not_success :
    isMutatingSuccess "POWER_ON:FAILED" = false ∧ isMutatingSuccess "POWER_OFF:FAILED" = false ∧
      isMutatingSuccess "CUSTOM:FAILED" = false := by
  decide

/-- What a command does to `last_command_time`: either it leaves it unchanged and
does not report the success of a mutating verb, or the cooldown test passed
and it is set to the clock reading. -/
theorem dispatch_last (now : Nat) (cmd : List Nat) (s : State) :
    ((process_command_dispatch now cmd s).2.last_command_time = s.last_command_time ∧
      isMutatingSuccess (process_command_dispatch now cmd s).1 = false) ∨
    (¬ Limited now s ∧
      (process_command_dispatch now cmd s).2.last_command_time = to_ms_since_boot now) := by
  rcases dispatch_cases now cmd s with h | h | h | h | h | h
  · simp only [h]
    exact Or.inl ⟨(reach_scan_devices s).last, not_success_scan _⟩
  · simp only [h]
    by_cases hl : Limited now s
    · simp only [cec_power_on_limited now s hl]
      exact Or.inl ⟨rfl, failed_not_success.1⟩
    · obtain ⟨fs, hr⟩ := cec_power_on_pass now s hl
      exact Or.inr ⟨hl, hr.last⟩
  · simp only [h]
    by_cases hl : Limited now s
    · simp only [cec_power_off_limited now s hl]
      exact Or.inl ⟨rfl, failed_not_success.2.1⟩
    · obtain ⟨fs, hr⟩ := cec_power_off_pass now s hl
      exact Or.inr ⟨hl, hr.last⟩
  · simp only [h]
    obtain ⟨fs, hr⟩ := reach_get_power_status s
    exact Or.inl ⟨hr.last, not_success_status _⟩
  · simp only [h]
    by_cases hl : Limited now s
    · simp only [cec_send_custom_command_limited now _ s hl]
      exact Or.inl ⟨rfl, failed_not_success.2.2⟩
    · obtain ⟨fs, hr⟩ := cec_send_custom_command_pass now (cmd.drop 7) s hl
      exact Or.inr ⟨hl, hr.last⟩
  · exact Or.inl ⟨by rw [h.2], h.1⟩

theorem process_command_last (now : Nat) (w : Bool) (cmd : List Nat) (f : Bool) (s : State) :
    (process_command now w cmd f s).last_command_time
      = (process_command_dispatch now cmd s).2.last_command_time := by
  simp only [process_command]
  split <;> rfl

/-! ## Cooldown between successful mutating verbs -/

/-- After the clock was read at time `last_real`, every later successful
mutating verb starts at least the cooldown after `last_real`. -/
theorem success_after_cooldown : ∀ (reqs : List Request) (s : State) (last_real : Nat),
    s.last_command_time = to_ms_since_boot last_real →
    (∀ r ∈ reqs, last_real ≤ r.now) →
    reqs.Pairwise (fun a b => a.now ≤ b.now) →
    ∀ b ∈ run_commands s reqs, isMutatingSuccess b.2 = true →
      last_real + COMMAND_COOLDOWN_MS ≤ b.1 := by
  intro reqs
  induction reqs with
  | nil => intro s t _ _ _ b hb; simp [run_commands] at hb
  | cons r rs ih =>
    intro s t hlast hge hsorted b hb hsucc
    have hr : t ≤ r.now := hge r (by simp)
    obtain ⟨hhead, htail⟩ := List.pairwise_cons.mp hsorted
    simp only [run_commands, List.mem_cons] at hb
    rcases dispatch_last r.now r.cmd s with ⟨hl, hns⟩ | ⟨hpass, hl⟩
    · rcases hb with rfl | hb
      · simp only [responseOf] at hsucc
        rw [hns] at hsucc
        exact absurd hsucc (by decide)
      · exact ih _ t (by rw [process_command_last, hl, hlast])
          (fun r' hr' => hge r' (by simp [hr'])) htail b hb hsucc
    · have h2 := elapsed_of_not_limited r.now t s hlast hr hpass
      rcases hb with rfl | hb
      · exact h2
      · have h3 := ih _ r.now (by rw [process_command_last, hl])
          (fun r' hr' => hhead r' hr') htail b hb hsucc
        omega

/-! ## Verb selection -/

theorem dispatch_power_on (now : Nat) (cmd : List Nat) (s : State)
    (h : cmd_upper cmd = cstr "POWER_ON" ∨ cmd_upper cmd = cstr "ON") :
    process_command_dispatch now cmd s
      = ("POWER_ON:" ++ (if (cec_power_on now s).1 then "SUCCESS" else "FAILED"),
          (cec_power_on now s).2) := by
  have h0 : ¬ cmd_upper cmd = cstr "SCAN" := by
    rcases h with h | h <;> rw [h] <;> decide
  simp only [process_command_dispatch, h0, h, if_true, if_false]

theorem dispatch_power_off (now : Nat) (cmd : List Nat) (s : State)
    (h : cmd_upper cmd = cstr "POWER_OFF" ∨ cmd_upper cmd = cstr "OFF") :
    process_command_dispatch now cmd s
      = ("POWER_OFF:" ++ (if (cec_power_off now s).1 then "SUCCESS" else "FAILED"),
          (cec_power_off now s).2) := by
  have h0 : ¬ cmd_upper cmd = cstr "SCAN" := by
    rcases h with h | h <;> rw [h] <;> decide
  have h1 : ¬ (cmd_upper cmd = cstr "POWER_ON" ∨ cmd_upper cmd = cstr "ON") := by
    rcases h with h | h <;> rw [h] <;> decide
  simp only [process_command_dispatch, h0, h1, h, if_true, if_false]

theorem dispatch_custom (now : Nat) (cmd : List Nat) (s : State)
    (h : (cmd_upper cmd).take 7 = cstr "CUSTOM:") :
    process_command_dispatch now cmd s
      = ("CUSTOM:" ++ (if (cec_send_custom_command now (cmd.drop 7) s).1 then "SUCCESS"
          else "FAILED"), (cec_send_custom_command now (cmd.drop 7) s).2) := by
  have hne : ∀ v : List Nat, ¬ v.take 7 = cstr "CUSTOM:" → ¬ cmd_upper cmd = v := by
    intro v hv heq
    exact hv (heq ▸ h)
  have h0 := hne (cstr "SCAN") (by decide)
  have h1 := hne (cstr "POWER_ON") (by decide)
  have h2 := hne (cstr "ON") (by decide)
  have h3 := hne (cstr "POWER_OFF") (by decide)
  have h4 := hne (cstr "OFF") (by decide)
  have h5 := hne (cstr "STATUS") (by decide)
  simp only [process_command_dispatch, h0, h1, h2, h3, h4, h5, h, if_true, if_false, or_self]

theorem process_command_eq (now : Nat) (w : Bool) (cmd : List Nat) (f : Bool) (s : State) :
    process_command now w cmd f s
      = (process_command_dispatch now cmd s).2.adv 0
          (responseEvents (process_command_dispatch now cmd s).1 (f && w)) := by
  simp only [process_command, responseEvents]
  split <;> simp [uart_puts, emit_eq_adv]

theorem responseEvents_no_bus (response : String) (uart : Bool) :
    (responseEvents response uart).filter Ev.isBus = [] := by
  cases uart <;> rfl

theorem dispatch_limited (now : Nat) (cmd : List Nat) (s : State) (tag : String)
    (htag : mutatingTag cmd = some tag) (hl : Limited now s) :
    process_command_dispatch now cmd s
      = (tag ++ ":FAILED",
          s.adv 0 [.printf "[RATE_LIMIT] Command blocked to prevent looping\n"]) := by
  unfold mutatingTag at htag
  split at htag
  · next h =>
    cases htag
    rw [dispatch_power_on now cmd s h, cec_power_on_limited now s hl]
    rfl
  · split at htag
    · next h =>
      cases htag
      rw [dispatch_power_off now cmd s h, cec_power_off_limited now s hl]
      rfl
    · split at htag
      · next h =>
        cases htag
        rw [dispatch_custom now cmd s h, cec_send_custom_command_limited now _ s hl]
        rfl
      · cases htag

/-! ## Rate-limited and rejected commands -/

/-- A mutating verb blocked by the rate limiter answers `FAILED` and neither
touches the line nor calls `cec_send_frame`. -/
theorem limited_quiet (now : Nat) (w f : Bool) (cmd : List Nat) (tag : String) (s : State)
    (hverb : mutatingTag cmd = some tag) (hl : Limited now s) :
    responseOf now cmd s = tag ++ ":FAILED" ∧
    (emitted s (process_command now w cmd f s)).filter Ev.isBus = [] ∧
    framesOf (emitted s (process_command now w cmd f s)) = [] ∧
    (process_command now w cmd f s).reads = s.reads := by
  have hd := dispatch_limited now cmd s tag hverb hl
  refine ⟨by rw [responseOf, hd], ?_, ?_, ?_⟩
  · rw [process_command_eq, hd]
    simp only [adv_adv, emitted_adv, List.filter_append, responseEvents_no_bus]
    rfl
  · rw [process_command_eq, hd]
    simp only [adv_adv, emitted_adv, framesOf_append]
    cases (f && w) <;> rfl
  · rw [process_command_eq, hd]
    simp

theorem power_on_success_sets_time (t : Nat) (w f : Bool) (s : State)
    (h : responseOf t (cstr "POWER_ON") s = "POWER_ON:SUCCESS") :
    (process_command t w (cstr "POWER_ON") f s).last_command_time = to_ms_since_boot t := by
  rw [process_command_last]
  rcases dispatch_last t (cstr "POWER_ON") s with ⟨_, hns⟩ | ⟨_, hl⟩
  · rw [responseOf] at h
    rw [h] at hns
    exact absurd hns (by decide)
  · exact hl

/-- A CUSTOM argument of odd length or of more than 32 characters is refused
without touching the line, rate-limited or not. -/
theorem bad_length_quiet (now : Nat) (w f : Bool) (cmd : List Nat) (s : State)
    (hverb : (cmd_upper cmd).take 7 = cstr "CUSTOM:")
    (hbad : (cmd.drop 7).length % 2 = 1 ∨ 32 < (cmd.drop 7).length) :
    (cec_send_custom_command now (cmd.drop 7) s).1 = false ∧
    framesOf (emitted s (cec_send_custom_command now (cmd.drop 7) s).2) = [] ∧
    (emitted s (cec_send_custom_command now (cmd.drop 7) s).2).filter Ev.isBus = [] ∧
    responseOf now cmd s = "CUSTOM:FAILED" ∧
    framesOf (emitted s (process_command now w cmd f s)) = [] ∧
    (emitted s (process_command now w cmd f s)).filter Ev.isBus = [] := by
  have hc : ∃ evs, cec_send_custom_command now (cmd.drop 7) s
        = (false, { s with last_command_time :=
            (cec_send_custom_command now (cmd.drop 7) s).2.last_command_time }.adv 0 evs) ∧
      framesOf evs = [] ∧ evs.filter Ev.isBus = [] := by
    by_cases hl : Limited now s
    · rw [cec_send_custom_command_limited now _ s hl]
      exact ⟨_, rfl, rfl, rfl⟩
    · have hb : (cmd.drop 7).length % 2 ≠ 0 ∨ (cmd.drop 7).length > 32 := by omega
      simp only [cec_send_custom_command, is_rate_limited_pass now s hl, Bool.false_eq_true,
        if_false, hb, if_true, printf_eq, adv_adv]
      exact ⟨_, rfl, rfl, rfl⟩
  obtain ⟨evs, he, hf, hb⟩ := hc
  have hd := dispatch_custom now cmd s hverb
  have hem : emitted s (cec_send_custom_command now (cmd.drop 7) s).2 = evs := by
    rw [he]; simp [emitted]
  have hr : (cec_send_custom_command now (cmd.drop 7) s).1 = false := by rw [he]
  have hpe : emitted s (process_command now w cmd f s)
      = evs ++ responseEvents (process_command_dispatch now cmd s).1 (f && w) := by
    rw [process_command_eq, hd, he]; simp [emitted]
  refine ⟨hr, by rw [hem, hf], by rw [hem, hb], ?_, ?_, ?_⟩
  · rw [responseOf, hd, hr]; rfl
  · rw [hpe, framesOf_append, hf]
    cases (f && w) <;> rfl
  · rw [hpe, List.filter_append, hb, responseEvents_no_bus]; rfl

/-! ## Hexadecimal arguments of CUSTOM -/

theorem hexval_some_bounds (c a : Nat) (h : hexval c = some a) :
    a < 16 ∧ 48 ≤ c ∧ c ≤ 102 ∧ c ≠ 120 ∧ c ≠ 88 := by
  unfold hexval at h
  split at h
  · cases h; omega
  · split at h
    · cases h; omega
    · split at h
      · cases h; omega
      · cases h

theorem hexval_toupper (c : Nat) : hexval (toupper c) = hexval c := by
  unfold toupper
  split
  · next h =>
    unfold hexval
    by_cases h1 : c ≤ 102
    · have e1 : ¬ (48 ≤ c - 32 ∧ c - 32 ≤ 57) := by omega
      have e2 : (65 ≤ c - 32 ∧ c - 32 ≤ 70) := by omega
      have e3 : ¬ (48 ≤ c ∧ c ≤ 57) := by omega
      have e4 : ¬ (65 ≤ c ∧ c ≤ 70) := by omega
      have e5 : (97 ≤ c ∧ c ≤ 102) := by omega
      rw [if_neg e1, if_pos e2, if_neg e3, if_neg e4, if_pos e5,
        show c - 32 - 55 = c - 87 by omega]
    · have e1 : ¬ (48 ≤ c - 32 ∧ c - 32 ≤ 57) := by omega
      have e2 : ¬ (65 ≤ c - 32 ∧ c - 32 ≤ 70) := by omega
      have e2' : ¬ (97 ≤ c - 32 ∧ c - 32 ≤ 102) := by omega
      have e3 : ¬ (48 ≤ c ∧ c ≤ 57) := by omega
      have e4 : ¬ (65 ≤ c ∧ c ≤ 70) := by omega
      have e5 : ¬ (97 ≤ c ∧ c ≤ 102) := by omega
      rw [if_neg e1, if_neg e2, if_neg e2', if_neg e3, if_neg e4, if_neg e5]
  · rfl

/-- On two hexadecimal digits `strtol` followed by the cast to `uint8_t` gives
`16 * a + b`. -/
theorem strtol16_hex_pair (c1 c2 a b : Nat) (h1 : hexval c1 = some a) (h2 : hexval c2 = some b) :
    ((strtol16 [c1, c2]) % 256).toNat = 16 * a + b := by
  obtain ⟨ha, hc1, hc1', _, _⟩ := hexval_some_bounds c1 a h1
  obtain ⟨hb, hc2, hc2', hx, hX⟩ := hexval_some_bounds c2 b h2
  have hsp : isspace c1 = false := by
    unfold isspace
    simp only [Bool.or_eq_false_iff, beq_eq_false_iff_ne, Bool.and_eq_false_iff,
      decide_eq_false_iff_not]
    omega
  have hd : List.dropWhile isspace [c1, c2] = [c1, c2] := by
    simp [List.dropWhile, hsp]
  have hm : ¬ [c1, c2].head? = some 43 := by
    simp only [List.head?_cons, Option.some.injEq]
    omega
  have hn : ¬ [c1, c2].head? = some 45 := by
    simp only [List.head?_cons, Option.some.injEq]
    omega
  have hp : ¬ (List.take 2 [c1, c2] = [48, 120] ∨ List.take 2 [c1, c2] = [48, 88]) := by
    simp only [List.take_succ_cons, List.take_zero, List.cons.injEq, and_true]
    omega
  have hv : strtol_digits 0 [c1, c2] = 16 * a + b := by
    simp [strtol_digits, h1, h2]
  simp only [strtol16, hd, hm, hn, or_self, if_false, hp, hv, decide_False, Bool.false_eq_true]
  have hmin : min (16 * a + b) (2 ^ 31 - 1) = 16 * a + b := by
    apply Nat.min_eq_left; omega
  rw [hmin, Int.ofNat_eq_coe]
  have h256 : ((16 * a + b : Nat) : Int) % 256 = ((16 * a + b : Nat) : Int) := by omega
  rw [h256, Int.toNat_natCast]

theorem hexDigit_of_some (c a : Nat) (h : hexval c = some a) : hexDigit c = a := by
  simp [hexDigit, h]

theorem parse_hex_frame_spec : ∀ (k : Nat) (arg : List Nat), arg.length = 2 * k →
    (∀ c ∈ arg, (hexval c).isSome) →
    (parse_hex_frame arg).length = k ∧
    ∀ i, i < k → (parse_hex_frame arg)[i]?
      = some (16 * hexDigit (arg.getD (2 * i) 0) + hexDigit (arg.getD (2 * i + 1) 0)) := by
  intro k
  induction k with
  | zero =>
    intro arg hlen _
    have : arg = [] := List.length_eq_zero.mp (by omega)
    subst this
    exact ⟨rfl, fun i hi => absurd hi (by omega)⟩
  | succ k ih =>
    intro arg hlen hhex
    match arg, hlen, hhex with
    | c1 :: c2 :: rest, hlen, hhex =>
      obtain ⟨a, ha⟩ := Option.isSome_iff_exists.mp (hhex c1 (by simp))
      obtain ⟨b, hb⟩ := Option.isSome_iff_exists.mp (hhex c2 (by simp))
      obtain ⟨hl, hi⟩ := ih rest (by simp at hlen; omega) (fun c hc => hhex c (by simp [hc]))
      have hv := strtol16_hex_pair c1 c2 a b ha hb
      refine ⟨by simp [parse_hex_frame, hl], ?_⟩
      intro i hik
      cases i with
      | zero =>
        simp [parse_hex_frame, hv, hexDigit_of_some c1 a ha, hexDigit_of_some c2 b hb]
      | succ j =>
        have e1 : 2 * (j + 1) = (2 * j + 1) + 1 := by omega
        have e2 : 2 * (j + 1) + 1 = (2 * j + 1 + 1) + 1 := by omega
        simp only [parse_hex_frame, List.getElem?_cons_succ, e1, List.getD_cons_succ]
        exact hi j (by omega)
    | [], hlen, _ => simp at hlen
    | [_], hlen, _ => simp at hlen; omega

theorem parse_hex_frame_case : ∀ (k : Nat) (arg arg' : List Nat), arg.length = 2 * k →
    (∀ c ∈ arg, (hexval c).isSome) → arg'.map toupper = arg.map toupper →
    parse_hex_frame arg' = parse_hex_frame arg := by
  intro k
  induction k with
  | zero =>
    intro arg arg' hlen _ hmap
    have : arg = [] := List.length_eq_zero.mp (by omega)
    subst this
    have : arg' = [] := by simpa using hmap
    subst this
    rfl
  | succ k ih =>
    intro arg arg' hlen hhex hmap
    match arg, hlen, hhex, hmap with
    | c1 :: c2 :: rest, hlen, hhex, hmap =>
      match arg', hmap with
      | d1 :: d2 :: rest', hmap =>
        simp only [List.map_cons, List.cons.injEq] at hmap
        obtain ⟨h1, h2, h3⟩ := hmap
        obtain ⟨a, ha⟩ := Option.isSome_iff_exists.mp (hhex c1 (by simp))
        obtain ⟨b, hb⟩ := Option.isSome_iff_exists.mp (hhex c2 (by simp))
        have ha' : hexval d1 = some a := by
          rw [← hexval_toupper d1, h1, hexval_toupper, ha]
        have hb' : hexval d2 = some b := by
          rw [← hexval_toupper d2, h2, hexval_toupper, hb]
        have hr := ih rest rest' (by simp at hlen; omega) (fun c hc => hhex c (by simp [hc])) h3
        simp only [parse_hex_frame, strtol16_hex_pair c1 c2 a b ha hb,
          strtol16_hex_pair d1 d2 a b ha' hb', hr]
      | [], hmap => simp at hmap
      | [_], hmap => simp at hmap
    | [], hlen, _, _ => simp at hlen
    | [_], hlen, _, _ => simp at hlen; omega

theorem framesOf_responseEvents (response : String) (uart : Bool) :
    framesOf (responseEvents response uart) = [] := by
  cases uart <;> rfl

theorem reach_custom_valid (now : Nat) (arg : List Nat) (s : State)
    (hpass : ¬ Limited now s) (hvalid : ¬ (arg.length % 2 ≠ 0 ∨ arg.length > 32)) :
    Reach { s with last_command_time := to_ms_since_boot now }
      (cec_send_custom_command now arg s).2 [parse_hex_frame arg] := by
  simp only [cec_send_custom_command, is_rate_limited_pass now s hpass, Bool.false_eq_true,
    if_false, hvalid]
  exact reach_report ((Reach.adv _ 0
    [.printf ("[CEC] Sending custom command: " ++ ofCStr arg ++ "\n")]).trans
      (reach_send_frame (parse_hex_frame arg) _)) _ _ _

/-- A CUSTOM argument of even length of at most 32 characters that passes the
rate limiter results in exactly one call of `cec_send_frame`, with the parsed
bytes. -/
theorem custom_valid_frames (now : Nat) (w f : Bool) (cmd : List Nat) (s : State)
    (hverb : (cmd_upper cmd).take 7 = cstr "CUSTOM:") (hpass : ¬ Limited now s)
    (hvalid : ¬ ((cmd.drop 7).length % 2 ≠ 0 ∨ (cmd.drop 7).length > 32)) :
    framesOf (emitted s (process_command now w cmd f s)) = [parse_hex_frame (cmd.drop 7)] := by
  have hr := reach_custom_valid now (cmd.drop 7) s hpass hvalid
  have hp : Reach { s with last_command_time := to_ms_since_boot now }
      (process_command now w cmd f s) [parse_hex_frame (cmd.drop 7)] := by
    rw [process_command_eq, dispatch_custom now cmd s hverb]
    have h2 := hr.trans (Reach.adv _ 0 (responseEvents
      ("CUSTOM:" ++ (if (cec_send_custom_command now (cmd.drop 7) s).1 then "SUCCESS"
          else "FAILED")) (f && w)))
    simpa [framesOf_responseEvents] using h2
  exact hp.frames

/-! ## Exhaustiveness of the descriptions of the line -/

theorem ack_window_cases (pin : Nat → Bool) (r : Nat) : ∀ n : Nat,
    (∃ k, k < n ∧ (∀ j, j < k → pin (r + j) = true) ∧ pin (r + k) = false) ∨
      (∀ j, j < n → pin (r + j) = true) := by
  intro n
  induction n with
  | zero => exact Or.inr (fun j hj => absurd hj (by omega))
  | succ n ih =>
    rcases ih with ⟨k, hk, hhigh, hlow⟩ | hall
    · exact Or.inl ⟨k, by omega, hhigh, hlow⟩
    · cases hp : pin (r + n) with
      | false => exact Or.inl ⟨n, by omega, hall, hp⟩
      | true =>
        refine Or.inr (fun j hj => ?_)
        by_cases hjn : j = n
        · rw [hjn]; exact hp
        · exact hall j (by omega)

/-- Every behaviour of the line during the ACK windows of `n` blocks is of one
of two kinds: all `n` blocks are acknowledged, or some first block is not. -/
theorem ack_windows_cases (pin : Nat → Bool) : ∀ (n r : Nat),
    ∃ ks, AckedAll pin r ks ∧
      (ks.length = n ∨ (ks.length < n ∧ NotAcked pin (r + samplesUsed ks))) := by
  intro n
  induction n with
  | zero => intro r; exact ⟨[], trivial, Or.inl rfl⟩
  | succ n ih =>
    intro r
    rcases ack_window_cases pin r 200 with ⟨k, hk, hhigh, hlow⟩ | hall
    · obtain ⟨ks, hack, hcase⟩ := ih (r + (k + 1))
      refine ⟨k :: ks, ⟨hk, hhigh, hlow, hack⟩, ?_⟩
      rcases hcase with hlen | ⟨hlen, hnack⟩
      · exact Or.inl (by simp [hlen])
      · refine Or.inr ⟨by simp; omega, ?_⟩
        intro j hj
        have := hnack j hj
        simp only [samplesUsed]
        rw [← this]; congr 1; omega
    · exact ⟨[], trivial, Or.inr ⟨by simp, by simpa [samplesUsed, NotAcked] using hall⟩⟩

/-- Every call of `cec_send_frame` is of one of four kinds: invalid length,
busy bus, all blocks acknowledged, or a first block that is not acknowledged. -/
theorem cec_send_frame_cases (data : List Nat) (s : State) :
    (data.length = 0 ∨ 16 < data.length) ∨
    ((1 ≤ data.length ∧ data.length ≤ 16) ∧
      (s.pin s.reads = false ∨
        (s.pin s.reads = true ∧ ∃ ks, AckedAll s.pin (s.reads + 1) ks ∧
          (ks.length = data.length ∨
            (ks.length < data.length ∧ NotAcked s.pin (s.reads + 1 + samplesUsed ks)))))) := by
  by_cases h : data.length = 0 ∨ 16 < data.length
  · exact Or.inl h
  · refine Or.inr ⟨by omega, ?_⟩
    cases hp : s.pin s.reads with
    | false => exact Or.inl rfl
    | true => exact Or.inr ⟨rfl, ack_windows_cases s.pin data.length (s.reads + 1)⟩

theorem nackFrameEvents_getLast : ∀ (data ks : List Nat) (idx : Nat),
    ks.length < data.length →
    (nackFrameEvents idx data ks).getLast?
      = some (.printf ("[CEC] No ACK received for byte " ++ toString (idx + ks.length) ++ "\n")) := by
  intro data
  induction data with
  | nil => intro ks idx h; simp at h
  | cons b rest ih =>
    intro ks idx h
    cases ks with
    | nil => simp [nackFrameEvents]
    | cons k ks =>
      have hne : nackFrameEvents (idx + 1) rest ks ≠ [] := by
        intro he
        have := ih ks (idx + 1) (by simpa using h)
        rw [he] at this
        simp at this
      simp only [nackFrameEvents, List.length_cons]
      rw [List.getLast?_append_of_ne_nil _ hne, ih ks (idx + 1) (by simpa using h),
        show idx + 1 + ks.length = idx + (ks.length + 1) by omega]

/-! ## Outcome of `cec_send_frame` in terms of the line -/

/-- The complete result of `cec_send_frame` when the bus-free check reads low. -/
theorem cec_send_frame_busy (data : List Nat) (s : State)
    (hlen : 1 ≤ data.length ∧ data.length ≤ 16) (hbusy : s.pin s.reads = false) :
    cec_send_frame data s = (false, s.adv 1
      [.send_frame data, .read_pin false, .printf "[CEC] Bus busy, cannot send\n"]) := by
  have h1 : ¬ (data.length = 0 ∨ data.length > 16) := by omega
  simp only [cec_send_frame, h1, if_false, emit_eq_adv, cec_read_pin_eq, adv_pin, adv_reads,
    Nat.add_zero, hbusy, Bool.not_false, if_true, printf_eq, adv_adv]
  rfl

/-- A frame of valid length is sent successfully exactly when the bus-free
check reads high and every block is acknowledged. -/
theorem cec_send_frame_true_iff (data : List Nat) (s : State)
    (hlen : 1 ≤ data.length ∧ data.length ≤ 16) :
    (cec_send_frame data s).1 = true ↔
      (s.pin s.reads = true ∧
        ∃ ks, ks.length = data.length ∧ AckedAll s.pin (s.reads + 1) ks) := by
  constructor
  · intro h
    rcases cec_send_frame_cases data s with hbad | ⟨_, hbusy | ⟨hfree, ks, hack, hall | ⟨hlt, hn⟩⟩⟩
    · omega
    · rw [cec_send_frame_busy data s hlen hbusy] at h
      exact absurd h (by simp)
    · exact ⟨hfree, ks, hall, hack⟩
    · rw [cec_send_frame_not_acked data ks s hlen hfree hlt hack hn] at h
      exact absurd h (by simp)
  · rintro ⟨hfree, ks, hks, hack⟩
    rw [cec_send_frame_acked data ks s hlen hfree hks hack]

theorem blinkEvents_no_low (count : Nat) : ∀ e ∈ blinkEvents count, e ≠ Ev.set_pin_low := by
  induction count with
  | zero => simp [blinkEvents]
  | succ n ih =>
    intro e he
    simp only [blinkEvents, List.mem_append, List.mem_cons, List.not_mem_nil, or_false] at he
    rcases he with (rfl | rfl | rfl | rfl) | he
    · simp
    · simp
    · simp
    · simp
    · exact ih e he

theorem responseEvents_no_low (response : String) (uart : Bool) :
    ∀ e ∈ responseEvents response uart, e ≠ Ev.set_pin_low := by
  cases uart <;> simp [responseEvents]

/-- The pulses of a log that consists of events that never assert the line,
then a frame whose blocks are all acknowledged, then again events that never
assert the line. -/
theorem pulses_around_frame (pre post : List Ev) (data ks : List Nat)
    (hks : ks.length = data.length)
    (hpre : ∀ e ∈ pre, e ≠ Ev.set_pin_low) (hpost : ∀ e ∈ post, e ≠ Ev.set_pin_low) :
    pulses (pre ++ (preambleEvents data ++ frameEvents data ks ++ post))
      = startPulse :: blockPulses data := by
  rw [pulses_skip pre _ hpre, List.append_assoc, pulses_preamble,
    pulses_frameEvents data ks _ hks]
  have : pulses post = [] := by
    have := pulses_skip post [] hpost
    simpa [pulses] using this
  rw [this, List.append_nil]

/-- The complete result of `cec_power_on` when the cooldown has elapsed, the
bus is free and the four blocks are acknowledged. -/
theorem cec_power_on_acked (now : Nat) (ks : List Nat) (s : State)
    (hpass : ¬ Limited now s) (hfree : s.pin s.reads = true) (hks : ks.length = 4)
    (hack : AckedAll s.pin (s.reads + 1) ks) :
    cec_power_on now s = (true,
      { s with last_command_time := to_ms_since_boot now }.adv (1 + samplesUsed ks)
        (powerOnEvents [((s.our_logical_address <<< 4) ||| CEC_LOGICAL_ADDRESS_BROADCAST) % 256,
          CEC_OPCODE_ACTIVE_SOURCE, 0x10, 0x00] ks)) := by
  have hf := cec_send_frame_acked
    [((s.our_logical_address <<< 4) ||| CEC_LOGICAL_ADDRESS_BROADCAST) % 256,
      CEC_OPCODE_ACTIVE_SOURCE, 0x10, 0x00] ks
    ({ s with last_command_time := to_ms_since_boot now }.adv 0
      (Ev.printf "[CEC] Sending POWER ON command\n" :: blinkEvents 3))
    (by simp) (by simpa using hfree) (by simpa using hks) (by simpa using hack)
  simp only [cec_power_on, is_rate_limited_pass now s hpass, Bool.false_eq_true, if_false,
    printf_eq, blink_status_led_eq, adv_adv, adv_addr, Nat.add_zero, List.singleton_append]
  simp only [Nat.add_zero] at hf
  rw [hf]
  simp [powerOnEvents]

theorem dispatch_status (now : Nat) (cmd : List Nat) (s : State)
    (h : cmd_upper cmd = cstr "STATUS") :
    process_command_dispatch now cmd s
      = ("STATUS:" ++ (if (cec_get_power_status s).1 then "REQUEST_SENT" else "FAILED"),
          (cec_get_power_status s).2) := by
  have h0 : ¬ cstr "STATUS" = cstr "SCAN" := by decide
  have h1 : ¬ cstr "STATUS" = cstr "POWER_ON" := by decide
  have h2 : ¬ cstr "STATUS" = cstr "ON" := by decide
  have h3 : ¬ cstr "STATUS" = cstr "POWER_OFF" := by decide
  have h4 : ¬ cstr "STATUS" = cstr "OFF" := by decide
  simp only [process_command_dispatch, h, h0, h1, h2, h3, h4, if_true, if_false, or_self]

theorem dispatch_scan (now : Nat) (cmd : List Nat) (s : State)
    (h : cmd_upper cmd = cstr "SCAN") :
    process_command_dispatch now cmd s
      = ("SCAN_RESULT:" ++ (if (cec_scan_devices s).1 then "DEVICES_FOUND" else "NO_DEVICES"),
          (cec_scan_devices s).2) := by
  simp only [process_command_dispatch, h, if_true]

/-- What `cec_get_power_status` returns and where it leaves the state, in terms
of its single call of `cec_send_frame`. -/
theorem cec_get_power_status_eq (s : State) :
    cec_get_power_status s
      = ((cec_send_frame [((s.our_logical_address <<< 4) ||| CEC_LOGICAL_ADDRESS_TV) % 256,
            CEC_OPCODE_GIVE_DEVICE_POWER_STATUS]
          (s.adv 0 [.printf "[CEC] Checking power status\n"])).1,
        (cec_send_frame [((s.our_logical_address <<< 4) ||| CEC_LOGICAL_ADDRESS_TV) % 256,
            CEC_OPCODE_GIVE_DEVICE_POWER_STATUS]
          (s.adv 0 [.printf "[CEC] Checking power status\n"])).2.adv 0
          [.printf (if (cec_send_frame
              [((s.our_logical_address <<< 4) ||| CEC_LOGICAL_ADDRESS_TV) % 256,
                CEC_OPCODE_GIVE_DEVICE_POWER_STATUS]
              (s.adv 0 [.printf "[CEC] Checking power status\n"])).1
            then "[CEC] Power status request sent\n"
            else "[CEC] Failed to send power status request\n")]) := by
  simp only [cec_get_power_status, printf_eq, adv_addr]
  split <;> simp_all

/-- Whatever the line does, a POWER_ON that passes the rate limiter hands
exactly one frame to `cec_send_frame`: the broadcast header, the opcode Active
Source and the physical address 1.0.0.0. -/
theorem reach_power_on (now : Nat) (s : State) (h : ¬ Limited now s) :
    Reach { s with last_command_time := to_ms_since_boot now } (cec_power_on now s).2
      [[((s.our_logical_address <<< 4) ||| CEC_LOGICAL_ADDRESS_BROADCAST) % 256,
        CEC_OPCODE_ACTIVE_SOURCE, 0x10, 0x00]] := by
  simp only [cec_power_on, is_rate_limited_pass now s h, Bool.false_eq_true, if_false]
  have h1 := (reach_blink_after_print 3 "[CEC] Sending POWER ON command\n"
    { s with last_command_time := to_ms_since_boot now }).trans
      (reach_send_frame
        [((s.our_logical_address <<< 4) ||| CEC_LOGICAL_ADDRESS_BROADCAST) % 256,
          CEC_OPCODE_ACTIVE_SOURCE, 0x10, 0x00] _)
  exact reach_report h1 _ _ _

/-- The frames handed to `cec_send_frame` during `process_command` are those
of the selected command. -/
theorem frames_of_process_command (now : Nat) (w f : Bool) (cmd : List Nat) (s s0 : State)
    (fs : List (List Nat)) (htr : s0.trace = s.trace)
    (h : Reach s0 (process_command_dispatch now cmd s).2 fs) :
    framesOf (emitted s (process_command now w cmd f s)) = fs := by
  have h2 := h.trans (Reach.adv _ 0
    (responseEvents (process_command_dispatch now cmd s).1 (f && w)))
  rw [← process_command_eq, framesOf_responseEvents, List.append_nil] at h2
  have h3 := h2.frames
  simpa [emitted, htr] using h3

/-- Whatever the line does, STATUS hands exactly one frame to
`cec_send_frame`: the header to the TV and the opcode Give Device Power
Status. -/
theorem reach_status (s : State) :
    Reach s (cec_get_power_status s).2
      [[((s.our_logical_address <<< 4) ||| CEC_LOGICAL_ADDRESS_TV) % 256,
        CEC_OPCODE_GIVE_DEVICE_POWER_STATUS]] := by
  simp only [cec_get_power_status]
  have h1 := (Reach.adv s 0 [.printf "[CEC] Checking power status\n"]).trans
    (reach_send_frame [((s.our_logical_address <<< 4) ||| CEC_LOGICAL_ADDRESS_TV) % 256,
      CEC_OPCODE_GIVE_DEVICE_POWER_STATUS] _)
  exact reach_report h1 _ _ _

theorem status_text (b : Bool) :
    ("STATUS:" ++ (if b then "REQUEST_SENT" else "FAILED") = "STATUS:REQUEST_SENT" ↔ b = true) ∧
    ("STATUS:" ++ (if b then "REQUEST_SENT" else "FAILED") ≠ "STATUS:REQUEST_SENT" →
      "STATUS:" ++ (if b then "REQUEST_SENT" else "FAILED") = "STATUS:FAILED") := by
  cases b <;> decide

theorem power_text (tag : String) (b : Bool) :
    tag ++ (if b then "SUCCESS" else "FAILED") = tag ++ "SUCCESS" ∨
      tag ++ (if b then "SUCCESS" else "FAILED") = tag ++ "FAILED" := by
  cases b
  · exact Or.inr rfl
  · exact Or.inl rfl

/-! ## Outcome of a scan in terms of the line -/

theorem firstLow_some (pin : Nat → Bool) : ∀ (n r k : Nat), firstLow pin r n = some k →
    k < n ∧ (∀ j, j < k → pin (r + j) = true) ∧ pin (r + k) = false := by
  intro n
  induction n with
  | zero => intro r k h; simp [firstLow] at h
  | succ n ih =>
    intro r k h
    simp only [firstLow] at h
    split at h
    · next hp =>
      cases h
      exact ⟨by omega, fun j hj => absurd hj (by omega), by simpa using hp⟩
    · next hp =>
      obtain ⟨k', hk', rfl⟩ := Option.map_eq_some'.mp h
      obtain ⟨h1, h2, h3⟩ := ih (r + 1) k' hk'
      refine ⟨by omega, ?_, ?_⟩
      · intro j hj
        cases j with
        | zero => simpa using hp
        | succ j =>
          have := h2 j (by omega)
          rw [← this]; congr 1; omega
      · rw [← h3]; congr 1; omega

theorem firstLow_none (pin : Nat → Bool) : ∀ (n r : Nat), firstLow pin r n = none →
    ∀ j, j < n → pin (r + j) = true := by
  intro n
  induction n with
  | zero => intro r _ j hj; omega
  | succ n ih =>
    intro r h j hj
    simp only [firstLow] at h
    split at h
    · cases h
    · next hp =>
      have hn : firstLow pin (r + 1) n = none := by simpa using h
      cases j with
      | zero => simpa using hp
      | succ j =>
        have := ih (r + 1) hn j (by omega)
        rw [← this]; congr 1; omega

/-- One poll: the result of `cec_send_frame` on a 1-byte frame and the number
of samples it takes, in terms of the line. -/
theorem cec_send_frame_poll (b : Nat) (s : State) :
    (cec_send_frame [b] s).1 = pollAcked s.pin s.reads ∧
    (cec_send_frame [b] s).2.reads = s.reads + pollSamples s.pin s.reads := by
  cases hp : s.pin s.reads with
  | false =>
    rw [cec_send_frame_busy [b] s (by simp) hp]
    simp [pollAcked, pollSamples, hp]
  | true =>
    cases hf : firstLow s.pin (s.reads + 1) 200 with
    | none =>
      have hn := firstLow_none s.pin 200 (s.reads + 1) hf
      rw [cec_send_frame_not_acked [b] [] s (by simp) hp (by simp) trivial
        (by simpa [NotAcked, samplesUsed] using hn)]
      simp [pollAcked, pollSamples, hp, hf, samplesUsed]
    | some k =>
      obtain ⟨h1, h2, h3⟩ := firstLow_some s.pin 200 (s.reads + 1) k hf
      rw [cec_send_frame_acked [b] [k] s (by simp) hp (by simp) ⟨h1, h2, h3, trivial⟩]
      simp [pollAcked, pollSamples, hp, hf, samplesUsed]

theorem Reach.pin {s t : State} {f : List (List Nat)} (h : Reach s t f) : t.pin = s.pin := by
  obtain ⟨k, e, rfl, _⟩ := h; rfl

/-- One iteration of the scan loop in terms of the line: the local address is
skipped; any other destination is polled, a successful poll sets
`devices_found` and a failed one leaves it as it is. -/
theorem scan_step_outcome (acc : Bool × State) (d : Nat) :
    (d = acc.2.our_logical_address → cec_scan_devices_step acc d = acc) ∧
    (d ≠ acc.2.our_logical_address →
      (cec_scan_devices_step acc d).1 = (acc.1 || pollAcked acc.2.pin acc.2.reads) ∧
      (cec_scan_devices_step acc d).2.reads
        = acc.2.reads + pollSamples acc.2.pin acc.2.reads) := by
  constructor
  · intro h
    simp only [cec_scan_devices_step, h, if_true]
  · intro h
    obtain ⟨h1, h2⟩ := cec_send_frame_poll
      (((acc.2.our_logical_address <<< 4) ||| d) % 256) acc.2
    simp only [cec_scan_devices_step, h, if_false]
    split
    · next hr =>
      rw [hr] at h1
      simp [← h1, h2]
    · next hr =>
      have hr' : (cec_send_frame [((acc.2.our_logical_address <<< 4) ||| d) % 256] acc.2).1
          = false := by simpa using hr
      rw [hr'] at h1
      simp [← h1, h2]

theorem scan_fold_outcome : ∀ (ds : List Nat) (acc : Bool × State),
    (ds.foldl cec_scan_devices_step acc).1
      = (acc.1 || (scanAcks acc.2.pin acc.2.our_logical_address ds acc.2.reads).any (·.2)) := by
  intro ds
  induction ds with
  | nil => intro acc; simp [scanAcks]
  | cons d ds ih =>
    intro acc
    have hreach := reach_scan_step acc d
    obtain ⟨hskip, hpoll⟩ := scan_step_outcome acc d
    simp only [List.foldl_cons]
    rw [ih, hreach.pin, hreach.addr]
    by_cases h : d = acc.2.our_logical_address
    · rw [hskip h]
      simp only [scanAcks, h, if_true]
    · obtain ⟨h1, h2⟩ := hpoll h
      rw [h1, h2]
      simp only [scanAcks, h, if_false, List.any_cons, Bool.or_assoc]

/-- The result of `cec_scan_devices` in terms of the line: some polled
destination acknowledges. -/
theorem cec_scan_devices_found (s : State) :
    (cec_scan_devices s).1
      = (scanAcks s.pin s.our_logical_address (List.range 15) s.reads).any (·.2) := by
  have key : ∀ r : Bool × State,
      (if !r.1 then (r.1, printf "[CEC] No devices found\n" r.2) else r).1 = r.1 := by
    intro r; split <;> rfl
  have h := scan_fold_outcome (List.range 15)
    (false, blink_status_led 2 (printf "[CEC] Scanning for devices...\n" s))
  simp only [printf_eq, blink_status_led_eq, adv_adv, adv_pin, adv_reads, adv_addr,
    Nat.add_zero, Bool.false_or] at h
  simp only [cec_scan_devices, key]
  simp only [printf_eq, blink_status_led_eq, adv_adv, Nat.add_zero]
  exact h

theorem scanAcks_dests (pin : Nat → Bool) (a : Nat) : ∀ (ds : List Nat) (r : Nat),
    (scanAcks pin a ds r).map Prod.fst = ds.filter (fun d => decide (d ≠ a)) := by
  intro ds
  induction ds with
  | nil => intro r; rfl
  | cons d ds ih =>
    intro r
    by_cases h : d = a
    · simp [scanAcks, h, ih]
    · simp [scanAcks, h, ih]

theorem scan_text (b : Bool) :
    ("SCAN_RESULT:" ++ (if b then "DEVICES_FOUND" else "NO_DEVICES")
        = "SCAN_RESULT:DEVICES_FOUND" ↔ b = true) ∧
    ("SCAN_RESULT:" ++ (if b then "DEVICES_FOUND" else "NO_DEVICES")
        ≠ "SCAN_RESULT:DEVICES_FOUND" →
      "SCAN_RESULT:" ++ (if b then "DEVICES_FOUND" else "NO_DEVICES")
        = "SCAN_RESULT:NO_DEVICES") := by
  cases b <;> decide

/-! ## Functions that do not consult `last_command_time` -/

@[simp]
theorem setLast_addr (x : Nat) (s : State) :
    (s.setLast x).our_logical_address = s.our_logical_address := rfl

@[simp]
theorem setLast_last (x : Nat) (s : State) : (s.setLast x).last_command_time = x := rfl

/-- A text shorter than the buffer equals the truncated upper-cased command
exactly when it equals the whole upper-cased command. -/
theorem cmd_upper_eq_iff (cmd v : List Nat) (hv : v.length < 63) :
    cmd_upper cmd = v ↔ cmd.map toupper = v := by
  unfold cmd_upper
  rw [List.map_take]
  constructor
  · intro h
    have hl := congrArg List.length h
    rw [List.length_take, List.length_map] at hl
    have hlen : (cmd.map toupper).length ≤ 63 := by
      rw [List.length_map]; omega
    rw [List.take_of_length_le hlen] at h
    exact h
  · intro h
    rw [h, List.take_of_length_le (by omega)]

theorem cmd_upper_take7 (cmd : List Nat) :
    (cmd_upper cmd).take 7 = (cmd.map toupper).take 7 := by
  unfold cmd_upper
  rw [List.map_take, List.take_take]
  rfl

theorem selectedBranch_eq (cmd : List Nat) : selectedBranch cmd = verbOfLine cmd := by
  unfold selectedBranch verbOfLine
  rw [cmd_upper_take7]
  simp only [cmd_upper_eq_iff cmd (cstr "SCAN") (by decide),
    cmd_upper_eq_iff cmd (cstr "POWER_ON") (by decide),
    cmd_upper_eq_iff cmd (cstr "ON") (by decide),
    cmd_upper_eq_iff cmd (cstr "POWER_OFF") (by decide),
    cmd_upper_eq_iff cmd (cstr "OFF") (by decide),
    cmd_upper_eq_iff cmd (cstr "STATUS") (by decide),
    cmd_upper_eq_iff cmd (cstr "HELP") (by decide),
    cmd_upper_eq_iff cmd (cstr "VERSION") (by decide)]

theorem dispatch_eq_run_selected (now : Nat) (cmd : List Nat) (s : State) :
    process_command_dispatch now cmd s = run_verb now (selectedBranch cmd) s := by
  unfold process_command_dispatch selectedBranch
  split
  · rfl
  · split
    · rfl
    · split
      · rfl
      · split
        · rfl
        · split
          · rfl
          · split
            · rfl
            · split
              · rfl
              · rfl

/-! ## What is written to the UART -/

theorem uartOut_append (a b : List Ev) : uartOut (a ++ b) = uartOut a ++ uartOut b := by
  induction a with
  | nil => rfl
  | cons e a ih => cases e <;> simp [uartOut, ih]

theorem consoleOut_append (a b : List Ev) :
    consoleOut (a ++ b) = consoleOut a ++ consoleOut b := by
  induction a with
  | nil => rfl
  | cons e a ih => cases e <;> simp [consoleOut, ih]

theorem uartOut_adv (k : Nat) (evs : List Ev) (s : State) :
    uartOut (s.adv k evs).trace = uartOut s.trace ++ uartOut evs := by
  simp [State.adv, uartOut_append]

theorem uartOut_adv_quiet (k : Nat) (evs : List Ev) (s : State) (h : uartOut evs = []) :
    uartOut (s.adv k evs).trace = uartOut s.trace := by
  rw [uartOut_adv, h, List.append_nil]

theorem uartOut_bitEvents (b : Bool) : uartOut (bitEvents b) = [] := rfl

theorem uartOut_bits (bs : List Bool) : uartOut (bs.flatMap bitEvents) = [] := by
  induction bs with
  | nil => rfl
  | cons b bs ih => simp [List.flatMap_cons, uartOut_append, uartOut_bitEvents, ih]

theorem uartOut_blinkEvents (count : Nat) : uartOut (blinkEvents count) = [] := by
  induction count with
  | zero => rfl
  | succ n ih => simp [blinkEvents, uartOut, ih]

theorem uartOut_print_bytes (data : List Nat) :
    uartOut (data.map (fun b => Ev.printf (hex2 b ++ " "))) = [] := by
  induction data with
  | nil => rfl
  | cons b r ih => simpa [uartOut] using ih

theorem uart_ack_loop (fuel : Nat) : ∀ (elapsed : Nat) (s : State),
    uartOut (cec_wait_for_ack_loop fuel elapsed s).2.trace = uartOut s.trace := by
  induction fuel with
  | zero => intro elapsed s; rfl
  | succ f ih =>
    intro elapsed s
    simp only [cec_wait_for_ack_loop]
    split
    · rfl
    · split
      · exact uartOut_adv_quiet 1 _ s rfl
      · rw [ih]
        simp only [cec_read_pin_eq, busy_wait_us_eq, adv_adv]
        exact uartOut_adv_quiet _ _ s rfl

theorem uartOut_startEvents : uartOut startEvents = [] := rfl

theorem uart_frame_loop (length : Nat) : ∀ (data : List Nat) (idx : Nat) (s : State),
    uartOut (cec_send_frame_loop length idx data s).2.trace = uartOut s.trace := by
  intro data
  induction data with
  | nil => intro idx s; rfl
  | cons b rest ih =>
    intro idx s
    simp only [cec_send_frame_loop, cec_send_data_bits_eight, cec_send_bit_eq, adv_adv]
    have h2 : ∀ t : State, uartOut t.trace = uartOut s.trace →
        uartOut (cec_wait_for_ack t).2.trace = uartOut s.trace := by
      intro t ht
      unfold cec_wait_for_ack
      rw [uart_ack_loop, ht]
    have h1 := h2 _ (uartOut_adv_quiet (0 + 0)
        ((msbBits b).flatMap bitEvents ++ bitEvents (idx == length - 1)) s
        (by rw [uartOut_append, uartOut_bits, uartOut_bitEvents]; rfl))
    split
    · rw [printf_eq, uartOut_adv, h1]
      simp [uartOut]
    · rw [ih, h1]

/-- Nothing that `cec_send_frame` does is written to the UART. -/
theorem uart_send_frame (data : List Nat) (s : State) :
    uartOut (cec_send_frame data s).2.trace = uartOut s.trace := by
  have h0 : uartOut (s.emit (.send_frame data)).trace = uartOut s.trace :=
    uartOut_adv_quiet 0 _ s rfl
  simp only [cec_send_frame]
  split
  · exact h0
  · split
    · simp only [cec_read_pin_eq, printf_eq, adv_adv]
      rw [uartOut_adv, h0]
      simp [uartOut]
    · simp only [cec_read_pin_eq, printf_eq, print_bytes_eq, cec_send_start_bit_eq, adv_adv]
      split
      · rw [uartOut_adv, uart_frame_loop, uartOut_adv, h0]
        simp [uartOut_append, uartOut_print_bytes, uartOut_startEvents, uartOut]
      · rw [uart_frame_loop, uartOut_adv, h0]
        simp [uartOut_append, uartOut_print_bytes, uartOut_startEvents, uartOut]

theorem uart_report (c : Bool) (a b : String) (t : State) :
    uartOut (if c then (true, printf a t) else (false, printf b t)).2.trace = uartOut t.trace := by
  cases c
  · exact uartOut_adv_quiet 0 _ t rfl
  · exact uartOut_adv_quiet 0 _ t rfl

theorem uart_blink_after_print (count : Nat) (text : String) (s : State) :
    uartOut (blink_status_led count (printf text s)).trace = uartOut s.trace := by
  rw [printf_eq, blink_status_led_eq, adv_adv]
  refine uartOut_adv_quiet _ _ s ?_
  rw [uartOut_append, uartOut_blinkEvents]
  rfl

theorem uart_scan_step (acc : Bool × State) (d : Nat) :
    uartOut (cec_scan_devices_step acc d).2.trace = uartOut acc.2.trace := by
  unfold cec_scan_devices_step
  split
  · rfl
  · have hf := uart_send_frame [((acc.2.our_logical_address <<< 4) ||| d) % 256] acc.2
    dsimp only
    split
    · simp only [printf_eq, sleep_ms_eq, adv_adv]
      rw [uartOut_adv, hf]
      simp [uartOut]
    · simp only [sleep_ms_eq]
      rw [uartOut_adv, hf]
      simp [uartOut]

theorem uart_scan_fold : ∀ (ds : List Nat) (acc : Bool × State),
    uartOut (ds.foldl cec_scan_devices_step acc).2.trace = uartOut acc.2.trace := by
  intro ds
  induction ds with
  | nil => intro acc; rfl
  | cons d ds ih =>
    intro acc
    rw [List.foldl_cons, ih, uart_scan_step]

theorem uart_key (r : Bool × State) (text : String) :
    uartOut (if !r.1 then (r.1, printf text r.2) else r).2.trace = uartOut r.2.trace := by
  split
  · exact uartOut_adv_quiet 0 _ r.2 rfl
  · rfl

theorem uart_scan_devices (s : State) :
    uartOut (cec_scan_devices s).2.trace = uartOut s.trace := by
  unfold cec_scan_devices
  dsimp only
  rw [uart_key, uart_scan_fold]
  exact uart_blink_after_print 2 _ s

theorem uart_is_rate_limited (now : Nat) (s : State) :
    uartOut (is_rate_limited now s).2.trace = uartOut s.trace := by
  unfold is_rate_limited
  dsimp only
  split
  · exact uartOut_adv_quiet 0 _ s rfl
  · rfl

theorem uart_setLast (x : Nat) (s : State) :
    uartOut ({ s with last_command_time := x } : State).trace = uartOut s.trace := rfl

theorem uart_cec_power_on (now : Nat) (s : State) :
    uartOut (cec_power_on now s).2.trace = uartOut s.trace := by
  have h0 := uart_is_rate_limited now s
  unfold cec_power_on
  dsimp only
  split
  · exact h0
  · rw [uart_report, uart_send_frame, uart_blink_after_print, h0]

theorem uart_cec_power_off (now : Nat) (s : State) :
    uartOut (cec_power_off now s).2.trace = uartOut s.trace := by
  have h0 := uart_is_rate_limited now s
  unfold cec_power_off
  dsimp only
  split
  · exact h0
  · rw [uart_report, uart_send_frame, uart_blink_after_print, h0]

theorem uart_printf (text : String) (s : State) :
    uartOut (printf text s).trace = uartOut s.trace :=
  uartOut_adv_quiet 0 _ s rfl

theorem uart_cec_send_custom_command (now : Nat) (arg : List Nat) (s : State) :
    uartOut (cec_send_custom_command now arg s).2.trace = uartOut s.trace := by
  have h0 := uart_is_rate_limited now s
  unfold cec_send_custom_command
  dsimp only
  split
  · exact h0
  · split
    · rw [uart_printf, uart_printf, h0]
    · rw [uart_report, uart_send_frame, uart_printf, h0]

theorem uart_cec_get_power_status (s : State) :
    uartOut (cec_get_power_status s).2.trace = uartOut s.trace := by
  unfold cec_get_power_status
  dsimp only
  rw [uart_report, uart_send_frame, uart_printf]

/-- Running a verb writes nothing to the UART. -/
theorem uart_dispatch (now : Nat) (cmd : List Nat) (s : State) :
    uartOut (process_command_dispatch now cmd s).2.trace = uartOut s.trace := by
  rcases dispatch_cases now cmd s with h | h | h | h | h | h
  · simp only [h]
    exact uart_scan_devices s
  · simp only [h]
    exact uart_cec_power_on now s
  · simp only [h]
    exact uart_cec_power_off now s
  · simp only [h]
    exact uart_cec_get_power_status s
  · simp only [h]
    exact uart_cec_send_custom_command now _ s
  · rw [h.2]

/-- The log only grows while a verb runs. -/
theorem dispatch_trace (now : Nat) (cmd : List Nat) (s : State) :
    (process_command_dispatch now cmd s).2.trace
      = s.trace ++ emitted s (process_command_dispatch now cmd s).2 := by
  have key : ∀ (s0 t : State) (fs : List (List Nat)), s0.trace = s.trace → Reach s0 t fs →
      t.trace = s.trace ++ emitted s t := by
    intro s0 t fs h0 hr
    obtain ⟨k, e, rfl, _⟩ := hr
    simp [emitted, State.adv, h0]
  rcases dispatch_cases now cmd s with h | h | h | h | h | h
  · simp only [h]
    exact key s _ _ rfl (reach_scan_devices s)
  · simp only [h]
    by_cases hl : Limited now s
    · simp only [cec_power_on_limited now s hl]
      exact key s _ _ rfl (Reach.adv s 0 _)
    · obtain ⟨fs, hr⟩ := cec_power_on_pass now s hl
      exact key { s with last_command_time := to_ms_since_boot now } _ fs rfl hr
  · simp only [h]
    by_cases hl : Limited now s
    · simp only [cec_power_off_limited now s hl]
      exact key s _ _ rfl (Reach.adv s 0 _)
    · obtain ⟨fs, hr⟩ := cec_power_off_pass now s hl
      exact key { s with last_command_time := to_ms_since_boot now } _ fs rfl hr
  · simp only [h]
    obtain ⟨fs, hr⟩ := reach_get_power_status s
    exact key s _ fs rfl hr
  · simp only [h]
    by_cases hl : Limited now s
    · simp only [cec_send_custom_command_limited now _ s hl]
      exact key s _ _ rfl (Reach.adv s 0 _)
    · obtain ⟨fs, hr⟩ := cec_send_custom_command_pass now (cmd.drop 7) s hl
      exact key { s with last_command_time := to_ms_since_boot now } _ fs rfl hr
  · rw [h.2]; simp [emitted]

/-- What one command logs: the events of the verb, then the response. -/
theorem emitted_process_command (now : Nat) (w f : Bool) (cmd : List Nat) (s : State) :
    emitted s (process_command now w cmd f s)
      = emitted s (process_command_dispatch now cmd s).2
          ++ responseEvents (process_command_dispatch now cmd s).1 (f && w) := by
  rw [process_command_eq]
  generalize responseEvents (process_command_dispatch now cmd s).1 (f && w) = evs
  have h := dispatch_trace now cmd s
  generalize process_command_dispatch now cmd s = r at h
  unfold emitted at h ⊢
  simp only [State.adv]
  rw [h]
  simp

theorem uart_emitted_dispatch (now : Nat) (cmd : List Nat) (s : State) :
    uartOut (emitted s (process_command_dispatch now cmd s).2) = [] := by
  have h1 := uart_dispatch now cmd s
  rw [dispatch_trace, uartOut_append] at h1
  exact List.self_eq_append_right.mp h1.symm

theorem uartOut_responseEvents (r : String) (u : Bool) :
    uartOut (responseEvents r u) = if u then [r, "\n"] else [] := by
  cases u <;> rfl

theorem mem_responseEvents (r : String) (u : Bool) :
    Ev.printf ("RESPONSE: " ++ r ++ "\n") ∈ responseEvents r u := by
  cases u <;> simp [responseEvents]

/-! ## Line assembly -/

theorem c_string_set_nul : ∀ (buffer : List Nat) (pos : Nat), pos < buffer.length →
    (∀ c ∈ buffer.take pos, c ≠ 0) → c_string (buffer.set pos 0) = buffer.take pos := by
  intro buffer
  induction buffer with
  | nil => intro pos h; simp at h
  | cons b rest ih =>
    intro pos h hnz
    cases pos with
    | zero => simp [c_string]
    | succ p =>
      have hb : b ≠ 0 := hnz b (by simp)
      have hrest := ih p (by simpa using h) (fun c hc => hnz c (by simp [hc]))
      unfold c_string at hrest ⊢
      simp [List.takeWhile_cons, hb, hrest]

theorem take_succ_set : ∀ (buffer : List Nat) (pos c : Nat), pos < buffer.length →
    (buffer.set pos c).take (pos + 1) = buffer.take pos ++ [c] := by
  intro buffer
  induction buffer with
  | nil => intro pos c h; simp at h
  | cons b rest ih =>
    intro pos c h
    cases pos with
    | zero => simp
    | succ p => simpa using ih p c (by simpa using h)

theorem accumulates_nil (buffer : List Nat) (h : buffer.length = 256) :
    Accumulates buffer 0 [] :=
  ⟨h, by omega, rfl, rfl, by simp⟩

theorem accumulates_zero {buffer acc : List Nat} (h : Accumulates buffer 0 acc) : acc = [] :=
  List.length_eq_zero.mp h.2.2.1

theorem accumulates_dispatch {buffer acc : List Nat} {pos : Nat}
    (h : Accumulates buffer pos acc) :
    c_string (buffer.set pos 0) = acc ∧ Accumulates (buffer.set pos 0) 0 [] := by
  obtain ⟨hlen, hpos, hacc, htake, hnz⟩ := h
  refine ⟨?_, accumulates_nil _ (by rw [List.length_set, hlen])⟩
  rw [c_string_set_nul buffer pos (by omega) (by rw [htake]; exact hnz), htake]

theorem accumulates_extend {buffer acc : List Nat} {pos : Nat} (c : Nat)
    (h : Accumulates buffer pos acc) (hc : 32 ≤ c) (hp : pos < 255) :
    Accumulates (buffer.set pos c) (pos + 1) (acc ++ [c]) := by
  obtain ⟨hlen, hpos, hacc, htake, hnz⟩ := h
  refine ⟨by rw [List.length_set, hlen], by omega, by simp [hacc], ?_, ?_⟩
  · rw [take_succ_set buffer pos c (by omega), htake]
  · intro x hx
    rcases List.mem_append.mp hx with hx | hx
    · exact hnz x hx
    · have : x = c := by simpa using hx
      omega

theorem assembleLines_cons (acc : List Nat) (b : Nat) (rest : List Nat) :
    assembleLines acc (b :: rest)
      = ((assembleLines acc [b]).1 ++ (assembleLines (assembleLines acc [b]).2 rest).1,
          (assembleLines (assembleLines acc [b]).2 rest).2) := by
  simp only [assembleLines]
  split
  · rfl
  · split <;> rfl

/-- The lines that a transport dispatches: the terminated lines with at least
one character. -/
theorem assemble_fold {α : Type} (step : Firmware → α → Firmware) (byte : α → Nat)
    (pos : Firmware → Nat) (flag : Bool)
    (hstep : ∀ (fw : Firmware) (a : α) (acc : List Nat),
      Accumulates fw.command_buffer (pos fw) acc →
      (step fw a).calls = fw.calls
          ++ ((assembleLines acc [byte a]).1.filter (fun l => decide (l ≠ []))).map
              (fun l => (l, flag)) ∧
        Accumulates (step fw a).command_buffer (pos (step fw a)) (assembleLines acc [byte a]).2) :
    ∀ (xs : List α) (fw : Firmware) (acc : List Nat),
      Accumulates fw.command_buffer (pos fw) acc →
      (xs.foldl step fw).calls = fw.calls
          ++ ((assembleLines acc (xs.map byte)).1.filter (fun l => decide (l ≠ []))).map
              (fun l => (l, flag)) ∧
        Accumulates (xs.foldl step fw).command_buffer (pos (xs.foldl step fw))
          (assembleLines acc (xs.map byte)).2 := by
  intro xs
  induction xs with
  | nil =>
    intro fw acc h
    exact ⟨by simp [assembleLines], h⟩
  | cons a rest ih =>
    intro fw acc h
    obtain ⟨h1, h2⟩ := hstep fw a acc h
    obtain ⟨h3, h4⟩ := ih (step fw a) _ h2
    rw [List.foldl_cons, List.map_cons, assembleLines_cons]
    refine ⟨?_, h4⟩
    rw [h3, h1]
    simp [List.filter_append]

theorem flipper_byte_step (now : Nat) (w : Bool) (c : Nat) (fw : Firmware) (acc : List Nat)
    (h : Accumulates fw.command_buffer fw.flipper_cmd_pos acc) :
    (process_flipper_byte now w c fw).calls = fw.calls
        ++ ((assembleLines acc [c]).1.filter (fun l => decide (l ≠ []))).map
            (fun l => (l, true)) ∧
      Accumulates (process_flipper_byte now w c fw).command_buffer
        (process_flipper_byte now w c fw).flipper_cmd_pos (assembleLines acc [c]).2 := by
  unfold process_flipper_byte
  simp only [assembleLines]
  by_cases hterm : c = 10 ∨ c = 13
  · rw [if_pos hterm, if_pos hterm]
    by_cases hpos : fw.flipper_cmd_pos > 0
    · rw [if_pos hpos]
      obtain ⟨hstr, hacc⟩ := accumulates_dispatch h
      have hne : acc ≠ [] := by
        intro he
        have := h.2.2.1
        rw [he] at this
        simp at this
        omega
      dsimp only
      rw [hstr]
      exact ⟨by simp [hne], hacc⟩
    · rw [if_neg hpos]
      have hz : fw.flipper_cmd_pos = 0 := by omega
      rw [hz] at h ⊢
      have he := accumulates_zero h
      subst he
      exact ⟨by simp, h⟩
  · rw [if_neg hterm, if_neg hterm]
    by_cases hpr : 32 ≤ c ∧ c ≤ 126
    · rw [if_pos hpr]
      by_cases hp : fw.flipper_cmd_pos < 255
      · rw [if_pos ⟨hpr.1, hpr.2, hp⟩, if_pos (by rw [h.2.2.1]; exact hp)]
        exact ⟨by simp [assembleLines], accumulates_extend c h hpr.1 hp⟩
      · rw [if_neg (fun hh => hp hh.2.2), if_neg (by rw [h.2.2.1]; exact hp)]
        exact ⟨by simp [assembleLines], h⟩
    · rw [if_neg hpr, if_neg (fun hh => hpr ⟨hh.1, hh.2.1⟩)]
      exact ⟨by simp [assembleLines], h⟩

theorem usb_byte_step (now : Nat) (w : Bool) (c : Nat) (fw : Firmware) (acc : List Nat)
    (h : Accumulates fw.command_buffer fw.usb_cmd_pos acc) :
    (process_usb_commands now w (c : Int) fw).calls = fw.calls
        ++ ((assembleLines acc [c]).1.filter (fun l => decide (l ≠ []))).map
            (fun l => (l, false)) ∧
      Accumulates (process_usb_commands now w (c : Int) fw).command_buffer
        (process_usb_commands now w (c : Int) fw).usb_cmd_pos (assembleLines acc [c]).2 := by
  unfold process_usb_commands
  simp only [assembleLines]
  have hto : ¬ ((c : Int) = PICO_ERROR_TIMEOUT) := by
    unfold PICO_ERROR_TIMEOUT; omega
  rw [if_neg hto]
  by_cases hterm : c = 10 ∨ c = 13
  · have hterm2 : (c : Int) = 10 ∨ (c : Int) = 13 := by omega
    rw [if_pos hterm, if_pos hterm2]
    by_cases hpos : fw.usb_cmd_pos > 0
    · rw [if_pos hpos]
      obtain ⟨hstr, hacc⟩ := accumulates_dispatch h
      have hne : acc ≠ [] := by
        intro he
        have := h.2.2.1
        rw [he] at this
        simp at this
        omega
      dsimp only
      rw [hstr]
      exact ⟨by simp [hne], hacc⟩
    · rw [if_neg hpos]
      have hz : fw.usb_cmd_pos = 0 := by omega
      rw [hz] at h ⊢
      have he := accumulates_zero h
      subst he
      exact ⟨by simp, h⟩
  · have hterm2 : ¬ ((c : Int) = 10 ∨ (c : Int) = 13) := by omega
    rw [if_neg hterm, if_neg hterm2]
    by_cases hpr : 32 ≤ c ∧ c ≤ 126
    · rw [if_pos hpr]
      by_cases hp : fw.usb_cmd_pos < 255
      · rw [if_pos (by omega : (c : Int) ≥ 32 ∧ (c : Int) ≤ 126 ∧ fw.usb_cmd_pos < 255),
          if_pos (by rw [h.2.2.1]; exact hp)]
        dsimp only
        rw [Int.toNat_natCast]
        exact ⟨by simp [assembleLines], accumulates_extend c h hpr.1 hp⟩
      · rw [if_neg (fun hh => hp hh.2.2), if_neg (by rw [h.2.2.1]; exact hp)]
        exact ⟨by simp [assembleLines], h⟩
    · rw [if_neg hpr, if_neg (fun hh => hpr (by omega))]
      exact ⟨by simp [assembleLines], h⟩

theorem run_usb_eq_foldl (rx : List Rx) (fw : Firmware) :
    run_transports fw (rx.map (fun r => Arrival.usb r.now r.uart_writable (r.c : Int)))
      = rx.foldl (fun st r => process_usb_commands r.now r.uart_writable (r.c : Int) st) fw := by
  unfold run_transports
  rw [List.foldl_map]

theorem assembleLines_length : ∀ (bytes acc : List Nat), acc.length ≤ 255 →
    (∀ l ∈ (assembleLines acc bytes).1, l.length ≤ 255) ∧
      (assembleLines acc bytes).2.length ≤ 255 := by
  intro bytes
  induction bytes with
  | nil => intro acc h; exact ⟨by simp [assembleLines], h⟩
  | cons b rest ih =>
    intro acc h
    simp only [assembleLines]
    split
    · refine ⟨?_, (ih [] (by simp)).2⟩
      intro l hl
      rcases List.mem_cons.mp hl with rfl | hl
      · exact h
      · exact (ih [] (by simp)).1 l hl
    · split
      · refine ih _ ?_
        split
        · simp; omega
        · exact h
      · exact ih acc h

theorem process_command_trace (now : Nat) (w f : Bool) (cmd : List Nat) (s : State) :
    (process_command now w cmd f s).trace
      = s.trace ++ emitted s (process_command now w cmd f s) := by
  rw [emitted_process_command, process_command_eq]
  have h := dispatch_trace now cmd s
  generalize responseEvents (process_command_dispatch now cmd s).1 (f && w) = evs
  generalize process_command_dispatch now cmd s = r at h
  simp only [State.adv]
  rw [h]
  simp [emitted]

theorem emitted_self (s : State) : emitted s s = [] := by
  simp [emitted]

theorem emitted_around (a : Ev) (tail : List Ev) (s t : State)
    (h : t.trace = (s.emit a).trace ++ emitted (s.emit a) t) :
    emitted s (t.adv 0 tail) = [a] ++ emitted (s.emit a) t ++ tail := by
  generalize emitted (s.emit a) t = evs at h
  simp [emitted, State.adv, h, State.emit]

theorem uart_emitted_process_command (now : Nat) (w f : Bool) (cmd : List Nat) (s : State) :
    uartOut (emitted s (process_command now w cmd f s))
      = if f && w then [responseOf now cmd s, "\n"] else [] := by
  rw [emitted_process_command, uartOut_append, uart_emitted_dispatch, uartOut_responseEvents]
  rfl

theorem emitted_flipper_dispatch (now : Nat) (w : Bool) (cmd : List Nat) (text : String)
    (s : State) :
    emitted s (process_command now w cmd true (printf text s))
      = [.printf text] ++ emitted (printf text s) (process_command now w cmd true (printf text s)) := by
  have h := emitted_around (.printf text) [] s (process_command now w cmd true (printf text s))
    (process_command_trace now w true cmd (printf text s))
  simpa using h

theorem emitted_usb_dispatch (now : Nat) (w : Bool) (cmd : List Nat) (text ready : String)
    (s : State) :
    emitted s (printf ready (process_command now w cmd false (printf text s)))
      = [.printf text] ++ emitted (printf text s) (process_command now w cmd false (printf text s))
          ++ [.printf ready] :=
  emitted_around (.printf text) [.printf ready] s
    (process_command now w cmd false (printf text s))
    (process_command_trace now w false cmd (printf text s))

/-- C1: a frame of 1 to 16 bytes sent on a free bus with every block
acknowledged succeeds, and the pulses on the line are exactly the start bit
followed, for each byte in order, by its eight bits most significant first
(they denote the byte) and one EOM bit; the EOM bits are `n - 1` zeros
followed by a single one. -/
theorem cec_send_frame_all_acked (data ks : List Nat) (s : State)
    (hlen : 1 ≤ data.length ∧ data.length ≤ 16)
    (hbytes : ∀ b ∈ data, b < 256)
    (hfree : s.pin s.reads = true)
    (hks : ks.length = data.length)
    (hack : AckedAll s.pin (s.reads + 1) ks) :
    (cec_send_frame data s).1 = true ∧
    pulses (emitted s (cec_send_frame data s).2) = startPulse :: blockPulses data ∧
    data.map (fun b => bitsValue (msbBits b)) = data ∧
    eomPulses (pulses (emitted s (cec_send_frame data s).2)).tail
      = List.replicate (data.length - 1) (bitPulse false) ++ [bitPulse true] := by
  have hp : pulses (emitted s (cec_send_frame data s).2) = startPulse :: blockPulses data := by
    rw [cec_send_frame_acked data ks s hlen hfree hks hack, emitted_adv, List.append_assoc,
      pulses_preamble, pulses_frameEvents data ks _ hks]
    simp [pulses]
  refine ⟨?_, hp, ?_, ?_⟩
  · rw [cec_send_frame_acked data ks s hlen hfree hks hack]
  · conv_rhs => rw [← List.map_id data]
    exact List.map_congr_left (fun b hb => bitsValue_msbBits b (hbytes b hb))
  · rw [hp, List.tail_cons]
    exact eomPulses_blockPulses data (by intro h; simp [h] at hlen)

/-- Witness for C1: the frame `40 36`, the first block acknowledged at once,
the second after two polls. -/
theorem cec_send_frame_all_acked_witness :
    (cec_send_frame [0x40, 0x36] (bootState fun k => k == 0 || k == 2 || k == 3)).1 = true ∧
    pulses (emitted (bootState fun k => k == 0 || k == 2 || k == 3)
      (cec_send_frame [0x40, 0x36] (bootState fun k => k == 0 || k == 2 || k == 3)).2)
      = startPulse :: blockPulses [0x40, 0x36] ∧
    [0x40, 0x36].map (fun b => bitsValue (msbBits b)) = [0x40, 0x36] ∧
    eomPulses (pulses (emitted (bootState fun k => k == 0 || k == 2 || k == 3)
      (cec_send_frame [0x40, 0x36] (bootState fun k => k == 0 || k == 2 || k == 3)).2)).tail
      = List.replicate ([0x40, 0x36].length - 1) (bitPulse false) ++ [bitPulse true] :=
  cec_send_frame_all_acked [0x40, 0x36] [0, 2] (bootState fun k => k == 0 || k == 2 || k == 3)
    (by decide) (by decide) (by decide) (by decide)
    (by simp [AckedAll, bootState]; decide)

/-- C2: when blocks `0 .. i-1` of a frame of 1 to 16 bytes sent on a free bus
are acknowledged and block `i` is not, `cec_send_frame` fails, the pulses on
the line are exactly the start bit and the 9 pulses of each of the blocks
`0 .. i` (nothing of a later block is sent), and the last thing logged is the
report that byte `i` got no ACK. -/
theorem cec_send_frame_first_nack (data ks : List Nat) (i : Nat) (s : State)
    (hlen : 1 ≤ data.length ∧ data.length ≤ 16)
    (hfree : s.pin s.reads = true)
    (hi : i < data.length)
    (hks : ks.length = i)
    (hack : AckedAll s.pin (s.reads + 1) ks)
    (hnack : NotAcked s.pin (s.reads + 1 + samplesUsed ks)) :
    (cec_send_frame data s).1 = false ∧
    pulses (emitted s (cec_send_frame data s).2)
      = startPulse :: (blockPulses data).take (9 * (i + 1)) ∧
    (emitted s (cec_send_frame data s).2).getLast?
      = some (.printf ("[CEC] No ACK received for byte " ++ toString i ++ "\n")) := by
  subst hks
  have hlast := nackFrameEvents_getLast data ks 0 hi
  have hne : nackFrameEvents 0 data ks ≠ [] := by
    intro he; rw [he] at hlast; simp at hlast
  rw [cec_send_frame_not_acked data ks s hlen hfree hi hack hnack, emitted_adv]
  refine ⟨rfl, ?_, ?_⟩
  · rw [← List.append_nil (nackFrameEvents 0 data ks), pulses_preamble,
      pulses_nackFrameEvents data ks 0 [] hi]
    simp [pulses]
  · rw [List.getLast?_append_of_ne_nil _ hne, hlast, Nat.zero_add]

/-- Witness for C2: the frame `40 82 10 00`, block 0 acknowledged at once,
block 1 never. -/
theorem cec_send_frame_first_nack_witness :
    (cec_send_frame [0x40, 0x82, 0x10, 0x00] (bootState fun k => k != 1)).1 = false ∧
    pulses (emitted (bootState fun k => k != 1)
      (cec_send_frame [0x40, 0x82, 0x10, 0x00] (bootState fun k => k != 1)).2)
      = startPulse :: (blockPulses [0x40, 0x82, 0x10, 0x00]).take (9 * (1 + 1)) ∧
    (emitted (bootState fun k => k != 1)
      (cec_send_frame [0x40, 0x82, 0x10, 0x00] (bootState fun k => k != 1)).2).getLast?
      = some (.printf ("[CEC] No ACK received for byte " ++ toString 1 ++ "\n")) :=
  cec_send_frame_first_nack [0x40, 0x82, 0x10, 0x00] [0] 1 (bootState fun k => k != 1)
    (by decide) (by decide) (by decide) (by decide)
    (by simp [AckedAll, bootState])
    (by intro j hj; simp [bootState, samplesUsed]; omega)

/-- C3: for an input of length 0 or of more than 16 bytes `cec_send_frame`
returns failure at once: the line is not sampled, nothing is logged except
the entry marker, so the line is not driven and no pulse is sent. -/
theorem cec_send_frame_invalid_length (data : List Nat) (s : State)
    (hlen : data.length = 0 ∨ 16 < data.length) :
    (cec_send_frame data s).1 = false ∧
    (cec_send_frame data s).2 = s.emit (.send_frame data) ∧
    (cec_send_frame data s).2.reads = s.reads ∧
    (emitted s (cec_send_frame data s).2).filter Ev.isBus = [] ∧
    pulses (emitted s (cec_send_frame data s).2) = [] := by
  have h0 : data.length = 0 ∨ data.length > 16 := hlen
  have h : cec_send_frame data s = (false, s.emit (.send_frame data)) := by
    simp only [cec_send_frame, h0, if_true]
  rw [h, emit_eq_adv, emitted_adv]
  simp [Ev.isBus, pulses]

/-- Witness for C3: the empty input. -/
theorem cec_send_frame_invalid_length_witness :
    (cec_send_frame [] (bootState fun _ => true)).1 = false ∧
    (cec_send_frame [] (bootState fun _ => true)).2
      = (bootState fun _ => true).emit (.send_frame []) ∧
    (cec_send_frame [] (bootState fun _ => true)).2.reads = (bootState fun _ => true).reads ∧
    (emitted (bootState fun _ => true)
      (cec_send_frame [] (bootState fun _ => true)).2).filter Ev.isBus = [] ∧
    pulses (emitted (bootState fun _ => true)
      (cec_send_frame [] (bootState fun _ => true)).2) = [] :=
  cec_send_frame_invalid_length [] (bootState fun _ => true) (by decide)

/-- C4: for a frame of 1 to 16 bytes, when the bus-free check samples the line
low, `cec_send_frame` returns failure after that single sample: the line is
never asserted or released and no pulse (start bit or data bit) is sent. -/
theorem cec_send_frame_bus_busy (data : List Nat) (s : State)
    (hlen : 1 ≤ data.length ∧ data.length ≤ 16)
    (hbusy : s.pin s.reads = false) :
    (cec_send_frame data s).1 = false ∧
    emitted s (cec_send_frame data s).2
      = [.send_frame data, .read_pin false, .printf "[CEC] Bus busy, cannot send\n"] ∧
    (cec_send_frame data s).2.reads = s.reads + 1 ∧
    pulses (emitted s (cec_send_frame data s).2) = [] := by
  have h1 : ¬ (data.length = 0 ∨ data.length > 16) := by omega
  have h : cec_send_frame data s = (false, s.adv 1
      [.send_frame data, .read_pin false, .printf "[CEC] Bus busy, cannot send\n"]) := by
    simp only [cec_send_frame, h1, if_false, emit_eq_adv, cec_read_pin_eq, adv_pin, adv_reads,
      Nat.add_zero, hbusy, Bool.not_false, if_true, printf_eq, adv_adv]
    rfl
  rw [h, emitted_adv]
  simp [pulses]

/-- Witness for C4: the frame `40 36` on a line that reads low. -/
theorem cec_send_frame_bus_busy_witness :
    (cec_send_frame [0x40, 0x36] (bootState fun _ => false)).1 = false ∧
    emitted (bootState fun _ => false) (cec_send_frame [0x40, 0x36] (bootState fun _ => false)).2
      = [.send_frame [0x40, 0x36], .read_pin false,
          .printf "[CEC] Bus busy, cannot send\n"] ∧
    (cec_send_frame [0x40, 0x36] (bootState fun _ => false)).2.reads
      = (bootState fun _ => false).reads + 1 ∧
    pulses (emitted (bootState fun _ => false)
      (cec_send_frame [0x40, 0x36] (bootState fun _ => false)).2) = [] :=
  cec_send_frame_bus_busy [0x40, 0x36] (bootState fun _ => false) (by decide) (by decide)

/-- C5: in every sequence of commands started at non-decreasing times, any two
mutating verbs that both report SUCCESS (the later one need not be the next
one) started at least the cooldown of 2000 ms apart, whatever was executed
in between and whatever the line did. -/
theorem cooldown_between_successes (s : State) (reqs : List Request)
    (hclock : reqs.Pairwise (fun a b => a.now ≤ b.now)) :
    (run_commands s reqs).Pairwise (fun a b =>
      isMutatingSuccess a.2 = true → isMutatingSuccess b.2 = true →
        a.1 + COMMAND_COOLDOWN_MS ≤ b.1) := by
  induction reqs generalizing s with
  | nil => simp [run_commands]
  | cons r rs ih =>
    obtain ⟨hhead, htail⟩ := List.pairwise_cons.mp hclock
    simp only [run_commands]
    refine List.pairwise_cons.mpr ⟨?_, ih _ htail⟩
    intro b hb hsa hsb
    rcases dispatch_last r.now r.cmd s with ⟨_, hns⟩ | ⟨_, hl⟩
    · simp only [responseOf] at hsa
      rw [hns] at hsa
      exact absurd hsa (by decide)
    · exact success_after_cooldown rs _ r.now (by rw [process_command_last, hl])
        (fun r' hr' => hhead r' hr') htail b hb hsb

/-- Witness for C5: POWER_ON at 5000 ms succeeds, POWER_ON at 5500 ms is
blocked, POWER_OFF at 7000 ms succeeds; every block is acknowledged. -/
theorem cooldown_between_successes_witness :
    run_commands (bootState fun k => k == 0 || k == 5)
        [⟨5000, true, cstr "POWER_ON", false⟩, ⟨5500, true, cstr "POWER_ON", false⟩,
          ⟨7000, true, cstr "power_off", true⟩]
      = [(5000, "POWER_ON:SUCCESS"), (5500, "POWER_ON:FAILED"), (7000, "POWER_OFF:SUCCESS")] ∧
    (run_commands (bootState fun k => k == 0 || k == 5)
        [⟨5000, true, cstr "POWER_ON", false⟩, ⟨5500, true, cstr "POWER_ON", false⟩,
          ⟨7000, true, cstr "power_off", true⟩]).Pairwise (fun a b =>
      isMutatingSuccess a.2 = true → isMutatingSuccess b.2 = true →
        a.1 + COMMAND_COOLDOWN_MS ≤ b.1) :=
  ⟨by decide, cooldown_between_successes _ _ (by decide)⟩

/-- C6: a mutating verb (POWER_ON or ON, POWER_OFF or OFF, CUSTOM:...) that
starts less than 2000 ms after the time recorded in `last_command_time`
answers with its canonical tag and `FAILED`, and the line is not sampled,
asserted or released, nor is `cec_send_frame` called. In particular a
POWER_ON started 500 ms after a POWER_ON that reported SUCCESS answers
`POWER_ON:FAILED` without any activity on the line. -/
theorem mutating_verb_rate_limited (now last_real : Nat) (w f : Bool) (cmd : List Nat)
    (tag : String) (s : State)
    (hverb : mutatingTag cmd = some tag)
    (hlast : s.last_command_time = to_ms_since_boot last_real)
    (hmono : last_real ≤ now) (hsoon : now < last_real + COMMAND_COOLDOWN_MS) :
    (responseOf now cmd s = tag ++ ":FAILED" ∧
      (emitted s (process_command now w cmd f s)).filter Ev.isBus = [] ∧
      framesOf (emitted s (process_command now w cmd f s)) = [] ∧
      (process_command now w cmd f s).reads = s.reads) ∧
    (∀ (t : Nat) (w1 f1 w2 f2 : Bool) (s0 : State),
      responseOf t (cstr "POWER_ON") s0 = "POWER_ON:SUCCESS" →
      responseOf (t + 500) (cstr "POWER_ON") (process_command t w1 (cstr "POWER_ON") f1 s0)
        = "POWER_ON:FAILED" ∧
      (emitted (process_command t w1 (cstr "POWER_ON") f1 s0)
        (process_command (t + 500) w2 (cstr "POWER_ON") f2
          (process_command t w1 (cstr "POWER_ON") f1 s0))).filter Ev.isBus = []) := by
  refine ⟨limited_quiet now w f cmd tag s hverb
    (limited_of_recent now last_real s hlast hmono hsoon), ?_⟩
  intro t w1 f1 w2 f2 s0 hs
  have hl : Limited (t + 500) (process_command t w1 (cstr "POWER_ON") f1 s0) :=
    limited_of_recent (t + 500) t _ (power_on_success_sets_time t w1 f1 s0 hs)
      (by omega) (by unfold COMMAND_COOLDOWN_MS; omega)
  have h := limited_quiet (t + 500) w2 f2 (cstr "POWER_ON") "POWER_ON" _ (by decide) hl
  exact ⟨h.1, h.2.1⟩

/-- Witness for C6: `on` at 5500 ms when the last mutating verb started at
5000 ms. -/
theorem mutating_verb_rate_limited_witness :
    responseOf 5500 (cstr "on")
      { bootState (fun _ => true) with last_command_time := 5000 } = "POWER_ON:FAILED" ∧
    (emitted { bootState (fun _ => true) with last_command_time := 5000 }
      (process_command 5500 true (cstr "on") true
        { bootState (fun _ => true) with last_command_time := 5000 })).filter Ev.isBus = [] :=
  ⟨(mutating_verb_rate_limited 5500 5000 true true (cstr "on") "POWER_ON"
      { bootState (fun _ => true) with last_command_time := 5000 }
      (by decide) (by decide) (by decide) (by decide)).1.1,
   (mutating_verb_rate_limited 5500 5000 true true (cstr "on") "POWER_ON"
      { bootState (fun _ => true) with last_command_time := 5000 }
      (by decide) (by decide) (by decide) (by decide)).1.2.1⟩

/-- C7: a CUSTOM argument of odd length or of more than 32 characters, in any
state of the rate limiter: `cec_send_custom_command` fails, `cec_send_frame` is
not called and the line is not touched; the response is `CUSTOM:FAILED`.
This is so for `CUSTOM:40361` at any time and in any state. -/
theorem custom_bad_length (now : Nat) (w f : Bool) (cmd : List Nat) (s : State)
    (hverb : (cmd_upper cmd).take 7 = cstr "CUSTOM:")
    (hbad : (cmd.drop 7).length % 2 = 1 ∨ 32 < (cmd.drop 7).length) :
    ((cec_send_custom_command now (cmd.drop 7) s).1 = false ∧
      framesOf (emitted s (cec_send_custom_command now (cmd.drop 7) s).2) = [] ∧
      (emitted s (cec_send_custom_command now (cmd.drop 7) s).2).filter Ev.isBus = [] ∧
      responseOf now cmd s = "CUSTOM:FAILED" ∧
      framesOf (emitted s (process_command now w cmd f s)) = [] ∧
      (emitted s (process_command now w cmd f s)).filter Ev.isBus = []) ∧
    (responseOf now (cstr "CUSTOM:40361") s = "CUSTOM:FAILED" ∧
      framesOf (emitted s (process_command now w (cstr "CUSTOM:40361") f s)) = [] ∧
      (emitted s (process_command now w (cstr "CUSTOM:40361") f s)).filter Ev.isBus = []) := by
  refine ⟨bad_length_quiet now w f cmd s hverb hbad, ?_⟩
  have h := bad_length_quiet now w f (cstr "CUSTOM:40361") s (by decide) (by decide)
  exact ⟨h.2.2.2.1, h.2.2.2.2⟩

/-- Witness for C7: the line `custom:` followed by 34 characters, on a state
in which the rate limiter lets the command pass. -/
theorem custom_bad_length_witness :
    responseOf 9000 (cstr "custom:4036403640364036403640364036403640")
      (bootState fun _ => true) = "CUSTOM:FAILED" ∧
    framesOf (emitted (bootState fun _ => true)
      (process_command 9000 true (cstr "custom:4036403640364036403640364036403640") true
        (bootState fun _ => true))) = [] :=
  ⟨(custom_bad_length 9000 true true (cstr "custom:4036403640364036403640364036403640")
      (bootState fun _ => true) (by decide) (by decide)).1.2.2.2.1,
   (custom_bad_length 9000 true true (cstr "custom:4036403640364036403640364036403640")
      (bootState fun _ => true) (by decide) (by decide)).1.2.2.2.2.1⟩

/-- C8, as stated, fails: `CUSTOM:ZZ` and `CUSTOM:4G`, not rate-limited, on a
free bus with an acknowledging receiver, report `CUSTOM:SUCCESS` after sending
the frames `00` and `04` on the line. -/
theorem custom_non_hex_counterexample :
    (responseOf 9000 (cstr "CUSTOM:ZZ") (bootState fun k => k == 0) = "CUSTOM:SUCCESS" ∧
      responseOf 9000 (cstr "CUSTOM:ZZ") (bootState fun k => k == 0) ≠ "CUSTOM:FAILED" ∧
      pulses (emitted (bootState fun k => k == 0)
        (process_command 9000 true (cstr "CUSTOM:ZZ") true (bootState fun k => k == 0)))
        = startPulse :: blockPulses [0x00] ∧
      (emitted (bootState fun k => k == 0)
        (process_command 9000 true (cstr "CUSTOM:ZZ") true
          (bootState fun k => k == 0))).filter Ev.isBus ≠ []) ∧
    (responseOf 9000 (cstr "CUSTOM:4G") (bootState fun k => k == 0) = "CUSTOM:SUCCESS" ∧
      pulses (emitted (bootState fun k => k == 0)
        (process_command 9000 true (cstr "CUSTOM:4G") true (bootState fun k => k == 0)))
        = startPulse :: blockPulses [0x04]) := by
  decide

/-- C8, amended: a CUSTOM argument of odd length or of more than 32 characters
is answered `CUSTOM:FAILED` without any activity on the line; the characters
of an argument of even length of at most 32 characters are not validated:
when the rate limiter lets the verb pass, the bytes that `strtol` gives for
each pair of characters are handed to `cec_send_frame` as one frame (`ZZ`
gives `00`, `4G` gives `04`). -/
theorem custom_malformed (now : Nat) (w f : Bool) (cmd : List Nat) (s : State)
    (hverb : (cmd_upper cmd).take 7 = cstr "CUSTOM:") :
    ((cmd.drop 7).length % 2 = 1 ∨ 32 < (cmd.drop 7).length →
      responseOf now cmd s = "CUSTOM:FAILED" ∧
      framesOf (emitted s (process_command now w cmd f s)) = [] ∧
      (emitted s (process_command now w cmd f s)).filter Ev.isBus = []) ∧
    ((cmd.drop 7).length % 2 = 0 → (cmd.drop 7).length ≤ 32 → ¬ Limited now s →
      framesOf (emitted s (process_command now w cmd f s)) = [parse_hex_frame (cmd.drop 7)]) ∧
    parse_hex_frame (cstr "ZZ") = [0x00] ∧ parse_hex_frame (cstr "4G") = [0x04] := by
  refine ⟨fun hbad => ?_, fun h1 h2 hpass => ?_, by decide, by decide⟩
  · have h := bad_length_quiet now w f cmd s hverb hbad
    exact ⟨h.2.2.2.1, h.2.2.2.2⟩
  · exact custom_valid_frames now w f cmd s hverb hpass (by omega)

/-- Witness for the amended C8: `CUSTOM:4G` hands the frame `04` to
`cec_send_frame`; `CUSTOM:4` is refused. -/
theorem custom_malformed_witness :
    framesOf (emitted (bootState fun k => k == 0)
      (process_command 9000 true (cstr "CUSTOM:4G") true (bootState fun k => k == 0)))
      = [[0x04]] ∧
    responseOf 9000 (cstr "CUSTOM:4") (bootState fun k => k == 0) = "CUSTOM:FAILED" :=
  ⟨(custom_malformed 9000 true true (cstr "CUSTOM:4G") (bootState fun k => k == 0)
      (by decide)).2.1 (by decide) (by decide) (by decide),
   ((custom_malformed 9000 true true (cstr "CUSTOM:4") (bootState fun k => k == 0)
      (by decide)).1 (by decide)).1⟩

/-- C9: a CUSTOM line whose argument is `2k` hexadecimal digits (`1 ≤ k ≤ 16`,
any letter case), when the rate limiter lets it pass, makes exactly one call
of `cec_send_frame`, with `k` bytes (at most 16), byte `i` being
`16 * hexval(s[2i]) + hexval(s[2i+1])`; an argument that differs from it only
in letter case is decoded to the same bytes. -/
theorem custom_hex_frame (now : Nat) (w f : Bool) (cmd : List Nat) (k : Nat) (s : State)
    (hverb : (cmd_upper cmd).take 7 = cstr "CUSTOM:")
    (hk : 1 ≤ k ∧ k ≤ 16) (hlen : (cmd.drop 7).length = 2 * k)
    (hhex : ∀ c ∈ cmd.drop 7, (hexval c).isSome)
    (hpass : ¬ Limited now s) :
    framesOf (emitted s (process_command now w cmd f s)) = [parse_hex_frame (cmd.drop 7)] ∧
    (parse_hex_frame (cmd.drop 7)).length = k ∧
    (parse_hex_frame (cmd.drop 7)).length ≤ 16 ∧
    (∀ i, i < k → (parse_hex_frame (cmd.drop 7))[i]?
      = some (16 * hexDigit ((cmd.drop 7).getD (2 * i) 0)
          + hexDigit ((cmd.drop 7).getD (2 * i + 1) 0))) ∧
    (∀ arg', arg'.map toupper = (cmd.drop 7).map toupper →
      parse_hex_frame arg' = parse_hex_frame (cmd.drop 7)) := by
  obtain ⟨hl, hi⟩ := parse_hex_frame_spec k (cmd.drop 7) hlen hhex
  exact ⟨custom_valid_frames now w f cmd s hverb hpass (by omega), hl, by omega, hi,
    fun arg' h => parse_hex_frame_case k _ arg' hlen hhex h⟩

/-- Witness for C9: `custom:4f8A` decodes to the bytes `4F 8A`. -/
theorem custom_hex_frame_witness :
    framesOf (emitted (bootState fun _ => true)
      (process_command 9000 true (cstr "custom:4f8A") false (bootState fun _ => true)))
      = [[0x4F, 0x8A]] :=
  (custom_hex_frame 9000 true false (cstr "custom:4f8A") 2 (bootState fun _ => true)
    (by decide) (by decide) (by decide) (by decide) (by decide)).1

/-- C10: whatever the polls return, `cec_scan_devices` calls `cec_send_frame`
exactly once for each destination 0..14 other than the local logical address,
in ascending order, each time with the single byte `(local << 4) | d`; the
initiator nibble of every such byte is the local address, its destination
nibble is neither the local address nor 15; with local address 4 the frames
are `40 41 42 43 45 .. 4E`. -/
theorem cec_scan_devices_polls (s : State) (hlocal : s.our_logical_address < 16) :
    framesOf (emitted s (cec_scan_devices s).2)
      = ((List.range 15).filter (fun d => decide (d ≠ s.our_logical_address))).map
          (fun d => [(s.our_logical_address <<< 4) ||| d]) ∧
    (∀ f ∈ framesOf (emitted s (cec_scan_devices s).2), ∃ b, f = [b] ∧
      b >>> 4 = s.our_logical_address ∧ b &&& 0xF ≠ s.our_logical_address ∧ b &&& 0xF ≠ 15) ∧
    (s.our_logical_address = 4 →
      framesOf (emitted s (cec_scan_devices s).2)
        = [[0x40], [0x41], [0x42], [0x43], [0x45], [0x46], [0x47], [0x48], [0x49], [0x4A],
           [0x4B], [0x4C], [0x4D], [0x4E]]) := by
  have hf : framesOf (emitted s (cec_scan_devices s).2)
      = ((List.range 15).filter (fun d => decide (d ≠ s.our_logical_address))).map
          (fun d => [(s.our_logical_address <<< 4) ||| d]) := by
    rw [(reach_scan_devices s).frames, pollFrames_of_lt _ hlocal]
  refine ⟨hf, ?_, ?_⟩
  · intro f hfm
    rw [hf] at hfm
    obtain ⟨d, hd, rfl⟩ := List.mem_map.mp hfm
    obtain ⟨hr, hne⟩ := List.mem_filter.mp hd
    have hd15 : d < 15 := by simpa using hr
    have hne2 : d ≠ s.our_logical_address := by simpa using hne
    obtain ⟨_, h2, h3⟩ := header_nibbles _ hlocal d hd15
    exact ⟨_, rfl, h2, by rw [h3]; exact hne2, by rw [h3]; omega⟩
  · intro h4
    rw [hf, h4]
    decide

/-- Witness for C10: the scan after start-up (local address 4) on a line on
which only the first polled destination answers. -/
theorem cec_scan_devices_polls_witness :
    framesOf (emitted (bootState fun k => k != 1)
        (cec_scan_devices (bootState fun k => k != 1)).2)
      = [[0x40], [0x41], [0x42], [0x43], [0x45], [0x46], [0x47], [0x48], [0x49], [0x4A],
         [0x4B], [0x4C], [0x4D], [0x4E]] :=
  (cec_scan_devices_polls (bootState fun k => k != 1) (by decide)).2.2 (by decide)

/-- C11: SCAN (in any letter case) answers `SCAN_RESULT:DEVICES_FOUND` exactly
when at least one of the polled destinations acknowledges its header block,
and `SCAN_RESULT:NO_DEVICES` otherwise; whatever the polls return, every
destination 0..14 other than the local address is polled: a poll that fails on
a busy bus or for lack of ACK does not end the scan. -/
theorem scan_result (now : Nat) (w f : Bool) (cmd : List Nat) (s : State)
    (hverb : cmd_upper cmd = cstr "SCAN") :
    (responseOf now cmd s = "SCAN_RESULT:DEVICES_FOUND" ↔
      ∃ p ∈ scanAcks s.pin s.our_logical_address (List.range 15) s.reads, p.2 = true) ∧
    (responseOf now cmd s ≠ "SCAN_RESULT:DEVICES_FOUND" →
      responseOf now cmd s = "SCAN_RESULT:NO_DEVICES") ∧
    (scanAcks s.pin s.our_logical_address (List.range 15) s.reads).map Prod.fst
      = (List.range 15).filter (fun d => decide (d ≠ s.our_logical_address)) ∧
    framesOf (emitted s (process_command now w cmd f s))
      = pollFrames s.our_logical_address (List.range 15) := by
  have hd := dispatch_scan now cmd s hverb
  refine ⟨?_, ?_, scanAcks_dests _ _ _ _, ?_⟩
  · rw [responseOf, hd]
    refine (scan_text _).1.trans ?_
    rw [cec_scan_devices_found, List.any_eq_true]
  · rw [responseOf, hd]
    exact (scan_text _).2
  · have hr : Reach s (process_command_dispatch now cmd s).2
        (pollFrames s.our_logical_address (List.range 15)) := by
      simp only [hd]
      exact reach_scan_devices s
    exact frames_of_process_command now w f cmd s s _ rfl hr

set_option maxRecDepth 100000 in
/-- Witness for C11: `SCAN` after start-up on a line on which only
destination 0 acknowledges. -/
theorem scan_result_witness :
    responseOf 0 (cstr "SCAN") (bootState fun k => k != 1) = "SCAN_RESULT:DEVICES_FOUND" ∧
    scanAcks (fun k => k != 1) 4 (List.range 15) 0
      = [(0, true), (1, false), (2, false), (3, false), (5, false), (6, false), (7, false),
         (8, false), (9, false), (10, false), (11, false), (12, false), (13, false),
         (14, false)] :=
  ⟨(scan_result 0 true true (cstr "SCAN") (bootState fun k => k != 1) (by decide)).1.mpr
      ⟨(0, true), by decide, rfl⟩,
   by decide⟩

set_option maxRecDepth 100000 in
/-- C12, as stated, fails: POWER_ON after start-up (local address 4) with the
cooldown elapsed, the bus idle and every block acknowledged answers
`POWER_ON:SUCCESS`, but the frame it transmits is `4F 82 10 00`, not
`40 82 10 00`: the header is addressed to the broadcast address. -/
theorem power_on_bytes_counterexample :
    responseOf 9000 (cstr "POWER_ON") (bootState fun k => k == 0) = "POWER_ON:SUCCESS" ∧
    framesOf (emitted (bootState fun k => k == 0)
      (process_command 9000 true (cstr "POWER_ON") true (bootState fun k => k == 0)))
      = [[0x4F, 0x82, 0x10, 0x00]] ∧
    framesOf (emitted (bootState fun k => k == 0)
      (process_command 9000 true (cstr "POWER_ON") true (bootState fun k => k == 0)))
      ≠ [[0x40, 0x82, 0x10, 0x00]] ∧
    pulses (emitted (bootState fun k => k == 0)
      (process_command 9000 true (cstr "POWER_ON") true (bootState fun k => k == 0)))
      = startPulse :: blockPulses [0x4F, 0x82, 0x10, 0x00] := by
  decide

/-- C12, amended: POWER_ON with the cooldown elapsed, the bus idle and the
receiver acknowledging all four blocks answers `POWER_ON:SUCCESS`, and with
local logical address 4 the transmitted bytes are `4F 82 10 00`: that frame is
the only one handed to `cec_send_frame` and its pulses are the pulses on the
line. -/
theorem power_on_success (now : Nat) (w f : Bool) (cmd ks : List Nat) (s : State)
    (hverb : cmd_upper cmd = cstr "POWER_ON")
    (hpass : ¬ Limited now s) (haddr : s.our_logical_address = 4)
    (hfree : s.pin s.reads = true) (hks : ks.length = 4)
    (hack : AckedAll s.pin (s.reads + 1) ks) :
    responseOf now cmd s = "POWER_ON:SUCCESS" ∧
    framesOf (emitted s (process_command now w cmd f s)) = [[0x4F, 0x82, 0x10, 0x00]] ∧
    pulses (emitted s (process_command now w cmd f s))
      = startPulse :: blockPulses [0x4F, 0x82, 0x10, 0x00] := by
  have hd := dispatch_power_on now cmd s (Or.inl hverb)
  have hp := cec_power_on_acked now ks s hpass hfree hks hack
  have hframe : [((s.our_logical_address <<< 4) ||| CEC_LOGICAL_ADDRESS_BROADCAST) % 256,
      CEC_OPCODE_ACTIVE_SOURCE, 0x10, 0x00] = [0x4F, 0x82, 0x10, 0x00] := by
    rw [haddr]; decide
  rw [hframe] at hp
  have he : emitted s (process_command now w cmd f s)
      = powerOnEvents [0x4F, 0x82, 0x10, 0x00] ks
        ++ responseEvents "POWER_ON:SUCCESS" (f && w) := by
    rw [process_command_eq, hd, hp]
    simp [emitted]
  refine ⟨by rw [responseOf, hd, hp]; rfl, ?_, ?_⟩
  · have hr := reach_power_on now s hpass
    rw [hframe] at hr
    exact frames_of_process_command now w f cmd s
      { s with last_command_time := to_ms_since_boot now } _ rfl (by rw [hd]; exact hr)
  · rw [he, powerOnEvents, List.append_assoc, List.append_assoc]
    exact pulses_around_frame _ _ _ ks (by simpa using hks)
      (by
        intro e he
        rcases List.mem_cons.mp he with rfl | he
        · simp
        · exact blinkEvents_no_low 3 e he)
      (by
        intro e he
        simp only [List.cons_append, List.nil_append, List.mem_cons] at he
        rcases he with rfl | rfl | he
        · simp
        · simp
        · exact responseEvents_no_low _ _ e he)

/-- Witness for the amended C12: POWER_ON after start-up at 9000 ms, every
block acknowledged at the first poll. -/
theorem power_on_success_witness :
    responseOf 9000 (cstr "POWER_ON") (bootState fun k => k == 0) = "POWER_ON:SUCCESS" ∧
    framesOf (emitted (bootState fun k => k == 0)
      (process_command 9000 true (cstr "POWER_ON") false (bootState fun k => k == 0)))
      = [[0x4F, 0x82, 0x10, 0x00]] ∧
    pulses (emitted (bootState fun k => k == 0)
      (process_command 9000 true (cstr "POWER_ON") false (bootState fun k => k == 0)))
      = startPulse :: blockPulses [0x4F, 0x82, 0x10, 0x00] :=
  power_on_success 9000 true false (cstr "POWER_ON") [0, 0, 0, 0] (bootState fun k => k == 0)
    (by decide) (by decide) (by decide) (by decide) (by decide)
    (by simp [AckedAll, bootState])

/-- C13: STATUS in any letter case, whatever the state of the rate limiter and
the time: with local logical address 4 the only frame handed to
`cec_send_frame` is `40 8F`; the response is `STATUS:REQUEST_SENT` exactly when
the bus-free check reads high and both blocks are acknowledged, and
`STATUS:FAILED` otherwise; `last_command_time` is not changed. -/
theorem status_request (now : Nat) (w f : Bool) (cmd : List Nat) (s : State)
    (hverb : cmd_upper cmd = cstr "STATUS") (haddr : s.our_logical_address = 4) :
    framesOf (emitted s (process_command now w cmd f s)) = [[0x40, 0x8F]] ∧
    (responseOf now cmd s = "STATUS:REQUEST_SENT" ↔
      (s.pin s.reads = true ∧ ∃ ks, ks.length = 2 ∧ AckedAll s.pin (s.reads + 1) ks)) ∧
    (responseOf now cmd s ≠ "STATUS:REQUEST_SENT" → responseOf now cmd s = "STATUS:FAILED") ∧
    (process_command now w cmd f s).last_command_time = s.last_command_time := by
  have hd := dispatch_status now cmd s hverb
  have hframe : [((s.our_logical_address <<< 4) ||| CEC_LOGICAL_ADDRESS_TV) % 256,
      CEC_OPCODE_GIVE_DEVICE_POWER_STATUS] = [0x40, 0x8F] := by
    rw [haddr]; decide
  have hr := reach_status s
  rw [hframe] at hr
  have hres : (cec_get_power_status s).1 = true ↔
      (s.pin s.reads = true ∧ ∃ ks, ks.length = 2 ∧ AckedAll s.pin (s.reads + 1) ks) := by
    rw [cec_get_power_status_eq, hframe]
    simpa using cec_send_frame_true_iff [0x40, 0x8F]
      (s.adv 0 [.printf "[CEC] Checking power status\n"]) (by simp)
  refine ⟨frames_of_process_command now w f cmd s s _ rfl (by rw [hd]; exact hr), ?_, ?_, ?_⟩
  · rw [responseOf, hd]
    exact (status_text _).1.trans hres
  · rw [responseOf, hd]
    exact (status_text _).2
  · rw [process_command_last, hd]
    exact hr.last

/-- Witness for C13: lowercase `status` after start-up, both blocks
acknowledged. -/
theorem status_request_witness :
    framesOf (emitted (bootState fun k => k == 0)
      (process_command 100 true (cstr "status") true (bootState fun k => k == 0)))
      = [[0x40, 0x8F]] ∧
    responseOf 100 (cstr "status") (bootState fun k => k == 0) = "STATUS:REQUEST_SENT" :=
  ⟨(status_request 100 true true (cstr "status") (bootState fun k => k == 0)
      (by decide) (by decide)).1,
   (status_request 100 true true (cstr "status") (bootState fun k => k == 0)
      (by decide) (by decide)).2.1.mpr
        ⟨by decide, [0, 0], by decide, by simp [AckedAll, bootState]⟩⟩

/-- C14: in every state, at every time and whatever the line does,
`process_command` on a line that reads ON (in any letter case) ends in the
same state as on a line that reads POWER_ON, so the activity on the line, the
outputs and `last_command_time` are the same; the response is the same and is
`POWER_ON:SUCCESS` or `POWER_ON:FAILED`. The same holds for OFF and POWER_OFF
with `POWER_OFF:SUCCESS` or `POWER_OFF:FAILED`. -/
theorem verb_aliases (now : Nat) (w f : Bool) (c1 c2 c3 c4 : List Nat) (s : State)
    (h1 : cmd_upper c1 = cstr "ON") (h2 : cmd_upper c2 = cstr "POWER_ON")
    (h3 : cmd_upper c3 = cstr "OFF") (h4 : cmd_upper c4 = cstr "POWER_OFF") :
    (process_command now w c1 f s = process_command now w c2 f s ∧
      responseOf now c1 s = responseOf now c2 s ∧
      (responseOf now c1 s = "POWER_ON:SUCCESS" ∨ responseOf now c1 s = "POWER_ON:FAILED")) ∧
    (process_command now w c3 f s = process_command now w c4 f s ∧
      responseOf now c3 s = responseOf now c4 s ∧
      (responseOf now c3 s = "POWER_OFF:SUCCESS" ∨ responseOf now c3 s = "POWER_OFF:FAILED")) := by
  have d1 := dispatch_power_on now c1 s (Or.inr h1)
  have d2 := dispatch_power_on now c2 s (Or.inl h2)
  have d3 := dispatch_power_off now c3 s (Or.inr h3)
  have d4 := dispatch_power_off now c4 s (Or.inl h4)
  refine ⟨⟨?_, ?_, ?_⟩, ⟨?_, ?_, ?_⟩⟩
  · rw [process_command_eq, process_command_eq, d1, d2]
  · rw [responseOf, responseOf, d1, d2]
  · rw [responseOf, d1]
    exact power_text "POWER_ON:" _
  · rw [process_command_eq, process_command_eq, d3, d4]
  · rw [responseOf, responseOf, d3, d4]
  · rw [responseOf, d3]
    exact power_text "POWER_OFF:" _

/-- Witness for C14: `on` against `POWER_ON` and `Off` against `power_off`,
after start-up at 9000 ms on a line that acknowledges. -/
theorem verb_aliases_witness :
    process_command 9000 true (cstr "on") true (bootState fun k => k == 0)
      = process_command 9000 true (cstr "POWER_ON") true (bootState fun k => k == 0) ∧
    process_command 9000 true (cstr "Off") true (bootState fun k => k == 0)
      = process_command 9000 true (cstr "power_off") true (bootState fun k => k == 0) :=
  ⟨(verb_aliases 9000 true true (cstr "on") (cstr "POWER_ON") (cstr "Off") (cstr "power_off")
      (bootState fun k => k == 0) (by decide) (by decide) (by decide) (by decide)).1.1,
   (verb_aliases 9000 true true (cstr "on") (cstr "POWER_ON") (cstr "Off") (cstr "power_off")
      (bootState fun k => k == 0) (by decide) (by decide) (by decide) (by decide)).2.1⟩

/-- C15, as stated, fails: the line `VERSION` read from the
companion-device UART, with the UART writable, is answered on both outputs:
the response is printed on the USB console and written to the UART. -/
theorem companion_response_on_both_outputs :
    "RESPONSE: VERSION:CEC_MODULE_V1.0\n" ∈ consoleOut (emitted (bootFirmware fun _ => true).core
      (process_flipper_commands (uartBytes 0 true (cstr "VERSION\n"))
        (bootFirmware fun _ => true)).core) ∧
    uartOut (emitted (bootFirmware fun _ => true).core
      (process_flipper_commands (uartBytes 0 true (cstr "VERSION\n"))
        (bootFirmware fun _ => true)).core) = ["VERSION:CEC_MODULE_V1.0", "\n"] := by
  decide

/-- C15 (amended): every response is printed on the USB console, whichever
transport the request came from; it is written to the UART in addition exactly
when the request came from the companion device (`send_to_flipper`) and the
UART is writable. Hence a console request is answered on the console only
and never drives the UART, while a companion request is answered on the
console and, when the UART is writable, on both outputs. The transport
functions pass `send_to_flipper = false` (USB) and `true` (UART). -/
theorem response_outputs (now : Nat) (w f : Bool) (cmd : List Nat) (s : State)
    (c : Int) (b : Nat) (fw : Firmware) :
    Ev.printf ("RESPONSE: " ++ responseOf now cmd s ++ "\n")
      ∈ emitted s (process_command now w cmd f s) ∧
    uartOut (emitted s (process_command now w cmd f s))
      = (if f && w then [responseOf now cmd s, "\n"] else []) ∧
    (f = false → uartOut (emitted s (process_command now w cmd f s)) = []) ∧
    (f = true → w = true →
      uartOut (emitted s (process_command now w cmd f s)) = [responseOf now cmd s, "\n"]) ∧
    uartOut (emitted fw.core (process_usb_commands now w c fw).core) = [] ∧
    (∀ call ∈ (process_usb_commands now w c fw).calls, call ∉ fw.calls → call.2 = false) ∧
    (∀ call ∈ (process_flipper_byte now w b fw).calls, call ∉ fw.calls → call.2 = true) ∧
    ((b = 10 ∨ b = 13) → fw.flipper_cmd_pos > 0 →
      uartOut (emitted fw.core (process_flipper_byte now w b fw).core)
        = (if w then
            [responseOf now (c_string (fw.command_buffer.set fw.flipper_cmd_pos 0))
              (printf ("[FLIPPER] Received command: "
                ++ ofCStr (c_string (fw.command_buffer.set fw.flipper_cmd_pos 0)) ++ "\n")
                fw.core), "\n"]
          else [])) := by
  have hu := uart_emitted_process_command now w f cmd s
  refine ⟨?_, hu, ?_, ?_, ?_, ?_, ?_, ?_⟩
  · rw [emitted_process_command]
    exact List.mem_append_right _ (mem_responseEvents _ _)
  · intro hf
    rw [hu, hf]
    rfl
  · intro hf hw
    rw [hu, hf, hw]
    rfl
  · unfold process_usb_commands
    split
    · exact congrArg uartOut (emitted_self fw.core)
    · split
      · split
        · dsimp only
          rw [emitted_usb_dispatch, uartOut_append, uartOut_append,
            uart_emitted_process_command]
          rfl
        · exact congrArg uartOut (emitted_self fw.core)
      · split
        · dsimp only
          rw [printf_eq, emitted_adv]
          rfl
        · exact congrArg uartOut (emitted_self fw.core)
  · intro call hc hn
    unfold process_usb_commands at hc
    split at hc
    · exact absurd hc hn
    · split at hc
      · split at hc
        · rcases List.mem_append.mp hc with h | h
          · exact absurd h hn
          · rw [List.mem_singleton.mp h]
        · exact absurd hc hn
      · split at hc
        · exact absurd hc hn
        · exact absurd hc hn
  · intro call hc hn
    unfold process_flipper_byte at hc
    split at hc
    · split at hc
      · rcases List.mem_append.mp hc with h | h
        · exact absurd h hn
        · rw [List.mem_singleton.mp h]
      · exact absurd hc hn
    · split at hc
      · exact absurd hc hn
      · exact absurd hc hn
  · intro hterm hpos
    unfold process_flipper_byte
    rw [if_pos hterm, if_pos hpos]
    dsimp only
    rw [emitted_flipper_dispatch, uartOut_append, uart_emitted_process_command]
    cases w <;> rfl

/-- Witness for the amended C15: `HELP` from the console drives no UART
output; `HELP` from the companion device with the UART writable is written
to the UART as well. -/
theorem response_outputs_witness :
    uartOut (emitted (bootState fun _ => true)
      (process_command 0 true (cstr "HELP") false (bootState fun _ => true))) = [] ∧
    uartOut (emitted (bootState fun _ => true)
      (process_command 0 true (cstr "HELP") true (bootState fun _ => true)))
      = [responseOf 0 (cstr "HELP") (bootState fun _ => true), "\n"] :=
  ⟨(response_outputs 0 true false (cstr "HELP") (bootState fun _ => true) 10 10
      (bootFirmware fun _ => true)).2.2.1 rfl,
   (response_outputs 0 true true (cstr "HELP") (bootState fun _ => true) 10 10
      (bootFirmware fun _ => true)).2.2.2.1 rfl rfl⟩

/-- C16: line assembly of one transport alone. Started with an empty
accumulator, the transport dispatches, in order, the terminated lines of the
assembly described in the specification that have at least one character
(a CR or LF met with an empty accumulator dispatches nothing): bytes 32..126
extend the line while fewer than 255 are kept, CR or LF terminates it, other
bytes are ignored. A dispatched line has at most 255 characters, a longer
line being dispatched as its first 255 accepted bytes; what is left in the
buffer is the unterminated rest, and right after a dispatch `cmd_pos` is 0.
This holds for `process_flipper_commands` and for `process_usb_commands`. -/
theorem line_assembly (fw : Firmware) (rx : List Rx)
    (hbuf : fw.command_buffer.length = 256) :
    (fw.flipper_cmd_pos = 0 →
      (process_flipper_commands rx fw).calls = fw.calls
          ++ ((assembleLines [] (rx.map Rx.c)).1.filter (fun l => decide (l ≠ []))).map
              (fun l => (l, true)) ∧
        Accumulates (process_flipper_commands rx fw).command_buffer
          (process_flipper_commands rx fw).flipper_cmd_pos (assembleLines [] (rx.map Rx.c)).2) ∧
    (fw.usb_cmd_pos = 0 →
      (run_transports fw (rx.map (fun r => Arrival.usb r.now r.uart_writable (r.c : Int)))).calls
          = fw.calls
            ++ ((assembleLines [] (rx.map Rx.c)).1.filter (fun l => decide (l ≠ []))).map
                (fun l => (l, false)) ∧
        Accumulates
          (run_transports fw
            (rx.map (fun r => Arrival.usb r.now r.uart_writable (r.c : Int)))).command_buffer
          (run_transports fw
            (rx.map (fun r => Arrival.usb r.now r.uart_writable (r.c : Int)))).usb_cmd_pos
          (assembleLines [] (rx.map Rx.c)).2) ∧
    (∀ l ∈ (assembleLines [] (rx.map Rx.c)).1, l.length ≤ 255) ∧
    (∀ now w b, (process_flipper_byte now w b fw).calls ≠ fw.calls →
      (process_flipper_byte now w b fw).flipper_cmd_pos = 0) ∧
    (∀ now w c, (process_usb_commands now w c fw).calls ≠ fw.calls →
      (process_usb_commands now w c fw).usb_cmd_pos = 0) := by
  refine ⟨?_, ?_, (assembleLines_length _ [] (by simp)).1, ?_, ?_⟩
  · intro hpos
    have hacc : Accumulates fw.command_buffer fw.flipper_cmd_pos [] := by
      rw [hpos]; exact accumulates_nil _ hbuf
    exact assemble_fold (fun st r => process_flipper_byte r.now r.uart_writable r.c st) Rx.c
      Firmware.flipper_cmd_pos true
      (fun fw a acc h => flipper_byte_step a.now a.uart_writable a.c fw acc h) rx fw [] hacc
  · intro hpos
    have hacc : Accumulates fw.command_buffer fw.usb_cmd_pos [] := by
      rw [hpos]; exact accumulates_nil _ hbuf
    rw [run_usb_eq_foldl]
    exact assemble_fold
      (fun st r => process_usb_commands r.now r.uart_writable (r.c : Int) st) Rx.c
      Firmware.usb_cmd_pos false
      (fun fw a acc h => usb_byte_step a.now a.uart_writable a.c fw acc h) rx fw [] hacc
  · intro now w b hne
    unfold process_flipper_byte at hne ⊢
    split
    · split
      · rfl
      · rw [if_pos (by assumption), if_neg (by assumption)] at hne
        exact absurd rfl hne
    · rw [if_neg (by assumption)] at hne
      split at hne
      · exact absurd rfl hne
      · exact absurd rfl hne
  · intro now w c hne
    unfold process_usb_commands at hne ⊢
    split
    · rw [if_pos (by assumption)] at hne
      exact absurd rfl hne
    · rw [if_neg (by assumption)] at hne
      split
      · split
        · rfl
        · rw [if_pos (by assumption), if_neg (by assumption)] at hne
          exact absurd rfl hne
      · rw [if_neg (by assumption)] at hne
        split at hne
        · exact absurd rfl hne
        · exact absurd rfl hne

set_option maxRecDepth 100000 in
/-- Witness for C16: the bytes `ON`, CR, LF, `HELP`, LF, `SC` on the UART
after start-up dispatch `ON` and `HELP` (the empty line between CR and LF
dispatches nothing) and leave `SC` accumulated. -/
theorem line_assembly_witness :
    (process_flipper_commands (uartBytes 0 true (cstr "ON\r\nHELP\nSC"))
      (bootFirmware fun _ => true)).calls
      = (bootFirmware fun _ => true).calls
        ++ ((assembleLines [] ((uartBytes 0 true (cstr "ON\r\nHELP\nSC")).map Rx.c)).1.filter
            (fun l => decide (l ≠ []))).map (fun l => (l, true)) ∧
    (assembleLines [] ((uartBytes 0 true (cstr "ON\r\nHELP\nSC")).map Rx.c))
      = ([cstr "ON", [], cstr "HELP"], cstr "SC") :=
  ⟨((line_assembly (bootFirmware fun _ => true) (uartBytes 0 true (cstr "ON\r\nHELP\nSC"))
      (by simp [bootFirmware])).1 rfl).1, by decide⟩

set_option maxRecDepth 100000 in
/-- C17 (divergence of the code): the two transports do not have independent
accumulators; they share `command_buffer` and only keep separate positions.
When `HELP` has arrived on USB, then `SCAN` on the UART, then LF on USB, the
line dispatched for USB is `SCAN`; with nothing on the UART it is `HELP`. So
the text dispatched for one transport is not always the text it would be if
the other transport had received nothing. -/
theorem shared_buffer_interference :
    linesOf false (run_transports (bootFirmware fun _ => true)
      (usbBytes 0 true (cstr "HELP") ++ [Arrival.flipper (uartBytes 0 true (cstr "SCAN"))]
        ++ usbBytes 0 true (cstr "\n"))).calls = [cstr "SCAN"] ∧
    linesOf false (run_transports (bootFirmware fun _ => true)
      (usbBytes 0 true (cstr "HELP") ++ usbBytes 0 true (cstr "\n"))).calls = [cstr "HELP"] ∧
    ¬ ∀ arrivals : List Arrival,
      linesOf false (run_transports (bootFirmware fun _ => true) arrivals).calls
        = linesOf false (run_transports (bootFirmware fun _ => true)
            (arrivals.filter Arrival.isUsb)).calls := by
  refine ⟨by decide, by decide, ?_⟩
  intro h
  have h1 := h (usbBytes 0 true (cstr "HELP")
    ++ [Arrival.flipper (uartBytes 0 true (cstr "SCAN"))] ++ usbBytes 0 true (cstr "\n"))
  revert h1
  decide

/-- C19: for both bit values `cec_send_bit` asserts the line, waits the low
phase, releases the line and waits the high phase, and the two waits add up
to 2400 microseconds (1500 + 900 for a 0, 600 + 1800 for a 1); for
`cec_send_start_bit` they are 3700 and 800 and add up to 4500. -/
theorem bit_engine_durations (s : State) :
    emitted s (cec_send_bit false s)
      = [.set_pin_low, .busy_wait_us 1500, .set_pin_high, .busy_wait_us 900] ∧
    emitted s (cec_send_bit true s)
      = [.set_pin_low, .busy_wait_us 600, .set_pin_high, .busy_wait_us 1800] ∧
    (∀ b : Bool, pulses (emitted s (cec_send_bit b s)) = [bitPulse b] ∧
      (bitPulse b).1 + (bitPulse b).2 = 2400) ∧
    emitted s (cec_send_start_bit s)
      = [.set_pin_low, .busy_wait_us 3700, .set_pin_high, .busy_wait_us 800] ∧
    pulses (emitted s (cec_send_start_bit s)) = [startPulse] ∧
    startPulse.1 + startPulse.2 = 4500 := by
  simp only [cec_send_bit_eq, cec_send_start_bit_eq, emitted_adv]
  refine ⟨rfl, rfl, ?_, rfl, rfl, rfl⟩
  intro b
  cases b <;> exact ⟨rfl, rfl⟩

/-- C20: the 63-character buffer `cmd_upper` never changes the verb selected.
For every command line the branch that `process_command` takes is the one
that the verb table selects from the whole upper-cased line (exact match for
SCAN, POWER_ON, ON, POWER_OFF, OFF, STATUS, HELP, VERSION; first seven
characters for `CUSTOM:`), the command runs the body of that branch, and the
argument of CUSTOM is all of the original line after its first seven
characters, not cut at 63 and not upper-cased. -/
theorem truncation_preserves_verb (now : Nat) (cmd : List Nat) (s : State) :
    selectedBranch cmd = verbOfLine cmd ∧
    process_command_dispatch now cmd s = run_verb now (verbOfLine cmd) s ∧
    (∀ arg, verbOfLine cmd = .custom arg →
      arg = cmd.drop 7 ∧ cmd.take 7 ++ arg = cmd ∧
      (cmd.take 7).map toupper = cstr "CUSTOM:" ∧
      process_command_dispatch now cmd s
        = ("CUSTOM:" ++ (if (cec_send_custom_command now arg s).1 then "SUCCESS" else "FAILED"),
            (cec_send_custom_command now arg s).2)) := by
  have hrun : process_command_dispatch now cmd s = run_verb now (verbOfLine cmd) s := by
    rw [dispatch_eq_run_selected, selectedBranch_eq]
  refine ⟨selectedBranch_eq cmd, hrun, ?_⟩
  intro arg harg
  have hsel : (cmd.map toupper).take 7 = cstr "CUSTOM:" ∧ arg = cmd.drop 7 := by
    unfold verbOfLine at harg
    split at harg
    · cases harg
    · split at harg
      · cases harg
      · split at harg
        · cases harg
        · split at harg
          · cases harg
          · split at harg
            · next h => exact ⟨h, (Verb.custom.inj harg).symm⟩
            · split at harg
              · cases harg
              · split at harg
                · cases harg
                · cases harg
  refine ⟨hsel.2, ?_, ?_, ?_⟩
  · rw [hsel.2, List.take_append_drop]
  · rw [List.map_take]; exact hsel.1
  · rw [hrun, harg]
    rfl

/-- Witness for C20: a line of 77 characters, `Custom:` followed by 70 hex
digits, selects CUSTOM, and its argument is all 70 digits. -/
theorem truncation_preserves_verb_witness :
    cstr "0123456789012345678901234567890123456789012345678901234567890123456789"
      = (cstr "Custom:0123456789012345678901234567890123456789012345678901234567890123456789").drop 7 ∧
    (cstr "Custom:0123456789012345678901234567890123456789012345678901234567890123456789").length = 77 :=
  ⟨((truncation_preserves_verb 0
      (cstr "Custom:0123456789012345678901234567890123456789012345678901234567890123456789")
      (bootState fun _ => true)).2.2
      (cstr "0123456789012345678901234567890123456789012345678901234567890123456789")
      (by decide)).1, by decide⟩

end CecModule
